import Mathlib

/-!
# WS2812FX effect engine: a shallow embedding of `src/src/WS2812FX.c`

The C globals (`_mode_index`, `_speed`, `_brightness`, ...) become the fields of
one record `FX` that every operation takes and returns.  Machine integers are
natural numbers, reduced with an explicit `% 2^w` wherever the C code stores
into a `uint8_t`, `uint16_t` or `uint32_t`.

The header `WS2812FX.h` is not part of the sources, so the constants it
defines (`MODE_COUNT`, `SPEED_MIN`, `SPEED_MAX`, `BRIGHTNESS_MIN`,
`BRIGHTNESS_MAX`, `BRIGHTNESS_FILTER`) are the fields of a `Config` record that
the operations take as a parameter.
-/

namespace WS2812FX

/-! ## Constants of the missing header -/

/-- Constants defined by `WS2812FX.h`; the floating point filter constant is
kept as an exact rational. -/
structure Config where
  MODE_COUNT : Nat
  SPEED_MIN : Nat
  SPEED_MAX : Nat
  BRIGHTNESS_MIN : Nat
  BRIGHTNESS_MAX : Nat
  BRIGHTNESS_FILTER : ℚ

/-- The values the specification gives for the reference build: brightness
range 0..255, filter constant 0.6; the registry of `WS2812FX_initModes` has 54
entries and speed ranges over a byte. -/
def refConfig : Config :=
  { MODE_COUNT := 54, SPEED_MIN := 0, SPEED_MAX := 255,
    BRIGHTNESS_MIN := 0, BRIGHTNESS_MAX := 255, BRIGHTNESS_FILTER := 3 / 5 }

/-! ## Machine integer conversions -/

/-- Conversion of an integer value to `uint8_t`. -/
def u8 (x : Int) : Nat := (x % 256).toNat

/-- Conversion of an integer value to `uint16_t`. -/
def u16 (x : Int) : Nat := (x % 65536).toNat

/-- Conversion of an integer value to `uint32_t`. -/
def u32 (x : Int) : Nat := (x % 4294967296).toNat

/-- Conversion of a floating point value (kept exact) to `uint8_t`: C truncates
toward zero; a value outside 0..255 is undefined in C and is reduced modulo 256
here. -/
def f2u8 (x : ℚ) : Nat := u8 (if 0 ≤ x then ⌊x⌋ else ⌈x⌉)

/-! ## Pixel Sink (the LED strip driver) -/

/-- One pixel of the driver's buffer. -/
structure RGB where
  r : Nat
  g : Nat
  b : Nat
deriving DecidableEq, Repr

/-- Modelled from the spec: the Pixel Sink's `setPixel(index, r, g, b)`, which is
the external driver call `strip->set_pixel`.  The driver rejects an index
outside its buffer and `ESP_ERROR_CHECK` then aborts, which is `none`. -/
def strip_set_pixel (px : List RGB) (n r g b : Nat) : Option (List RGB) :=
  if n < px.length then some (px.set n ⟨r, g, b⟩) else none

/-- Modelled from the spec: the Pixel Sink's `getPixelPacked(index)`, the
external driver call `strip->get_pixel`; an index outside the buffer aborts. -/
def strip_get_pixel (px : List RGB) (n : Nat) : Option RGB := px[n]?

/-- Modelled from the spec: the Pixel Sink's `clear()`, the external driver call
`strip->clear`, which switches every pixel off. -/
def strip_clear (px : List RGB) : List RGB := List.replicate px.length ⟨0, 0, 0⟩

/-! ## Engine state -/

/-- The globals of `WS2812FX.c`, the driver's pixel buffer `strip`, and the
sequence of values that the C library's `rand()` is going to return together
with the number of values drawn so far. -/
structure FX where
  mode_index : Nat
  speed : Nat
  brightness : Nat
  target_brightness : Nat
  running : Bool
  inverted : Bool
  slow_start : Bool
  led_count : Nat
  color : Nat
  mode_color : Nat
  mode_delay : Nat
  counter_mode_call : Nat
  counter_mode_step : Nat
  mode_last_call_time : Nat
  strip : List RGB
  rand_seq : Nat → Nat
  rand_pos : Nat

/-- An effect render function, the type `mode` of the C code: it mutates the
engine state and may abort in the driver. -/
abbrev Mode := FX → Option FX

/-! ## Helpers -/

/-- The C function `color32`. -/
def color32 (r g b : Nat) : Nat := (r <<< 16) ||| (g <<< 8) ||| b

/-- The C function `constrain` on `uint32_t` values. -/
def constrain (amt low high : Nat) : Nat :=
  if amt < low then low else (if amt > high then high else amt)

/-- The C function `fconstrain`. -/
def fconstrain (amt low high : ℚ) : ℚ :=
  if amt < low then low else (if amt > high then high else amt)

/-- The C function `map`: C integer division truncates toward zero. -/
def map (x in_min in_max out_min out_max : Int) : Int :=
  Int.tdiv ((x - in_min) * (out_max - out_min)) (in_max - in_min) + out_min

/-! ## LED adapter -/

/-- The C function `WS2812_setPixelColor`: optional index inversion (in `uint16_t`), brightness
scaling of the three channels, then the driver call. -/
def WS2812_setPixelColor (cfg : Config) (s : FX) (n r g b : Nat) : Option FX :=
  let n := if s.inverted then u16 (((s.led_count : Int) - 1) - n) else n
  let red := u8 (map r 0 cfg.BRIGHTNESS_MAX cfg.BRIGHTNESS_MIN s.brightness)
  let green := u8 (map g 0 cfg.BRIGHTNESS_MAX cfg.BRIGHTNESS_MIN s.brightness)
  let blue := u8 (map b 0 cfg.BRIGHTNESS_MAX cfg.BRIGHTNESS_MIN s.brightness)
  (strip_set_pixel s.strip n red green blue).map (fun px => { s with strip := px })

/-- The C function `WS2812_setPixelColor32`. -/
def WS2812_setPixelColor32 (cfg : Config) (s : FX) (n c : Nat) : Option FX :=
  let r := u8 ((c >>> 16 : Nat) : Int)
  let g := u8 ((c >>> 8 : Nat) : Int)
  let b := u8 (c : Int)
  WS2812_setPixelColor cfg s n r g b

/-- The C function `WS2812_getPixelColor`: no index inversion on the read path. -/
def WS2812_getPixelColor (s : FX) (n : Nat) : Option Nat :=
  (strip_get_pixel s.strip n).map (fun p => color32 p.r p.g p.b)

/-- The C function `WS2812_clear`. -/
def WS2812_clear (s : FX) : FX := { s with strip := strip_clear s.strip }

/-! ## Scheduler -/

/-- Lines 210-221 of `WS2812FX_service`: the brightness update of one pass. -/
def update_brightness (cfg : Config) (s : FX) : FX :=
  if s.slow_start then
    if s.brightness < s.target_brightness then
      let new_brightness := f2u8 (cfg.BRIGHTNESS_FILTER * (s.brightness : ℚ)
        + (1 - cfg.BRIGHTNESS_FILTER) * (s.target_brightness : ℚ))
      let soft_start := fconstrain (((s.brightness * 4 : Nat) : ℚ) / (cfg.BRIGHTNESS_MAX : ℚ))
        (1 / 10) 1
      let delta := f2u8 ((((new_brightness : Int) - (s.brightness : Int) : Int) : ℚ) * soft_start)
      { s with brightness := (s.brightness + constrain delta 1 delta) % 256 }
    else
      { s with brightness := f2u8 (cfg.BRIGHTNESS_FILTER * (s.brightness : ℚ)
        + (1 - cfg.BRIGHTNESS_FILTER) * (s.target_brightness : ℚ)) }
  else
    { s with brightness := s.target_brightness }

/-- The state handed to the effect when a frame is due: the call counter is
incremented (in `uint32_t`) and the time of the frame recorded. -/
def frame_entry (now : Nat) (s : FX) : FX :=
  { s with counter_mode_call := (s.counter_mode_call + 1) % 4294967296,
           mode_last_call_time := now }

/-- The test `now - _mode_last_call_time > _mode_delay`, in `uint32_t`. -/
def frame_due (now : Nat) (s : FX) : Bool :=
  decide (u32 ((now : Int) - (s.mode_last_call_time : Int)) > s.mode_delay)

/-- One pass of the body of the `while (true)` loop of `WS2812FX_service`;
`modes` is the table `_mode` and `now` the tick count read in this pass. -/
def service_pass (cfg : Config) (modes : Nat → Mode) (now : Nat) (s : FX) : Option FX :=
  if s.running then
    let s1 := update_brightness cfg s
    if frame_due now s1 then
      modes s1.mode_index (frame_entry now s1)
    else
      some s1
  else
    some s

/-- Successive passes of the service loop, one for each tick count of the list;
an abort in the driver ends the run. -/
def service_run (cfg : Config) (modes : Nat → Mode) : List Nat → FX → Option FX
  | [], s => some s
  | now :: rest, s => (service_pass cfg modes now s).bind (service_run cfg modes rest)

/-- The C function `WS2812FX_start`. -/
def WS2812FX_start (s : FX) : FX :=
  { s with counter_mode_call := 0, counter_mode_step := 0, running := true }

/-- The C function `WS2812FX_stop`. -/
def WS2812FX_stop (s : FX) : FX := { s with running := false }

/-! ## Control operations -/

/-- The C function `WS2812FX_setMode`. -/
def WS2812FX_setMode (cfg : Config) (s : FX) (m : Nat) : FX :=
  { s with counter_mode_call := 0, counter_mode_step := 0,
           mode_index := u8 (constrain m 0 (u32 ((cfg.MODE_COUNT : Int) - 1))),
           mode_color := s.color }

/-- The C function `WS2812FX_setSpeed`. -/
def WS2812FX_setSpeed (cfg : Config) (s : FX) (v : Nat) : FX :=
  { s with counter_mode_call := 0, counter_mode_step := 0,
           speed := u8 (constrain v cfg.SPEED_MIN cfg.SPEED_MAX) }

/-- The C function `WS2812FX_setColor32`. -/
def WS2812FX_setColor32 (s : FX) (c : Nat) : FX :=
  { s with color := c, counter_mode_call := 0, counter_mode_step := 0, mode_color := c }

/-- The C function `WS2812FX_setColor`. -/
def WS2812FX_setColor (s : FX) (r g b : Nat) : FX :=
  WS2812FX_setColor32 s ((r <<< 16) ||| (g <<< 8) ||| b)

/-- The C function `WS2812FX_setBrightness`. -/
def WS2812FX_setBrightness (cfg : Config) (s : FX) (b : Nat) : FX :=
  { s with target_brightness := u8 (constrain b cfg.BRIGHTNESS_MIN cfg.BRIGHTNESS_MAX) }

/-- The C function `WS2812FX_getBrightness`. -/
def WS2812FX_getBrightness (s : FX) : Nat := s.target_brightness

/-- The loop of `WS2812FX_mode_static` over `i < _led_count`, run for the `k`
indices from `i` on. -/
def static_loop (cfg : Config) : Nat → Nat → FX → Option FX
  | 0, _, s => some s
  | k + 1, i, s => (WS2812_setPixelColor32 cfg s i s.color).bind (static_loop cfg k (i + 1))

/-- The C function `WS2812FX_mode_static`; `WS2812_show` pushes the buffer to the
hardware and leaves the engine state as it is. -/
def WS2812FX_mode_static (cfg : Config) (s : FX) : Option FX :=
  (static_loop cfg s.led_count 0 s).map (fun s1 => { s1 with mode_delay := 50 })

/-- The mapping the specification gives for `pixelOrderInverted`: logical index
`n` is physical index `ledCount - 1 - n` when the flag is set, `n` otherwise. -/
def spec_physical_index (inverted : Bool) (ledCount n : Nat) : Nat :=
  if inverted then ledCount - 1 - n else n

/-- The clamp of `v` into `[lo, hi]` in the specification's words. -/
def spec_clamp (v lo hi : Nat) : Nat := max lo (min v hi)

/-- A well-formed engine state used for concrete evaluation: a stopped strip of
`n` pixels, all off, brightness 0, base colour red, speed 150, delay 100, and a
fixed sequence standing for the values of `rand()`. -/
def sampleState (n : Nat) : FX :=
  { mode_index := 0, speed := 150, brightness := 0, target_brightness := 0,
    running := false, inverted := false, slow_start := false, led_count := n,
    color := 16711680, mode_color := 16711680, mode_delay := 100,
    counter_mode_call := 0, counter_mode_step := 0, mode_last_call_time := 0,
    strip := List.replicate n ⟨0, 0, 0⟩, rand_seq := fun i => i * 7919 + 13, rand_pos := 0 }

/-! ## Further conversions and helpers -/

/-- Conversion of a floating point value (kept exact) to `uint16_t`, truncating
toward zero; a value outside the range is reduced modulo 65536. -/
def f2u16 (x : ℚ) : Nat := u16 (if 0 ≤ x then ⌊x⌋ else ⌈x⌉)

/-- Conversion of a `uint32_t` value to `int` (two's complement). -/
def i32 (x : Int) : Int := (x + 2147483648) % 4294967296 - 2147483648

/-- The static C function `min`, on `uint16_t` arguments. -/
def min_u16 (a b : Nat) : Nat := if u16 a > u16 b then u16 b else u16 a

/-- The static C function `max`, on `uint32_t` arguments. -/
def max_u32 (a b : Nat) : Nat := if u32 a > u32 b then u32 a else u32 b

/-- The C library's `rand()`: the next value of the sequence held by the state,
kept in `0 .. RAND_MAX` with `RAND_MAX = 2^31 - 1`. -/
def rand (s : FX) : Nat × FX :=
  (s.rand_seq s.rand_pos % 2147483648, { s with rand_pos := s.rand_pos + 1 })

/-- The C function `randomInRange`. -/
def randomInRange (s : FX) (lo hi : Nat) : Nat × FX :=
  if lo < hi then
    ((u32 (((rand s).1 % (hi - lo) : Nat) : Int) + lo) % 4294967296, (rand s).2)
  else if lo = hi then (lo, s)
  else (0, s)

/-! ## Colour utilities -/

/-- The C function `WS2812FX_color_wheel`, for a `uint8_t` position. -/
def WS2812FX_color_wheel (pos : Nat) : Nat :=
  let pos := u8 (255 - (pos : Int))
  if pos < 85 then
    (u32 (255 - (pos : Int) * 3) <<< 16) ||| ((0 : Nat) <<< 8) ||| u32 ((pos : Int) * 3)
  else if pos < 170 then
    let pos := u8 ((pos : Int) - 85)
    ((0 : Nat) <<< 16) ||| (u32 ((pos : Int) * 3) <<< 8) ||| u32 (255 - (pos : Int) * 3)
  else
    let pos := u8 ((pos : Int) - 170)
    (u32 ((pos : Int) * 3) <<< 16) ||| (u32 (255 - (pos : Int) * 3) <<< 8) ||| 0

/-- The C function `WS2812FX_get_random_wheel_index`: the `while (d < 42)` loop,
whose body runs at least once because `d` starts at 0.  The loop has no bound in
C; here it runs for at most `fuel` draws and `none` means the draws ran out. -/
def WS2812FX_get_random_wheel_index (pos : Nat) : Nat → FX → Option (Nat × FX)
  | 0, _ => none
  | fuel + 1, s =>
    let r := u8 ((randomInRange s 0 256).1 : Int)
    let x := u8 (((pos : Int) - (r : Int)).natAbs : Int)
    let y := u8 (255 - (x : Int))
    let d := u8 (min_u16 x y : Int)
    if d < 42 then WS2812FX_get_random_wheel_index pos fuel (randomInRange s 0 256).2
    else some (r, (randomInRange s 0 256).2)

/-! ## Mode selection by angle -/

/-- The C function `WS2812FX_setMode360`; the `float` argument is kept exact. -/
def WS2812FX_setMode360 (cfg : Config) (s : FX) (m : ℚ) : FX :=
  let mode := u8 (map (f2u16 m : Int) 0 360 0 ((cfg.MODE_COUNT : Int) - 1))
  WS2812FX_setMode cfg s mode

/-! ## Effects -/

/-- The delay formula `base + (range * (uint32_t)(SPEED_MAX - _speed)) / _led_count`
that the strip-length dependent effects end with, in `uint32_t`. -/
def delay_by_length (cfg : Config) (s : FX) (base range : Nat) : Nat :=
  (base + u32 ((range : Int) * (u32 ((cfg.SPEED_MAX : Int) - (s.speed : Int)) : Int))
    / s.led_count) % 4294967296

/-- The delay formula `base + (range * (uint32_t)(SPEED_MAX - _speed)) / SPEED_MAX`
that the other effects end with, in `uint32_t`. -/
def delay_by_speed (cfg : Config) (s : FX) (base range : Nat) : Nat :=
  (base + u32 ((range : Int) * (u32 ((cfg.SPEED_MAX : Int) - (s.speed : Int)) : Int))
    / cfg.SPEED_MAX) % 4294967296

/-- The step counter of `WS2812FX_mode_scan` and `WS2812FX_mode_dual_scan` after
the reset test and the increment. -/
def scan_step (s : FX) : Nat :=
  ((if s.counter_mode_step > u32 ((s.led_count : Int) * 2 - 2) then 0
    else s.counter_mode_step) + 1) % 4294967296

/-- The value of `i` in `WS2812FX_mode_scan` and `WS2812FX_mode_dual_scan`:
`abs(_counter_mode_step - (_led_count - 1))`, computed in `uint32_t` and stored
in an `int`. -/
def scan_index (s : FX) : Nat :=
  (i32 (((scan_step s : Int) - ((s.led_count : Int) - 1)) % 4294967296)).natAbs

/-- The C function `WS2812FX_mode_scan`. -/
def WS2812FX_mode_scan (cfg : Config) (s : FX) : Option FX :=
  let s1 := WS2812_clear { s with counter_mode_step := scan_step s }
  (WS2812_setPixelColor32 cfg s1 (u16 (scan_index s : Int)) s1.color).map
    (fun s2 => { s2 with mode_delay := delay_by_length cfg s2 10 30 })

/-- The C function `WS2812FX_mode_dual_scan`. -/
def WS2812FX_mode_dual_scan (cfg : Config) (s : FX) : Option FX :=
  let s1 := WS2812_clear { s with counter_mode_step := scan_step s }
  ((WS2812_setPixelColor32 cfg s1 (u16 (scan_index s : Int)) s1.color).bind
    (fun s2 => WS2812_setPixelColor32 cfg s2
      (u16 ((s2.led_count : Int) - ((scan_index s : Int) + 1))) s2.color)).map
    (fun s3 => { s3 with mode_delay := delay_by_length cfg s3 10 30 })

/-- The loop `for (i = 0; i < _led_count; i = i + 3)` of
`WS2812FX_mode_theater_chase`, which writes colour `c` at `i + off`, run for `k`
iterations from `i` on. -/
def theater_loop (cfg : Config) (off c : Nat) : Nat → Nat → FX → Option FX
  | 0, _, s => some s
  | k + 1, i, s =>
    (WS2812_setPixelColor32 cfg s (u16 ((i : Int) + (off : Int))) c).bind
      (theater_loop cfg off c k (i + 3))

/-- The C function `WS2812FX_mode_theater_chase`; the loop runs for the
`ceil(_led_count / 3)` values `0, 3, 6, ...` below `_led_count` (for strip
lengths up to 65533, where the 16-bit loop counter does not wrap). -/
def WS2812FX_mode_theater_chase (cfg : Config) (s : FX) : Option FX :=
  let j := u8 ((s.counter_mode_call % 6 : Nat) : Int)
  if j % 2 = 0 then
    (theater_loop cfg (j / 2) s.color ((s.led_count + 2) / 3) 0 s).map
      (fun s1 => { s1 with mode_delay := delay_by_speed cfg s1 50 500 })
  else
    (theater_loop cfg (j / 2) 0 ((s.led_count + 2) / 3) 0 s).map
      (fun s1 => { s1 with mode_delay := 1 })

/-! ## Initialisation -/

/-- The constant `WS2812_LED_NUMBER` of `WS2812FX.c`. -/
def WS2812_LED_NUMBER : Nat := 32

/-- The globals as their C initialisers leave them; the three defaults come from
the missing header, and no driver buffer exists yet. -/
def initial_state (DEFAULT_MODE DEFAULT_SPEED DEFAULT_COLOR : Nat) (rand_seq : Nat → Nat) : FX :=
  { mode_index := DEFAULT_MODE, speed := DEFAULT_SPEED, brightness := 0,
    target_brightness := 0, running := false, inverted := false, slow_start := false,
    led_count := 0, color := DEFAULT_COLOR, mode_color := DEFAULT_COLOR, mode_delay := 100,
    counter_mode_call := 0, counter_mode_step := 0, mode_last_call_time := 0,
    strip := [], rand_seq := rand_seq, rand_pos := 0 }

/-- The C function `WS2812_init`: the strip length is set from
`WS2812_LED_NUMBER`, the driver allocates that many pixels, and the strip is
cleared; the argument is not used. -/
def WS2812_init (s : FX) (_pixel_count : Nat) : FX :=
  WS2812_clear { s with led_count := WS2812_LED_NUMBER,
                        strip := List.replicate WS2812_LED_NUMBER ⟨0, 0, 0⟩ }

/-- The C function `WS2812FX_init`: `WS2812_init`, then the service task and the
effect table are set up (both outside the state), then `WS2812FX_start`. -/
def WS2812FX_init (s : FX) (pixel_count : Nat) : FX :=
  WS2812FX_start (WS2812_init s pixel_count)

/-! ## Further control operations -/

/-- The C function `WS2812FX_forceBrightness`, for a `uint8_t` argument. -/
def WS2812FX_forceBrightness (cfg : Config) (s : FX) (b : Nat) : FX :=
  { s with target_brightness := u8 (constrain b cfg.BRIGHTNESS_MIN cfg.BRIGHTNESS_MAX),
           brightness := u8 (constrain b cfg.BRIGHTNESS_MIN cfg.BRIGHTNESS_MAX) }

/-- The C function `WS2812FX_getLength`. -/
def WS2812FX_getLength (s : FX) : Nat := s.led_count

/-! ## Further effects -/

/-- The loop `for (i = 0; i < _led_count; i++) WS2812_setPixelColor32(i, c)` for a
fixed colour `c`, run for the `k` indices from `i` on. -/
def fill_loop (cfg : Config) (c : Nat) : Nat → Nat → FX → Option FX
  | 0, _, s => some s
  | k + 1, i, s => (WS2812_setPixelColor32 cfg s i c).bind (fill_loop cfg c k (i + 1))

/-- The C function `WS2812FX_mode_blink`; `WS2812FX_strip_off` is `WS2812_clear`. -/
def WS2812FX_mode_blink (cfg : Config) (s : FX) : Option FX :=
  (if s.counter_mode_call % 2 = 1 then static_loop cfg s.led_count 0 s
   else some (WS2812_clear s)).map
    (fun s1 => { s1 with mode_delay := delay_by_speed cfg s1 100 1986 })

/-- The C function `WS2812FX_mode_color_wipe`. -/
def WS2812FX_mode_color_wipe (cfg : Config) (s : FX) : Option FX :=
  (if s.counter_mode_step < s.led_count then
      WS2812_setPixelColor32 cfg s (u16 (s.counter_mode_step : Int)) s.color
    else
      WS2812_setPixelColor32 cfg s
        (u16 ((s.counter_mode_step : Int) - (s.led_count : Int))) 0).map
    (fun s1 => { s1 with
      counter_mode_step :=
        ((s1.counter_mode_step + 1) % 4294967296) % u32 ((s1.led_count : Int) * 2),
      mode_delay := delay_by_length cfg s1 5 50 })

/-- The table `breath_delay_steps` of `WS2812FX_mode_breath`. -/
def breath_delay_steps : List Nat :=
  [7, 9, 13, 15, 16, 17, 18, 930, 19, 18, 15, 13, 9, 7, 4, 5, 10]

/-- The table `breath_brightness_steps` of `WS2812FX_mode_breath`. -/
def breath_brightness_steps : List Nat :=
  [150, 125, 100, 75, 50, 25, 16, 15, 16, 25, 50, 75, 100, 125, 150, 220, 255]

/-- The breathing level of one `WS2812FX_mode_breath` frame: the low byte of the
scratch colour (set to `breath_brightness_steps[0] + 1` when the call counter is
0), decremented or incremented in `uint8_t`. -/
def breath_level (s : FX) : Nat :=
  if s.counter_mode_step < 8 then
    u8 ((u8 ((if s.counter_mode_call = 0 then breath_brightness_steps.getD 0 0 + 1
      else s.mode_color : Nat) : Int) : Int) - 1)
  else
    u8 ((u8 ((if s.counter_mode_call = 0 then breath_brightness_steps.getD 0 0 + 1
      else s.mode_color : Nat) : Int) : Int) + 1)

/-- The C function `WS2812FX_mode_breath`.  A table index of 17 or more is out of
bounds in C and reads 0 here. -/
def WS2812FX_mode_breath (cfg : Config) (s : FX) : Option FX :=
  let step := if breath_level s = breath_brightness_steps.getD s.counter_mode_step 0 then
      ((s.counter_mode_step + 1) % 4294967296) % 17
    else s.counter_mode_step
  (static_loop cfg s.led_count 0 { s with counter_mode_step := step }).map
    (fun s1 =>
      { WS2812FX_forceBrightness cfg s1
          (u8 (map (breath_level s : Int) 0 255 0 (s1.brightness : Int))) with
        mode_color := breath_level s,
        mode_delay := breath_delay_steps.getD step 0 })

/-- The brightness `WS2812FX_mode_fade` computes for the current step:
`255 - 2 * abs(step - 127)` mapped from 0..255 to
`min(25, _brightness) .. _brightness`. -/
def fade_level (s : FX) : Int :=
  map (255 - ((i32 ((s.counter_mode_step : Int) - 127)).natAbs : Int) * 2) 0 255
    (min_u16 25 s.brightness : Int) (s.brightness : Int)

/-- The C function `WS2812FX_mode_fade`. -/
def WS2812FX_mode_fade (cfg : Config) (s : FX) : Option FX :=
  (static_loop cfg s.led_count 0 s).map
    (fun s1 =>
      { WS2812FX_forceBrightness cfg s1 (u8 (fade_level s1)) with
        counter_mode_step := ((s1.counter_mode_step + 1) % 4294967296) % 256,
        mode_delay := delay_by_speed cfg s1 5 15 })

/-- The C function `WS2812FX_mode_multi_strobe`. -/
def WS2812FX_mode_multi_strobe (cfg : Config) (s : FX) : Option FX :=
  ((fill_loop cfg 0 s.led_count 0 s).bind
    (fun s1 =>
      if s1.counter_mode_step < u32 (2 * (((s1.speed / 10 : Nat) : Int) + 1)) then
        if s1.counter_mode_step % 2 = 0 then
          (static_loop cfg s1.led_count 0 s1).map (fun s2 => { s2 with mode_delay := 20 })
        else some { s1 with mode_delay := 50 }
      else
        some { s1 with
          mode_delay := u32 (100 + (9 - ((s1.speed % 10 : Nat) : Int)) * 125) })).map
    (fun s3 => { s3 with
      counter_mode_step := ((s3.counter_mode_step + 1) % 4294967296)
        % u32 (2 * (((s3.speed / 10 : Nat) : Int) + 1) + 1) })

/-- The channel selected by `(px_rgb & mask) >> shift`, stored in a `uint8_t`. -/
def channel_of (px_rgb mask shift : Nat) : Nat :=
  u8 (((px_rgb &&& mask) >>> shift : Nat) : Int)

/-- The loop that `WS2812FX_mode_comet` and `WS2812FX_mode_fireworks` start with:
each pixel is read back, its three channels are halved and it is written again,
for the `k` indices from `i` on. -/
def fade_loop (cfg : Config) : Nat → Nat → FX → Option FX
  | 0, _, s => some s
  | k + 1, i, s =>
    (WS2812_getPixelColor s i).bind (fun px_rgb =>
      (WS2812_setPixelColor cfg s i (channel_of px_rgb 16711680 16 >>> 1)
        (channel_of px_rgb 65280 8 >>> 1) (channel_of px_rgb 255 0 >>> 1)).bind
        (fade_loop cfg k (i + 1)))

/-- The C function `WS2812FX_mode_comet`. -/
def WS2812FX_mode_comet (cfg : Config) (s : FX) : Option FX :=
  ((fade_loop cfg s.led_count 0 s).bind
    (fun s1 => WS2812_setPixelColor32 cfg s1 (u16 (s1.counter_mode_step : Int)) s1.color)).map
    (fun s2 => { s2 with
      counter_mode_step := ((s2.counter_mode_step + 1) % 4294967296) % s2.led_count,
      mode_delay := delay_by_length cfg s2 10 10 })

/-- The C function `WS2812FX_mode_twinkle`. -/
def WS2812FX_mode_twinkle (cfg : Config) (s : FX) : Option FX :=
  let s1 : FX :=
    if s.counter_mode_step = 0 then
      { (randomInRange (WS2812_clear s) (max_u32 1 (s.led_count / 5))
          (max_u32 1 (s.led_count / 2))).2 with
        counter_mode_step := (randomInRange (WS2812_clear s) (max_u32 1 (s.led_count / 5))
          (max_u32 1 (s.led_count / 2))).1 }
    else s
  (WS2812_setPixelColor32 cfg (randomInRange s1 0 s1.led_count).2
      (u16 ((randomInRange s1 0 s1.led_count).1 : Int)) s1.mode_color).map
    (fun s2 => { s2 with
      counter_mode_step := u32 ((s2.counter_mode_step : Int) - 1),
      mode_delay := delay_by_speed cfg s2 50 1986 })

/-- The value `WS2812FX_mode_fireworks` computes for one channel of the first LED
from the packed colours of pixels 1 and 0, before it is stored in the `uint8_t`
accumulator. -/
def fireworks_first_raw (c1 c0 : Nat) (mask shift : Nat) : Nat :=
  (((c1 &&& mask) >>> shift) >>> 1) + ((c0 &&& mask) >>> shift)

/-- The pixel `WS2812FX_mode_fireworks` computes for the first LED from the
packed colours of pixels 1 and 0, channel by channel in `uint8_t`. -/
def fireworks_first (c1 c0 : Nat) (mask shift : Nat) : Nat :=
  u8 ((fireworks_first_raw c1 c0 mask shift : Nat) : Int)

/-- The value `WS2812FX_mode_fireworks` computes for one channel of an interior LED
`i` from the packed colours of pixels `i - 1`, `i + 1` and `i`, before it is stored
in the `uint8_t` accumulator. -/
def fireworks_mid_raw (cl cr c : Nat) (mask shift : Nat) : Nat :=
  (((((cl &&& mask) >>> shift) >>> 1) + (((cr &&& mask) >>> shift) >>> 0)) >>> 1)
    + (((c &&& mask) >>> shift) >>> 0)

/-- The pixel `WS2812FX_mode_fireworks` computes for an interior LED `i` from the
packed colours of pixels `i - 1`, `i + 1` and `i`. -/
def fireworks_mid (cl cr c : Nat) (mask shift : Nat) : Nat :=
  u8 ((fireworks_mid_raw cl cr c mask shift : Nat) : Int)

/-- The value `WS2812FX_mode_fireworks` computes for one channel of the last LED
from the packed colours of the last two pixels, before it is stored in the
`uint8_t` accumulator. -/
def fireworks_last_raw (c2 c1 : Nat) (mask shift : Nat) : Nat :=
  (((c2 &&& mask) >>> shift) >>> 2) + ((c1 &&& mask) >>> shift)

/-- The pixel `WS2812FX_mode_fireworks` computes for the last LED from the packed
colours of the last two pixels. -/
def fireworks_last (c2 c1 : Nat) (mask shift : Nat) : Nat :=
  u8 ((fireworks_last_raw c2 c1 mask shift : Nat) : Int)

/-- The interior loop of `WS2812FX_mode_fireworks`, from `i = 1` while
`i < _led_count - 1`, updating the strip in place; run for `k` indices from `i`. -/
def fireworks_loop (cfg : Config) : Nat → Nat → FX → Option FX
  | 0, _, s => some s
  | k + 1, i, s =>
    (WS2812_getPixelColor s (u16 ((i : Int) - 1))).bind (fun cl =>
      (WS2812_getPixelColor s (u16 ((i : Int) + 1))).bind (fun cr =>
        (WS2812_getPixelColor s i).bind (fun c =>
          (WS2812_setPixelColor cfg s i (fireworks_mid cl cr c 16711680 16)
            (fireworks_mid cl cr c 65280 8) (fireworks_mid cl cr c 255 0)).bind
            (fireworks_loop cfg k (i + 1)))))

/-- The spark loop of `WS2812FX_mode_fireworks`: `k` times, one draw decides
whether a second draw picks a pixel that is set to the scratch colour. -/
def spark_loop (cfg : Config) : Nat → FX → Option FX
  | 0, s => some s
  | k + 1, s =>
    if (randomInRange s 0 10).1 = 0 then
      (WS2812_setPixelColor32 cfg
        (randomInRange (randomInRange s 0 10).2 0 s.led_count).2
        (u16 ((randomInRange (randomInRange s 0 10).2 0 s.led_count).1 : Int))
        s.mode_color).bind (spark_loop cfg k)
    else spark_loop cfg k (randomInRange s 0 10).2

/-- The statements of `WS2812FX_mode_fireworks` for the first LED, which has one
neighbour.  Each pixel that they read several times, once per channel, is read
once here. -/
def fireworks_first_led (cfg : Config) (s : FX) : Option FX :=
  (WS2812_getPixelColor s 1).bind (fun c1 =>
    (WS2812_getPixelColor s 0).bind (fun c0 =>
      WS2812_setPixelColor cfg s 0 (fireworks_first c1 c0 16711680 16)
        (fireworks_first c1 c0 65280 8) (fireworks_first c1 c0 255 0)))

/-- The statements of `WS2812FX_mode_fireworks` for the last LED, which has one
neighbour; each pixel is read once. -/
def fireworks_last_led (cfg : Config) (s : FX) : Option FX :=
  (WS2812_getPixelColor s (u16 ((s.led_count : Int) - 2))).bind (fun c2 =>
    (WS2812_getPixelColor s (u16 ((s.led_count : Int) - 1))).bind (fun c1 =>
      WS2812_setPixelColor cfg s (u16 ((s.led_count : Int) - 1))
        (fireworks_last c2 c1 16711680 16) (fireworks_last c2 c1 65280 8)
        (fireworks_last c2 c1 255 0)))

/-- The C function `WS2812FX_mode_fireworks`: the fade loop, the first LED, the
interior loop, the last LED, the spark loop and the delay. -/
def WS2812FX_mode_fireworks (cfg : Config) (s : FX) : Option FX :=
  ((((fade_loop cfg s.led_count 0 s).bind (fireworks_first_led cfg)).bind
    (fun s2 => fireworks_loop cfg (s2.led_count - 2) 1 s2)).bind
    (fireworks_last_led cfg)).bind
    (fun s4 =>
      (spark_loop cfg (max_u32 1 (s4.led_count / 20)) s4).map
        (fun s5 => { s5 with mode_delay := delay_by_length cfg s5 20 20 }))

/-- The counter update and delay that the four dual colour wipe effects end
with, word for word the same in each. -/
def dual_wipe_finish (cfg : Config) (s : FX) : FX :=
  { s with
    counter_mode_step :=
      if s.led_count % 2 ≠ 0 then
        (if (s.counter_mode_step + 1) % 4294967296 > s.led_count then 0
         else (s.counter_mode_step + 1) % 4294967296)
      else
        (if (s.counter_mode_step + 1) % 4294967296 ≥ s.led_count then 0
         else (s.counter_mode_step + 1) % 4294967296),
    mode_delay := delay_by_length cfg s 5 50 }

/-- Two successive calls of `WS2812_setPixelColor32` with the same colour. -/
def set_pair (cfg : Config) (s : FX) (a b : Int) (c : Nat) : Option FX :=
  (WS2812_setPixelColor32 cfg s (u16 a) c).bind (fun s1 => WS2812_setPixelColor32 cfg s1 (u16 b) c)

/-- The C function `WS2812FX_mode_dual_color_wipe_in_out`. -/
def WS2812FX_mode_dual_color_wipe_in_out (cfg : Config) (s : FX) : Option FX :=
  let end_ : Int := i32 ((s.led_count : Int) - (s.counter_mode_step : Int) - 1)
  let mid : Int := if s.led_count % 2 ≠ 0 then ((s.led_count / 2 : Nat) : Int) + 1
    else ((s.led_count / 2 : Nat) : Int)
  (if s.counter_mode_step < u32 mid then
      set_pair cfg s (s.counter_mode_step : Int) end_ s.color
    else if s.led_count % 2 ≠ 0 then
      set_pair cfg s ((s.counter_mode_step : Int) - 1) (end_ + 1) 0
    else
      set_pair cfg s (s.counter_mode_step : Int) end_ 0).map (dual_wipe_finish cfg)

/-- The C function `WS2812FX_mode_dual_color_wipe_in_in`. -/
def WS2812FX_mode_dual_color_wipe_in_in (cfg : Config) (s : FX) : Option FX :=
  let mid : Int := ((s.led_count / 2 : Nat) : Int)
  let i : Int := i32 ((s.counter_mode_step : Int) - mid)
  (if s.led_count % 2 ≠ 0 then
      if s.counter_mode_step ≤ u32 mid then
        set_pair cfg s (s.counter_mode_step : Int)
          ((s.led_count : Int) - (s.counter_mode_step : Int) - 1) s.color
      else
        set_pair cfg s (i - 1) ((s.led_count : Int) - i) 0
    else
      if s.counter_mode_step < u32 mid then
        set_pair cfg s (s.counter_mode_step : Int)
          ((s.led_count : Int) - (s.counter_mode_step : Int) - 1) s.color
      else
        set_pair cfg s i ((s.led_count : Int) - i - 1) 0).map (dual_wipe_finish cfg)

/-- The C function `WS2812FX_mode_dual_color_wipe_out_out`. -/
def WS2812FX_mode_dual_color_wipe_out_out (cfg : Config) (s : FX) : Option FX :=
  let end_ : Int := i32 ((s.led_count : Int) - (s.counter_mode_step : Int) - 1)
  let mid : Int := ((s.led_count / 2 : Nat) : Int)
  (if s.led_count % 2 ≠ 0 then
      if s.counter_mode_step ≤ u32 mid then
        set_pair cfg s (mid + (s.counter_mode_step : Int)) (mid - (s.counter_mode_step : Int))
          s.color
      else
        set_pair cfg s ((s.counter_mode_step : Int) - 1) (end_ + 1) 0
    else
      if s.counter_mode_step < u32 mid then
        set_pair cfg s (mid - (s.counter_mode_step : Int) - 1) (mid + (s.counter_mode_step : Int))
          s.color
      else
        set_pair cfg s (s.counter_mode_step : Int) end_ 0).map (dual_wipe_finish cfg)

/-- The C function `WS2812FX_mode_dual_color_wipe_out_in`. -/
def WS2812FX_mode_dual_color_wipe_out_in (cfg : Config) (s : FX) : Option FX :=
  let mid : Int := ((s.led_count / 2 : Nat) : Int)
  let i : Int := i32 ((s.counter_mode_step : Int) - mid)
  (if s.led_count % 2 ≠ 0 then
      if s.counter_mode_step ≤ u32 mid then
        set_pair cfg s (mid + (s.counter_mode_step : Int)) (mid - (s.counter_mode_step : Int))
          s.color
      else
        set_pair cfg s (i - 1) ((s.led_count : Int) - i) 0
    else
      if s.counter_mode_step < u32 mid then
        set_pair cfg s (mid - (s.counter_mode_step : Int) - 1) (mid + (s.counter_mode_step : Int))
          s.color
      else
        set_pair cfg s i ((s.led_count : Int) - i - 1) 0).map (dual_wipe_finish cfg)

/-- The loop of `WS2812FX_mode_single_dynamic` and `WS2812FX_mode_multi_dynamic`:
each pixel gets the wheel colour of a fresh draw `randomInRange(0, 256)`, passed to
`WS2812FX_color_wheel` as a `uint8_t`; run for the `k` indices from `i` on. -/
def random_fill_loop (cfg : Config) : Nat → Nat → FX → Option FX
  | 0, _, s => some s
  | k + 1, i, s =>
    (WS2812_setPixelColor32 cfg (randomInRange s 0 256).2 i
      (WS2812FX_color_wheel (u8 ((randomInRange s 0 256).1 : Int)))).bind
      (random_fill_loop cfg k (i + 1))

/-- The C function `WS2812FX_mode_single_dynamic`.  C leaves the order of the two
draws in the arguments of the last write open; here the index is drawn first. -/
def WS2812FX_mode_single_dynamic (cfg : Config) (s : FX) : Option FX :=
  ((if s.counter_mode_call = 0 then random_fill_loop cfg s.led_count 0 s else some s).bind
    (fun s1 =>
      WS2812_setPixelColor32 cfg
        (randomInRange (randomInRange s1 0 s1.led_count).2 0 256).2
        (u16 ((randomInRange s1 0 s1.led_count).1 : Int))
        (WS2812FX_color_wheel
          (u8 ((randomInRange (randomInRange s1 0 s1.led_count).2 0 256).1 : Int))))).map
    (fun s2 => { s2 with mode_delay := delay_by_speed cfg s2 10 5000 })

/-! ## Definitions used to state the properties -/

/-- The three channels of a packed colour, unpacked the way
`WS2812_setPixelColor32` does: red, green, blue. -/
def channels (c : Nat) : List Nat :=
  [u8 ((c >>> 16 : Nat) : Int), u8 ((c >>> 8 : Nat) : Int), u8 (c : Int)]

/-- The number of channels of a packed colour that are 0. -/
def zero_channels (c : Nat) : Nat := (channels c).count 0

/-- The channel-wise absolute differences of two packed colours. -/
def channel_diffs (c₁ c₂ : Nat) : List Nat :=
  List.zipWith (fun a b => (a - b) + (b - a)) (channels c₁) (channels c₂)

/-- The colour wheel in the specification's closed form: with `q = 255 - pos`,
the channels red, green, blue of position `pos`. -/
def spec_color_wheel (pos : Nat) : Nat × Nat × Nat :=
  if 255 - pos < 85 then (255 - 3 * (255 - pos), 0, 3 * (255 - pos))
  else if 255 - pos < 170 then (0, 3 * (255 - pos - 85), 255 - 3 * (255 - pos - 85))
  else (3 * (255 - pos - 170), 255 - 3 * (255 - pos - 170), 0)

/-- The circular distance of the specification between two wheel positions:
`min(|y - pos|, 255 - |y - pos|)`. -/
def spec_wheel_distance (pos y : Nat) : Nat :=
  Nat.min ((y - pos) + (pos - y)) (255 - ((y - pos) + (pos - y)))

/-- The result of `n` successive frames of one effect; an abort ends the run. -/
def frames (f : Mode) : Nat → FX → Option FX
  | 0, s => some s
  | n + 1, s => (f s).bind (frames f n)

/-- The pixel that `WS2812_setPixelColor32` hands to the driver for the packed
colour `c`: its three bytes, each scaled by `map` to the current brightness. -/
def scaled_pixel (cfg : Config) (s : FX) (c : Nat) : RGB :=
  RGB.mk
    (u8 (map (u8 ((c >>> 16 : Nat) : Int) : Int) 0 (cfg.BRIGHTNESS_MAX : Int)
      (cfg.BRIGHTNESS_MIN : Int) (s.brightness : Int)))
    (u8 (map (u8 ((c >>> 8 : Nat) : Int) : Int) 0 (cfg.BRIGHTNESS_MAX : Int)
      (cfg.BRIGHTNESS_MIN : Int) (s.brightness : Int)))
    (u8 (map (u8 (c : Int) : Int) 0 (cfg.BRIGHTNESS_MAX : Int)
      (cfg.BRIGHTNESS_MIN : Int) (s.brightness : Int)))

/-- The static scenario of the specification: from the initial globals,
`init(30)`, `setMode(STATIC)`, `setColor(255, 0, 0)`, `setBrightness(255)` and
`start()`, up to the tick. -/
def static_scenario_setup (cfg : Config) (STATIC dMode dSpeed dColor : Nat)
    (rand_seq : Nat → Nat) : FX :=
  WS2812FX_start
    (WS2812FX_setBrightness cfg
      (WS2812FX_setColor
        (WS2812FX_setMode cfg
          (WS2812FX_init (initial_state dMode dSpeed dColor rand_seq) 30) STATIC)
        255 0 0)
      255)

/-- The static scenario with its one pass of the service loop at time `t`. -/
def static_scenario (cfg : Config) (modes : Nat → Mode) (STATIC dMode dSpeed dColor : Nat)
    (rand_seq : Nat → Nat) (t : Nat) : Option FX :=
  service_pass cfg modes t (static_scenario_setup cfg STATIC dMode dSpeed dColor rand_seq)

/-! ## Patterns of the wipe effects -/

/-- The state of a wipe effect relative to its start state `s0`, with inversion
off: same strip length, colour and brightness, the given step counter, and each
pixel either lit (the scaled base colour), where `L` holds, or off. -/
def wipe_state (cfg : Config) (s0 : FX) (L : Nat → Prop) (step : Nat) (x : FX) : Prop :=
  x.led_count = s0.led_count ∧ x.strip.length = s0.led_count ∧ x.inverted = false ∧
  x.color = s0.color ∧ x.brightness = s0.brightness ∧ x.counter_mode_step = step ∧
  (∀ j : Nat, j < s0.led_count → L j → x.strip[j]? = some (scaled_pixel cfg s0 s0.color)) ∧
  (∀ j : Nat, j < s0.led_count → ¬ L j → x.strip[j]? = some (RGB.mk 0 0 0))

/-- Pixels lit after `k` frames of the colour wipe on `n` pixels: the first `k`
while lighting up, those from `k - n` on while switching off. -/
def wipe_lit (n k j : Nat) : Prop := if k ≤ n then j < k else k ≤ j + n

/-- Pixels lit after `k` frames that light the strip from both edges inward. -/
def lit_edges (n k j : Nat) : Prop := j < k ∨ n ≤ j + k

/-- Pixels lit after `k` frames that light the strip from the middle outward. -/
def lit_middle (n k j : Nat) : Prop := (n + 1) / 2 ≤ j + k ∧ j + 1 ≤ n / 2 + k

/-- Pixels still lit after `k` frames in all, once the strip is switched off from
the middle outward. -/
def dark_middle (n k j : Nat) : Prop := j + k < n + n % 2 ∨ k ≤ j + n % 2

/-- Pixels still lit after `k` frames in all, once the strip is switched off from
both edges inward. -/
def dark_edges (n k j : Nat) : Prop := k ≤ j + (n + 1) / 2 ∧ j + k < n + (n + 1) / 2

/-- Pixels lit after `k` frames of a dual colour wipe: the lighting pattern `lit`
for the first `ceil(n / 2)` frames, then the pattern `dark`. -/
def phase_lit (lit dark : Nat → Nat → Nat → Prop) (n k j : Nat) : Prop :=
  if k ≤ (n + 1) / 2 then lit n k j else dark n k j

/-! ## Read-back effects -/

/-- Every channel of every pixel of a driver buffer is a byte. -/
def byte_pixels (px : List RGB) : Prop := ∀ p ∈ px, p.r < 256 ∧ p.g < 256 ∧ p.b < 256

/-- The pixel that one iteration of `fade_loop` writes back for a stored pixel
`p`: each channel halved, then scaled to the current brightness by
`WS2812_setPixelColor`. -/
def faded_pixel (cfg : Config) (s : FX) (p : RGB) : RGB :=
  RGB.mk
    (u8 (map ((p.r >>> 1 : Nat) : Int) 0 (cfg.BRIGHTNESS_MAX : Int)
      (cfg.BRIGHTNESS_MIN : Int) (s.brightness : Int)))
    (u8 (map ((p.g >>> 1 : Nat) : Int) 0 (cfg.BRIGHTNESS_MAX : Int)
      (cfg.BRIGHTNESS_MIN : Int) (s.brightness : Int)))
    (u8 (map ((p.b >>> 1 : Nat) : Int) 0 (cfg.BRIGHTNESS_MAX : Int)
      (cfg.BRIGHTNESS_MIN : Int) (s.brightness : Int)))

/-- A pixel whose three channels have the same value. -/
def gray (v : Nat) : RGB := RGB.mk v v v

/-- A three-pixel strip at brightness `B` whose middle pixel holds (200, 100, 50),
with the step counter at 0. -/
def fade_sample (B : Nat) : FX :=
  { sampleState 3 with
    brightness := B, strip := [RGB.mk 0 0 0, RGB.mk 200 100 50, RGB.mk 0 0 0] }

/-- The pixel that `WS2812FX_mode_fireworks` stores at the first LED when pixels
1 and 0 hold `p1` and `p0`. -/
def first_pixel (cfg : Config) (s : FX) (p1 p0 : RGB) : RGB :=
  RGB.mk
    (u8 (map (fireworks_first (color32 p1.r p1.g p1.b) (color32 p0.r p0.g p0.b) 16711680 16 : Nat)
      0 (cfg.BRIGHTNESS_MAX : Int) (cfg.BRIGHTNESS_MIN : Int) (s.brightness : Int)))
    (u8 (map (fireworks_first (color32 p1.r p1.g p1.b) (color32 p0.r p0.g p0.b) 65280 8 : Nat)
      0 (cfg.BRIGHTNESS_MAX : Int) (cfg.BRIGHTNESS_MIN : Int) (s.brightness : Int)))
    (u8 (map (fireworks_first (color32 p1.r p1.g p1.b) (color32 p0.r p0.g p0.b) 255 0 : Nat)
      0 (cfg.BRIGHTNESS_MAX : Int) (cfg.BRIGHTNESS_MIN : Int) (s.brightness : Int)))

/-- The pixel that the interior loop of `WS2812FX_mode_fireworks` stores at LED `i`
when pixels `i - 1`, `i + 1` and `i` hold `pl`, `pr` and `pc`. -/
def mid_pixel (cfg : Config) (s : FX) (pl pr pc : RGB) : RGB :=
  RGB.mk
    (u8 (map (fireworks_mid (color32 pl.r pl.g pl.b) (color32 pr.r pr.g pr.b)
        (color32 pc.r pc.g pc.b) 16711680 16 : Nat)
      0 (cfg.BRIGHTNESS_MAX : Int) (cfg.BRIGHTNESS_MIN : Int) (s.brightness : Int)))
    (u8 (map (fireworks_mid (color32 pl.r pl.g pl.b) (color32 pr.r pr.g pr.b)
        (color32 pc.r pc.g pc.b) 65280 8 : Nat)
      0 (cfg.BRIGHTNESS_MAX : Int) (cfg.BRIGHTNESS_MIN : Int) (s.brightness : Int)))
    (u8 (map (fireworks_mid (color32 pl.r pl.g pl.b) (color32 pr.r pr.g pr.b)
        (color32 pc.r pc.g pc.b) 255 0 : Nat)
      0 (cfg.BRIGHTNESS_MAX : Int) (cfg.BRIGHTNESS_MIN : Int) (s.brightness : Int)))

/-- The pixel that `WS2812FX_mode_fireworks` stores at the last LED when the last
two pixels hold `p2` and `p1`. -/
def last_pixel (cfg : Config) (s : FX) (p2 p1 : RGB) : RGB :=
  RGB.mk
    (u8 (map (fireworks_last (color32 p2.r p2.g p2.b) (color32 p1.r p1.g p1.b) 16711680 16 : Nat)
      0 (cfg.BRIGHTNESS_MAX : Int) (cfg.BRIGHTNESS_MIN : Int) (s.brightness : Int)))
    (u8 (map (fireworks_last (color32 p2.r p2.g p2.b) (color32 p1.r p1.g p1.b) 65280 8 : Nat)
      0 (cfg.BRIGHTNESS_MAX : Int) (cfg.BRIGHTNESS_MIN : Int) (s.brightness : Int)))
    (u8 (map (fireworks_last (color32 p2.r p2.g p2.b) (color32 p1.r p1.g p1.b) 255 0 : Nat)
      0 (cfg.BRIGHTNESS_MAX : Int) (cfg.BRIGHTNESS_MIN : Int) (s.brightness : Int)))

/-- The buffer of `n` pixels while the interior loop of `WS2812FX_mode_fireworks`
stands at index `i`, for a frame that started with only pixel `k` lit, all channels
255, at full brightness: the pixels from `i` on still hold their faded values, 127
at `k` and 0 elsewhere; before `k - 1` every pixel is 0; and pixels `k - 1`, `k` and
`k + 1` hold 63, 142 and 35 once the loop has passed them. -/
def fireworks_pattern (k n i : Nat) (px : List RGB) : Prop :=
  px.length = n ∧
  (∀ j : Nat, i ≤ j → j < n → px[j]? = some (if j = k then gray 127 else gray 0)) ∧
  (i < k → ∀ j : Nat, j < i → px[j]? = some (gray 0)) ∧
  (k ≤ i → px[k - 1]? = some (gray 63)) ∧
  (k + 1 ≤ i → px[k]? = some (gray 142)) ∧
  (k + 2 ≤ i → px[k + 1]? = some (gray 35))

/-- A five-pixel strip at full brightness with only pixel 2 lit, all channels 255. -/
def fireworks_sample : FX :=
  { sampleState 5 with
    brightness := 255, strip := [gray 0, gray 0, gray 255, gray 0, gray 0] }

/-! ## Draws of the random hue loop -/

/-- The value `r` that `WS2812FX_get_random_wheel_index` draws in its iteration
number `t` (from 0) when it is entered in state `s`: `randomInRange(0, 256)`,
stored in a `uint8_t`, taken `t` values further into the `rand()` sequence. -/
def wheel_draw (s : FX) (t : Nat) : Nat :=
  u8 ((randomInRange { s with rand_pos := s.rand_pos + t } 0 256).1 : Int)

/-- A running four-pixel strip, all pixels off, at brightness 255 with base colour
`c`, right after `WS2812FX_setMode` and `WS2812FX_start`. -/
def first_frame_sample (c : Nat) : FX :=
  WS2812FX_start (WS2812FX_setMode refConfig
    { sampleState 4 with brightness := 255, target_brightness := 255, color := c } 0)

/-- Every channel of the pixel is at most `b`. -/
def channels_le (b : Nat) (p : RGB) : Prop := p.r ≤ b ∧ p.g ≤ b ∧ p.b ≤ b

/-- The buffer of `n` pixels while the diffusion pass of `WS2812FX_mode_fireworks`
stands at index `i`: every channel is at most 253, and the pixels from `i` on
still hold their faded values, at most 127. -/
def fireworks_bounded (n i : Nat) (px : List RGB) : Prop :=
  px.length = n ∧ (∀ p ∈ px, channels_le 253 p) ∧
  (∀ (j : Nat) (p : RGB), i ≤ j → px[j]? = some p → channels_le 127 p)

/-- The three channel values computed for the first LED from the packed colours
`c1` and `c0` are at most 254 before they are stored. -/
def first_raw_ok (c1 c0 : Nat) : Prop :=
  fireworks_first_raw c1 c0 16711680 16 ≤ 254 ∧ fireworks_first_raw c1 c0 65280 8 ≤ 254 ∧
  fireworks_first_raw c1 c0 255 0 ≤ 254

/-- The three channel values computed for an interior LED from the packed colours
`cl`, `cr` and `c` are at most 254 before they are stored. -/
def mid_raw_ok (cl cr c : Nat) : Prop :=
  fireworks_mid_raw cl cr c 16711680 16 ≤ 254 ∧ fireworks_mid_raw cl cr c 65280 8 ≤ 254 ∧
  fireworks_mid_raw cl cr c 255 0 ≤ 254

/-- The three channel values computed for the last LED from the packed colours
`c2` and `c1` are at most 254 before they are stored. -/
def last_raw_ok (c2 c1 : Nat) : Prop :=
  fireworks_last_raw c2 c1 16711680 16 ≤ 254 ∧ fireworks_last_raw c2 c1 65280 8 ≤ 254 ∧
  fireworks_last_raw c2 c1 255 0 ≤ 254

/-- A five-pixel strip at full brightness with every channel of every pixel 255. -/
def fireworks_full_sample : FX :=
  { sampleState 5 with
    brightness := 255, strip := [gray 255, gray 255, gray 255, gray 255, gray 255] }

/-! ## Scheduler theorems -/

theorem update_brightness_frame (cfg : Config) (s : FX) :
    (update_brightness cfg s).counter_mode_call = s.counter_mode_call ∧
    (update_brightness cfg s).counter_mode_step = s.counter_mode_step ∧
    (update_brightness cfg s).mode_last_call_time = s.mode_last_call_time ∧
    (update_brightness cfg s).mode_delay = s.mode_delay ∧
    (update_brightness cfg s).strip = s.strip ∧
    (update_brightness cfg s).mode_index = s.mode_index ∧
    (update_brightness cfg s).running = s.running := by
  unfold update_brightness
  split_ifs <;> simp

theorem frame_due_update (cfg : Config) (now : Nat) (s : FX) :
    frame_due now (update_brightness cfg s) = frame_due now s := by
  obtain ⟨_, _, h3, h4, _⟩ := update_brightness_frame cfg s
  simp [frame_due, h3, h4]

theorem frame_due_iff (now : Nat) (s : FX) :
    frame_due now s = true ↔
      ((now : Int) - (s.mode_last_call_time : Int)) % 4294967296 > (s.mode_delay : Int) := by
  have hnn : (0 : Int) ≤ ((now : Int) - (s.mode_last_call_time : Int)) % 4294967296 :=
    Int.emod_nonneg _ (by norm_num)
  simp only [frame_due, u32, decide_eq_true_eq]
  omega

/-- C1. Running case of one pass of the service loop, for any effect table and
any 32-bit time `now`: a frame is rendered exactly when
`(now - _mode_last_call_time) mod 2^32 > _mode_delay`.  When it is, the result of
the pass is the active effect applied to a state whose call counter is the old
one incremented by one (in 32-bit arithmetic, so by exactly 1 below the top of
the range), whose last frame time is `now`, and whose step counter, delay and
pixel buffer are the old ones.  When it is not, no effect is invoked and call
counter, step counter, last frame time, delay and pixel buffer are unchanged. -/
theorem service_pass_running (cfg : Config) (modes : Nat → Mode) (now : Nat) (s : FX)
    (hrun : s.running = true) (_hnow : now < 4294967296) :
    (((now : Int) - (s.mode_last_call_time : Int)) % 4294967296 > (s.mode_delay : Int) →
      ∃ e : FX, service_pass cfg modes now s = modes s.mode_index e ∧
        e.counter_mode_call = (s.counter_mode_call + 1) % 4294967296 ∧
        (s.counter_mode_call < 4294967295 → e.counter_mode_call = s.counter_mode_call + 1) ∧
        e.mode_last_call_time = now ∧
        e.counter_mode_step = s.counter_mode_step ∧
        e.mode_delay = s.mode_delay ∧
        e.strip = s.strip) ∧
    (¬ ((now : Int) - (s.mode_last_call_time : Int)) % 4294967296 > (s.mode_delay : Int) →
      ∃ s' : FX, service_pass cfg modes now s = some s' ∧
        s' = update_brightness cfg s ∧
        s'.counter_mode_call = s.counter_mode_call ∧
        s'.counter_mode_step = s.counter_mode_step ∧
        s'.mode_last_call_time = s.mode_last_call_time ∧
        s'.mode_delay = s.mode_delay ∧
        s'.strip = s.strip) := by
  obtain ⟨h1, h2, h3, h4, h5, h6, _⟩ := update_brightness_frame cfg s
  constructor
  · intro hdue
    have hd : frame_due now (update_brightness cfg s) = true := by
      rw [frame_due_update]; exact (frame_due_iff now s).2 hdue
    refine ⟨frame_entry now (update_brightness cfg s), ?_, ?_, ?_, rfl, ?_, ?_, ?_⟩
    · simp [service_pass, hrun, hd, h6]
    · simp [frame_entry, h1]
    · intro hlt
      simp only [frame_entry, h1]
      exact Nat.mod_eq_of_lt (by omega)
    · simpa [frame_entry] using h2
    · simpa [frame_entry] using h4
    · simpa [frame_entry] using h5
  · intro hnd
    have hd : frame_due now (update_brightness cfg s) = false := by
      rw [frame_due_update]
      cases hfd : frame_due now s
      · rfl
      · exact absurd ((frame_due_iff now s).1 hfd) hnd
    exact ⟨update_brightness cfg s, by simp [service_pass, hrun, hd], rfl, h1, h2, h3, h4, h5⟩

/-- Witness for C1: a started four-pixel strip at time 1000, where a frame is due
and the static effect is invoked with call counter 1. -/
theorem service_pass_running_witness :
    (WS2812FX_start (sampleState 4)).running = true ∧ (1000 : Nat) < 4294967296 ∧
    ∃ e : FX, service_pass refConfig (fun _ => WS2812FX_mode_static refConfig) 1000
        (WS2812FX_start (sampleState 4)) = WS2812FX_mode_static refConfig e ∧
      e.counter_mode_call = 1 ∧ e.mode_last_call_time = 1000 := by
  refine ⟨rfl, by norm_num, ?_⟩
  obtain ⟨e, h1, h2, _, h4, _⟩ :=
    (service_pass_running refConfig (fun _ => WS2812FX_mode_static refConfig) 1000
      (WS2812FX_start (sampleState 4)) rfl (by norm_num)).1 (by decide)
  exact ⟨e, h1, h2, h4⟩

theorem service_pass_not_running (cfg : Config) (modes : Nat → Mode) (now : Nat) (s : FX)
    (h : s.running = false) : service_pass cfg modes now s = some s := by
  simp [service_pass, h]

theorem service_run_not_running (cfg : Config) (modes : Nat → Mode) (nows : List Nat) (s : FX)
    (h : s.running = false) : service_run cfg modes nows s = some s := by
  induction nows with
  | nil => rfl
  | cons now rest ih => simp [service_run, service_pass_not_running cfg modes now s h, ih]

/-- C2. Stopped case: with `_running` false one pass of the service loop returns
the state unchanged, in every field; so any number of passes after
`WS2812FX_stop` leave the state as `WS2812FX_stop` left it, and `WS2812FX_stop`
changes the `_running` flag and nothing else. -/
theorem service_stopped_noop (cfg : Config) (modes : Nat → Mode) :
    (∀ (now : Nat) (s : FX), s.running = false → service_pass cfg modes now s = some s) ∧
    (∀ (nows : List Nat) (s : FX),
      service_run cfg modes nows (WS2812FX_stop s) = some (WS2812FX_stop s)) ∧
    (∀ s : FX, WS2812FX_stop s = { s with running := false }) :=
  ⟨fun now s h => service_pass_not_running cfg modes now s h,
   fun nows s => service_run_not_running cfg modes nows (WS2812FX_stop s) rfl,
   fun _ => rfl⟩

/-- Witness for C2: a stopped strip ignores a tick at time 5000. -/
theorem service_stopped_noop_witness :
    (sampleState 4).running = false ∧
    service_pass refConfig (fun _ => WS2812FX_mode_static refConfig) 5000 (sampleState 4)
      = some (sampleState 4) :=
  ⟨rfl, (service_stopped_noop refConfig (fun _ => WS2812FX_mode_static refConfig)).1 5000
    (sampleState 4) rfl⟩

/-! ## Brightness slew -/

theorem f2u8_of_floor (x : ℚ) (n : Nat) (h0 : 0 ≤ x) (hn : ⌊x⌋ = (n : Int)) (h : n < 256) :
    f2u8 x = n := by
  simp only [f2u8, u8, if_pos h0, hn]
  omega

theorem fconstrain_bounds (amt low high : ℚ) (h : low ≤ high) :
    low ≤ fconstrain amt low high ∧ fconstrain amt low high ≤ high := by
  unfold fconstrain
  split_ifs with h1 h2
  · exact ⟨le_refl _, h⟩
  · exact ⟨h, le_refl _⟩
  · exact ⟨not_lt.1 h1, not_lt.1 h2⟩

theorem constrain_one (d : Nat) : constrain d 1 d = max d 1 := by
  unfold constrain
  split_ifs <;> omega

theorem filter_floor_bounds (b t : Nat) (hbt : b < t) :
    (b : Int) ≤ ⌊(3 / 5 : ℚ) * (b : ℚ) + (1 - 3 / 5) * (t : ℚ)⌋ ∧
    ⌊(3 / 5 : ℚ) * (b : ℚ) + (1 - 3 / 5) * (t : ℚ)⌋ < (t : Int) := by
  have hq : (b : ℚ) < (t : ℚ) := by exact_mod_cast hbt
  constructor
  · rw [Int.le_floor]
    push_cast
    linarith
  · rw [Int.floor_lt]
    push_cast
    linarith

theorem slew_step_bounds (b t : Nat) (hbt : b < t) (ht : t ≤ 255) (soft : ℚ)
    (hs0 : 0 ≤ soft) (hs1 : soft ≤ 1) :
    b < (b + constrain
          (f2u8 ((((f2u8 ((3 / 5 : ℚ) * (b : ℚ) + (1 - 3 / 5) * (t : ℚ)) : Int) - (b : Int) : Int) : ℚ) * soft))
          1
          (f2u8 ((((f2u8 ((3 / 5 : ℚ) * (b : ℚ) + (1 - 3 / 5) * (t : ℚ)) : Int) - (b : Int) : Int) : ℚ) * soft))) % 256 ∧
    (b + constrain
          (f2u8 ((((f2u8 ((3 / 5 : ℚ) * (b : ℚ) + (1 - 3 / 5) * (t : ℚ)) : Int) - (b : Int) : Int) : ℚ) * soft))
          1
          (f2u8 ((((f2u8 ((3 / 5 : ℚ) * (b : ℚ) + (1 - 3 / 5) * (t : ℚ)) : Int) - (b : Int) : Int) : ℚ) * soft))) % 256 ≤ t := by
  obtain ⟨hlo, hhi⟩ := filter_floor_bounds b t hbt
  set x : ℚ := (3 / 5 : ℚ) * (b : ℚ) + (1 - 3 / 5) * (t : ℚ) with hx
  have hx0 : 0 ≤ x := by
    have h1 : (0 : ℚ) ≤ (b : ℚ) := Nat.cast_nonneg b
    have h2 : (0 : ℚ) ≤ (t : ℚ) := Nat.cast_nonneg t
    rw [hx]; linarith
  obtain ⟨n, hn⟩ : ∃ n : Nat, ⌊x⌋ = (n : Int) := ⟨⌊x⌋.toNat, by omega⟩
  have hnew : f2u8 x = n := f2u8_of_floor x n hx0 hn (by omega)
  rw [hnew]
  have hbn : b ≤ n := by omega
  have hnt : n < t := by omega
  set y : ℚ := (((n : Int) - (b : Int) : Int) : ℚ) * soft with hy
  have hd0 : (0 : ℚ) ≤ (((n : Int) - (b : Int) : Int) : ℚ) := by
    have : (0 : Int) ≤ (n : Int) - (b : Int) := by omega
    exact_mod_cast this
  have hy0 : 0 ≤ y := mul_nonneg hd0 hs0
  have hy1 : y ≤ (((n : Int) - (b : Int) : Int) : ℚ) := by
    rw [hy]; nlinarith
  have hfl0 : (0 : Int) ≤ ⌊y⌋ := Int.floor_nonneg.2 hy0
  have hfl1 : ⌊y⌋ ≤ (n : Int) - (b : Int) := by
    have h1 : ((⌊y⌋ : Int) : ℚ) ≤ (((n : Int) - (b : Int) : Int) : ℚ) := le_trans (Int.floor_le y) hy1
    exact_mod_cast h1
  obtain ⟨d, hd⟩ : ∃ d : Nat, ⌊y⌋ = (d : Int) := ⟨⌊y⌋.toNat, by omega⟩
  have hdelta : f2u8 y = d := f2u8_of_floor y d hy0 hd (by omega)
  rw [hdelta, constrain_one]
  have hdle : d ≤ n - b := by omega
  have hm : b + max d 1 ≤ t := by
    rcases Nat.lt_or_ge d 1 with h | h
    · rw [max_eq_right (by omega)]; omega
    · rw [max_eq_left h]; omega
  rw [Nat.mod_eq_of_lt (by omega)]
  constructor
  · have : 1 ≤ max d 1 := le_max_right _ _
    omega
  · exact hm

theorem update_brightness_keeps (cfg : Config) (s : FX) :
    (update_brightness cfg s).target_brightness = s.target_brightness ∧
    (update_brightness cfg s).slow_start = s.slow_start := by
  unfold update_brightness
  split_ifs <;> simp

theorem update_brightness_up (cfg : Config) (hf : cfg.BRIGHTNESS_FILTER = 3 / 5)
    (s : FX) (hss : s.slow_start = true)
    (hbt : s.brightness < s.target_brightness) (ht : s.target_brightness ≤ 255) :
    s.brightness < (update_brightness cfg s).brightness ∧
    (update_brightness cfg s).brightness ≤ s.target_brightness := by
  obtain ⟨h0, h1⟩ := fconstrain_bounds
    (((s.brightness * 4 : Nat) : ℚ) / (cfg.BRIGHTNESS_MAX : ℚ)) (1 / 10) 1 (by norm_num)
  have hb := slew_step_bounds s.brightness s.target_brightness hbt ht
    (fconstrain (((s.brightness * 4 : Nat) : ℚ) / (cfg.BRIGHTNESS_MAX : ℚ)) (1 / 10) 1)
    (le_trans (by norm_num) h0) h1
  rw [update_brightness, if_pos hss, if_pos hbt]
  simp only [hf]
  exact hb

theorem slew_reaches (cfg : Config) (hf : cfg.BRIGHTNESS_FILTER = 3 / 5) :
    ∀ (d : Nat) (s : FX), s.slow_start = true → s.brightness ≤ s.target_brightness →
      s.target_brightness ≤ 255 → s.target_brightness - s.brightness ≤ d →
      ∃ N : Nat, N ≤ d ∧
        ((update_brightness cfg)^[N] s).brightness = s.target_brightness ∧
        ∀ k : Nat, k < N →
          ((update_brightness cfg)^[k] s).brightness
            < ((update_brightness cfg)^[k + 1] s).brightness ∧
          ((update_brightness cfg)^[k + 1] s).brightness ≤ s.target_brightness := by
  intro d
  induction d with
  | zero =>
    intro s _ hle _ hd
    exact ⟨0, le_refl _, by simp only [Function.iterate_zero, id_eq]; omega,
      fun k hk => absurd hk (Nat.not_lt_zero k)⟩
  | succ d ih =>
    intro s hss hle ht hd
    rcases Nat.eq_or_lt_of_le hle with heq | hlt
    · exact ⟨0, Nat.zero_le _, by simpa using heq, fun k hk => absurd hk (Nat.not_lt_zero k)⟩
    · obtain ⟨hup, hno⟩ := update_brightness_up cfg hf s hss hlt ht
      obtain ⟨hkt, hks⟩ := update_brightness_keeps cfg s
      obtain ⟨N, hN, hreach, hmono⟩ := ih (update_brightness cfg s) (by rw [hks]; exact hss)
        (by rw [hkt]; exact hno) (by rw [hkt]; exact ht) (by rw [hkt]; omega)
      refine ⟨N + 1, Nat.succ_le_succ hN, ?_, ?_⟩
      · rw [Function.iterate_succ_apply, hreach, hkt]
      · intro k hk
        cases k with
        | zero =>
          simpa using ⟨hup, hno⟩
        | succ j =>
          have hj := hmono j (by omega)
          rw [hkt] at hj
          simpa only [Function.iterate_succ_apply] using hj

theorem update_brightness_val (cfg : Config) (s : FX) :
    (update_brightness cfg s).brightness =
      if s.slow_start then
        if s.brightness < s.target_brightness then
          (s.brightness + constrain
            (f2u8 ((((f2u8 (cfg.BRIGHTNESS_FILTER * (s.brightness : ℚ)
              + (1 - cfg.BRIGHTNESS_FILTER) * (s.target_brightness : ℚ)) : Int)
              - (s.brightness : Int) : Int) : ℚ)
              * fconstrain (((s.brightness * 4 : Nat) : ℚ) / (cfg.BRIGHTNESS_MAX : ℚ)) (1 / 10) 1))
            1
            (f2u8 ((((f2u8 (cfg.BRIGHTNESS_FILTER * (s.brightness : ℚ)
              + (1 - cfg.BRIGHTNESS_FILTER) * (s.target_brightness : ℚ)) : Int)
              - (s.brightness : Int) : Int) : ℚ)
              * fconstrain (((s.brightness * 4 : Nat) : ℚ) / (cfg.BRIGHTNESS_MAX : ℚ)) (1 / 10) 1)))
            % 256
        else
          f2u8 (cfg.BRIGHTNESS_FILTER * (s.brightness : ℚ)
            + (1 - cfg.BRIGHTNESS_FILTER) * (s.target_brightness : ℚ))
      else s.target_brightness := by
  unfold update_brightness
  split_ifs <;> rfl

theorem update_brightness_congr (cfg : Config) (a b : FX)
    (h1 : a.brightness = b.brightness) (h2 : a.target_brightness = b.target_brightness)
    (h3 : a.slow_start = b.slow_start) :
    (update_brightness cfg a).brightness = (update_brightness cfg b).brightness := by
  rw [update_brightness_val, update_brightness_val, h1, h2, h3]

theorem service_pass_running_eq (cfg : Config) (modes : Nat → Mode) (now : Nat) (s : FX)
    (hrun : s.running = true) :
    service_pass cfg modes now s =
      if frame_due now s then modes s.mode_index (frame_entry now (update_brightness cfg s))
      else some (update_brightness cfg s) := by
  obtain ⟨_, _, _, _, _, h6, _⟩ := update_brightness_frame cfg s
  simp [service_pass, hrun, frame_due_update, h6]

theorem service_pass_brightness (cfg : Config) (modes : Nat → Mode)
    (hm : ∀ (i : Nat) (e e' : FX), modes i e = some e' →
      e'.brightness = e.brightness ∧ e'.target_brightness = e.target_brightness ∧
      e'.slow_start = e.slow_start ∧ e'.running = e.running)
    (now : Nat) (s s1 : FX) (hrun : s.running = true)
    (h : service_pass cfg modes now s = some s1) :
    s1.brightness = (update_brightness cfg s).brightness ∧
    s1.target_brightness = s.target_brightness ∧
    s1.slow_start = s.slow_start ∧ s1.running = true := by
  obtain ⟨hkt, hks⟩ := update_brightness_keeps cfg s
  obtain ⟨_, _, _, _, _, _, hkr⟩ := update_brightness_frame cfg s
  rw [service_pass_running_eq cfg modes now s hrun] at h
  split_ifs at h
  · obtain ⟨e1, e2, e3, e4⟩ := hm _ _ _ h
    exact ⟨e1, e2.trans hkt, e3.trans hks, e4.trans (hkr.trans hrun)⟩
  · cases h
    exact ⟨rfl, hkt, hks, hkr.trans hrun⟩

theorem service_run_brightness (cfg : Config) (modes : Nat → Mode)
    (hm : ∀ (i : Nat) (e e' : FX), modes i e = some e' →
      e'.brightness = e.brightness ∧ e'.target_brightness = e.target_brightness ∧
      e'.slow_start = e.slow_start ∧ e'.running = e.running) :
    ∀ (nows : List Nat) (s t s' : FX), s.running = true →
      s.brightness = t.brightness → s.target_brightness = t.target_brightness →
      s.slow_start = t.slow_start →
      service_run cfg modes nows s = some s' →
      s'.brightness = ((update_brightness cfg)^[nows.length] t).brightness := by
  intro nows
  induction nows with
  | nil =>
    intro s t s' _ hb _ _ h
    simp only [service_run, Option.some.injEq] at h
    subst h
    simpa using hb
  | cons now rest ih =>
    intro s t s' hrun hb htg hss h
    simp only [service_run] at h
    cases hp : service_pass cfg modes now s with
    | none => rw [hp] at h; simp at h
    | some s1 =>
      rw [hp] at h
      simp only [Option.some_bind] at h
      obtain ⟨p1, p2, p3, p4⟩ := service_pass_brightness cfg modes hm now s s1 hrun hp
      obtain ⟨hkt, hks⟩ := update_brightness_keeps cfg t
      have := ih s1 (update_brightness cfg t) s' p4
        (p1.trans (update_brightness_congr cfg s t hb htg hss))
        (p2.trans (htg.trans hkt.symm)) (p3.trans (hss.trans hks.symm)) h
      simpa only [List.length_cons, Function.iterate_succ_apply] using this

theorem setPixelColor32_strip_only (cfg : Config) (s s' : FX) (n c : Nat)
    (h : WS2812_setPixelColor32 cfg s n c = some s') :
    ∃ px : List RGB, s' = { s with strip := px } := by
  simp only [WS2812_setPixelColor32, WS2812_setPixelColor, Option.map_eq_some'] at h
  obtain ⟨px, _, hpx⟩ := h
  exact ⟨px, hpx.symm⟩

theorem static_loop_strip_only (cfg : Config) :
    ∀ (k i : Nat) (s s' : FX), static_loop cfg k i s = some s' →
      ∃ px : List RGB, s' = { s with strip := px } := by
  intro k
  induction k with
  | zero =>
    intro i s s' h
    simp only [static_loop, Option.some.injEq] at h
    exact ⟨s.strip, h.symm⟩
  | succ k ih =>
    intro i s s' h
    simp only [static_loop] at h
    cases hw : WS2812_setPixelColor32 cfg s i s.color with
    | none => rw [hw] at h; simp at h
    | some s1 =>
      rw [hw] at h
      simp only [Option.some_bind] at h
      obtain ⟨px1, h1⟩ := setPixelColor32_strip_only cfg s s1 i s.color hw
      obtain ⟨px, h2⟩ := ih (i + 1) s1 s' h
      exact ⟨px, by rw [h2, h1]⟩

theorem mode_static_keeps_brightness (cfg : Config) (e e' : FX)
    (h : WS2812FX_mode_static cfg e = some e') :
    e'.brightness = e.brightness ∧ e'.target_brightness = e.target_brightness ∧
    e'.slow_start = e.slow_start ∧ e'.running = e.running := by
  simp only [WS2812FX_mode_static, Option.map_eq_some'] at h
  obtain ⟨s1, hs1, he⟩ := h
  obtain ⟨px, hpx⟩ := static_loop_strip_only cfg _ _ _ _ hs1
  subst he
  subst hpx
  exact ⟨rfl, rfl, rfl, rfl⟩

/-- C3. Brightness slew upward, with the filter constant 0.6 kept exact: for a
state with slow start on and `_brightness < _target_brightness <= 255`, the
brightness update of one pass gives a new brightness strictly above the old one
and at most the target (so no overshoot and no 8-bit wrap).  Consequently, from
brightness 0 and target 255, some number `N` of successive updates reaches 255
exactly, and every update before that strictly increases the brightness without
exceeding 255.  These updates are what repeated passes of the service loop do to
the brightness: for an effect table whose effects leave brightness, target and
the two flags alone (the static effect is one), the brightness after any run of
passes over a running state is the brightness after as many updates. -/
theorem brightness_slew_up (cfg : Config) (hf : cfg.BRIGHTNESS_FILTER = 3 / 5)
    (_hmax : cfg.BRIGHTNESS_MAX = 255) :
    (∀ s : FX, s.slow_start = true → s.brightness < s.target_brightness →
      s.target_brightness ≤ 255 →
      s.brightness < (update_brightness cfg s).brightness ∧
      (update_brightness cfg s).brightness ≤ s.target_brightness ∧
      (update_brightness cfg s).target_brightness = s.target_brightness) ∧
    (∀ s : FX, s.slow_start = true → s.brightness = 0 → s.target_brightness = 255 →
      ∃ N : Nat, ((update_brightness cfg)^[N] s).brightness = 255 ∧
        ∀ k : Nat, k < N →
          ((update_brightness cfg)^[k] s).brightness
            < ((update_brightness cfg)^[k + 1] s).brightness ∧
          ((update_brightness cfg)^[k + 1] s).brightness ≤ 255) ∧
    (∀ modes : Nat → Mode,
      (∀ (i : Nat) (e e' : FX), modes i e = some e' →
        e'.brightness = e.brightness ∧ e'.target_brightness = e.target_brightness ∧
        e'.slow_start = e.slow_start ∧ e'.running = e.running) →
      ∀ (nows : List Nat) (s s' : FX), s.running = true →
        service_run cfg modes nows s = some s' →
        s'.brightness = ((update_brightness cfg)^[nows.length] s).brightness) := by
  refine ⟨?_, ?_, ?_⟩
  · intro s hss hbt ht
    obtain ⟨h1, h2⟩ := update_brightness_up cfg hf s hss hbt ht
    exact ⟨h1, h2, (update_brightness_keeps cfg s).1⟩
  · intro s hss hb ht
    obtain ⟨N, _, hreach, hmono⟩ := slew_reaches cfg hf 255 s hss (by omega) (by omega) (by omega)
    rw [ht] at hreach hmono
    exact ⟨N, hreach, hmono⟩
  · intro modes hm nows s s' hrun h
    exact service_run_brightness cfg modes hm nows s s s' hrun rfl rfl rfl h

/-- Witness for C3: the reference constants, a strip at brightness 0 with target
255 and slow start on, and one pass of the service loop with the static effect,
after which the brightness is that of one update. -/
theorem brightness_slew_up_witness :
    refConfig.BRIGHTNESS_FILTER = 3 / 5 ∧ refConfig.BRIGHTNESS_MAX = 255 ∧
    0 < (update_brightness refConfig
          { sampleState 4 with slow_start := true, target_brightness := 255 }).brightness ∧
    (update_brightness refConfig
          { sampleState 4 with slow_start := true, target_brightness := 255 }).brightness ≤ 255 ∧
    (∃ N : Nat, ((update_brightness refConfig)^[N]
          { sampleState 4 with slow_start := true, target_brightness := 255 }).brightness = 255) ∧
    (∃ s' : FX, service_run refConfig (fun _ => WS2812FX_mode_static refConfig) [1000]
        (WS2812FX_start { sampleState 4 with slow_start := true, target_brightness := 255 })
          = some s' ∧
      s'.brightness = (update_brightness refConfig
        (WS2812FX_start
          { sampleState 4 with slow_start := true, target_brightness := 255 })).brightness) := by
  have h := brightness_slew_up refConfig rfl rfl
  have h1 := h.1 { sampleState 4 with slow_start := true, target_brightness := 255 }
    rfl (by decide) (by decide)
  obtain ⟨N, hN, _⟩ := h.2.1 { sampleState 4 with slow_start := true, target_brightness := 255 }
    rfl rfl rfl
  have h3 := h.2.2 (fun _ => WS2812FX_mode_static refConfig)
    (fun _ e e' he => mode_static_keeps_brightness refConfig e e' he) [1000]
    (WS2812FX_start { sampleState 4 with slow_start := true, target_brightness := 255 })
  have hsome : (service_run refConfig (fun _ => WS2812FX_mode_static refConfig) [1000]
      (WS2812FX_start
        { sampleState 4 with slow_start := true, target_brightness := 255 })).isSome = true := by
    decide!
  obtain ⟨s', hs'⟩ := Option.isSome_iff_exists.1 hsome
  exact ⟨rfl, rfl, h1.1, h1.2.1, ⟨N, hN⟩, s', hs', h3 s' rfl hs'⟩

/-- C4. With slow start off, one pass over a running state sets `_brightness` to
`_target_brightness` before the frame test: the pass returns the updated state
when no frame is due, and otherwise invokes the active effect on a state whose
brightness already equals the target, whatever the brightness was before. -/
theorem ramp_disabled_immediate (cfg : Config) (modes : Nat → Mode) (now : Nat) (s : FX)
    (hrun : s.running = true) (hss : s.slow_start = false) :
    update_brightness cfg s = { s with brightness := s.target_brightness } ∧
    (frame_entry now (update_brightness cfg s)).brightness = s.target_brightness ∧
    (frame_entry now (update_brightness cfg s)).target_brightness = s.target_brightness ∧
    service_pass cfg modes now s =
      if frame_due now s then modes s.mode_index (frame_entry now (update_brightness cfg s))
      else some (update_brightness cfg s) := by
  have hu : update_brightness cfg s = { s with brightness := s.target_brightness } := by
    simp [update_brightness, hss]
  refine ⟨hu, ?_, ?_, service_pass_running_eq cfg modes now s hrun⟩
  · rw [hu]; rfl
  · rw [hu]; rfl

/-- Witness for C4: a started strip at brightness 0 whose target is 200. -/
theorem ramp_disabled_immediate_witness :
    (WS2812FX_start { sampleState 4 with target_brightness := 200 }).running = true ∧
    (WS2812FX_start { sampleState 4 with target_brightness := 200 }).slow_start = false ∧
    (frame_entry 1000 (update_brightness refConfig
      (WS2812FX_start { sampleState 4 with target_brightness := 200 }))).brightness = 200 :=
  ⟨rfl, rfl, (ramp_disabled_immediate refConfig (fun _ => WS2812FX_mode_static refConfig) 1000
    (WS2812FX_start { sampleState 4 with target_brightness := 200 }) rfl rfl).2.1⟩

/-! ## Control operations -/

theorem constrain_zero_low (m hi : Nat) : constrain m 0 hi = min m hi := by
  unfold constrain
  split_ifs <;> omega

theorem constrain_eq_spec_clamp (v lo hi : Nat) (h : lo ≤ hi) :
    constrain v lo hi = spec_clamp v lo hi := by
  unfold constrain spec_clamp
  split_ifs <;> omega

theorem u8_of_lt (n : Nat) (h : n < 256) : u8 (n : Int) = n := by
  unfold u8
  omega

theorem setMode_index (cfg : Config) (h1 : 1 ≤ cfg.MODE_COUNT) (h2 : cfg.MODE_COUNT ≤ 256)
    (s : FX) (m : Nat) (hm : m < 256) :
    (WS2812FX_setMode cfg s m).mode_index = min m (cfg.MODE_COUNT - 1) := by
  have hu : u32 ((cfg.MODE_COUNT : Int) - 1) = cfg.MODE_COUNT - 1 := by
    unfold u32
    omega
  show u8 ((constrain m 0 (u32 ((cfg.MODE_COUNT : Int) - 1)) : Nat) : Int) = _
  rw [hu, constrain_zero_low, u8_of_lt _ (by omega)]

/-- C5. Effect id clamp, for a registry of 1 to 256 effects: for every 8-bit
argument `m`, after `WS2812FX_setMode(m)` the active id is
`min(m, MODE_COUNT - 1)`, hence below `MODE_COUNT`; an id already in range is
selected unchanged, and `WS2812FX_setMode(255)` selects `MODE_COUNT - 1`. -/
theorem setMode_clamps (cfg : Config) (h1 : 1 ≤ cfg.MODE_COUNT) (h2 : cfg.MODE_COUNT ≤ 256)
    (s : FX) (m : Nat) (hm : m < 256) :
    (WS2812FX_setMode cfg s m).mode_index = min m (cfg.MODE_COUNT - 1) ∧
    (WS2812FX_setMode cfg s m).mode_index < cfg.MODE_COUNT ∧
    (m < cfg.MODE_COUNT → (WS2812FX_setMode cfg s m).mode_index = m) ∧
    (WS2812FX_setMode cfg s 255).mode_index = cfg.MODE_COUNT - 1 := by
  have hm1 := setMode_index cfg h1 h2 s m hm
  have hm2 := setMode_index cfg h1 h2 s 255 (by norm_num)
  refine ⟨hm1, ?_, ?_, ?_⟩
  · rw [hm1]; omega
  · intro hlt; rw [hm1]; omega
  · rw [hm2]; omega

/-- Witness for C5: with 54 registered effects, `WS2812FX_setMode(255)` selects
id 53 and `WS2812FX_setMode(7)` selects id 7. -/
theorem setMode_clamps_witness :
    1 ≤ refConfig.MODE_COUNT ∧ refConfig.MODE_COUNT ≤ 256 ∧ (7 : Nat) < 256 ∧
    (WS2812FX_setMode refConfig (sampleState 4) 7).mode_index = min 7 (54 - 1) ∧
    (WS2812FX_setMode refConfig (sampleState 4) 255).mode_index = 54 - 1 := by
  have h := setMode_clamps refConfig (by decide) (by decide) (sampleState 4) 7 (by decide)
  exact ⟨by decide, by decide, by decide, h.1, h.2.2.2⟩

/-- C6. Counter reset: from every state, each of `WS2812FX_setMode`,
`WS2812FX_setSpeed`, `WS2812FX_setColor`, `WS2812FX_setColor32` and
`WS2812FX_start` leaves `_counter_mode_call = 0` and `_counter_mode_step = 0`. -/
theorem setters_reset_counters (cfg : Config) (s : FX) (m v r g b c : Nat) :
    ((WS2812FX_setMode cfg s m).counter_mode_call = 0 ∧
      (WS2812FX_setMode cfg s m).counter_mode_step = 0) ∧
    ((WS2812FX_setSpeed cfg s v).counter_mode_call = 0 ∧
      (WS2812FX_setSpeed cfg s v).counter_mode_step = 0) ∧
    ((WS2812FX_setColor s r g b).counter_mode_call = 0 ∧
      (WS2812FX_setColor s r g b).counter_mode_step = 0) ∧
    ((WS2812FX_setColor32 s c).counter_mode_call = 0 ∧
      (WS2812FX_setColor32 s c).counter_mode_step = 0) ∧
    ((WS2812FX_start s).counter_mode_call = 0 ∧
      (WS2812FX_start s).counter_mode_step = 0) :=
  ⟨⟨rfl, rfl⟩, ⟨rfl, rfl⟩, ⟨rfl, rfl⟩, ⟨rfl, rfl⟩, ⟨rfl, rfl⟩⟩

/-- C7, counterexample. After an effect has overwritten the scratch colour
(here with 77 while the base colour is 0xFF0000), `WS2812FX_setSpeed(10)` leaves
the scratch colour different from the base colour. -/
theorem setSpeed_keeps_scratch_counterexample :
    (WS2812FX_setSpeed refConfig { sampleState 4 with mode_color := 77 } 10).mode_color
      ≠ (WS2812FX_setSpeed refConfig { sampleState 4 with mode_color := 77 } 10).color := by
  decide

/-- C7, amended. From every state, after `WS2812FX_setMode`, `WS2812FX_setColor`
and `WS2812FX_setColor32` the scratch colour `_mode_color` equals the base
colour `_color`; `WS2812FX_setSpeed` leaves both `_mode_color` and `_color` as
they were. -/
theorem scratch_colour_reset (cfg : Config) (s : FX) (m v r g b c : Nat) :
    (WS2812FX_setMode cfg s m).mode_color = (WS2812FX_setMode cfg s m).color ∧
    (WS2812FX_setColor s r g b).mode_color = (WS2812FX_setColor s r g b).color ∧
    (WS2812FX_setColor32 s c).mode_color = (WS2812FX_setColor32 s c).color ∧
    (WS2812FX_setColor32 s c).color = c ∧
    (WS2812FX_setSpeed cfg s v).mode_color = s.mode_color ∧
    (WS2812FX_setSpeed cfg s v).color = s.color :=
  ⟨rfl, rfl, rfl, rfl, rfl, rfl⟩

/-- C8. With `BRIGHTNESS_MIN <= BRIGHTNESS_MAX <= 255`, `WS2812FX_setBrightness(v)`
sets `_target_brightness` to `v` clamped into `[BRIGHTNESS_MIN, BRIGHTNESS_MAX]`
and changes no other field (current brightness, both counters, scratch colour,
effect id, speed and colour included); `WS2812FX_getBrightness` then returns the
clamped value, whatever the current brightness is. -/
theorem setBrightness_only_target (cfg : Config)
    (hle : cfg.BRIGHTNESS_MIN ≤ cfg.BRIGHTNESS_MAX) (hmax : cfg.BRIGHTNESS_MAX ≤ 255)
    (s : FX) (v : Nat) :
    WS2812FX_setBrightness cfg s v =
      { s with target_brightness := spec_clamp v cfg.BRIGHTNESS_MIN cfg.BRIGHTNESS_MAX } ∧
    cfg.BRIGHTNESS_MIN ≤ (WS2812FX_setBrightness cfg s v).target_brightness ∧
    (WS2812FX_setBrightness cfg s v).target_brightness ≤ cfg.BRIGHTNESS_MAX ∧
    (WS2812FX_setBrightness cfg s v).brightness = s.brightness ∧
    (WS2812FX_setBrightness cfg s v).counter_mode_call = s.counter_mode_call ∧
    (WS2812FX_setBrightness cfg s v).counter_mode_step = s.counter_mode_step ∧
    (WS2812FX_setBrightness cfg s v).mode_color = s.mode_color ∧
    (WS2812FX_setBrightness cfg s v).mode_index = s.mode_index ∧
    (WS2812FX_setBrightness cfg s v).speed = s.speed ∧
    (WS2812FX_setBrightness cfg s v).color = s.color ∧
    WS2812FX_getBrightness (WS2812FX_setBrightness cfg s v)
      = spec_clamp v cfg.BRIGHTNESS_MIN cfg.BRIGHTNESS_MAX := by
  have hc : spec_clamp v cfg.BRIGHTNESS_MIN cfg.BRIGHTNESS_MAX ≤ cfg.BRIGHTNESS_MAX ∧
      cfg.BRIGHTNESS_MIN ≤ spec_clamp v cfg.BRIGHTNESS_MIN cfg.BRIGHTNESS_MAX := by
    unfold spec_clamp
    omega
  have ht : (WS2812FX_setBrightness cfg s v).target_brightness
      = spec_clamp v cfg.BRIGHTNESS_MIN cfg.BRIGHTNESS_MAX := by
    show u8 ((constrain v cfg.BRIGHTNESS_MIN cfg.BRIGHTNESS_MAX : Nat) : Int) = _
    rw [constrain_eq_spec_clamp _ _ _ hle, u8_of_lt _ (by omega)]
  have hs : WS2812FX_setBrightness cfg s v =
      { s with target_brightness := spec_clamp v cfg.BRIGHTNESS_MIN cfg.BRIGHTNESS_MAX } := by
    rw [← ht]; rfl
  refine ⟨hs, ?_, ?_, rfl, rfl, rfl, rfl, rfl, rfl, rfl, ht⟩
  · rw [ht]; exact hc.2
  · rw [ht]; exact hc.1

/-- Witness for C8: `WS2812FX_setBrightness(200)` on a strip whose current
brightness is 0 makes `WS2812FX_getBrightness` return 200. -/
theorem setBrightness_only_target_witness :
    refConfig.BRIGHTNESS_MIN ≤ refConfig.BRIGHTNESS_MAX ∧ refConfig.BRIGHTNESS_MAX ≤ 255 ∧
    WS2812FX_getBrightness (WS2812FX_setBrightness refConfig (sampleState 4) 200)
      = spec_clamp 200 0 255 ∧
    (WS2812FX_setBrightness refConfig (sampleState 4) 200).brightness = 0 := by
  have h := setBrightness_only_target refConfig (by decide) (by decide) (sampleState 4) 200
  exact ⟨by decide, by decide, h.2.2.2.2.2.2.2.2.2.2, h.2.2.2.1⟩

/-! ## Pixel writes -/

theorem scale_le (c B : Nat) (hc : c ≤ 255) : c * B / 255 ≤ B := by
  calc c * B / 255 ≤ 255 * B / 255 := Nat.div_le_div_right (Nat.mul_le_mul_right B hc)
    _ = B := Nat.mul_div_cancel_left B (by norm_num)

theorem channel_scale (c B : Nat) (hc : c ≤ 255) (hB : B ≤ 255) :
    u8 (map (c : Int) 0 ((255 : Nat) : Int) ((0 : Nat) : Int) (B : Int)) = c * B / 255 := by
  have h : map (c : Int) 0 ((255 : Nat) : Int) ((0 : Nat) : Int) (B : Int)
      = ((c * B / 255 : Nat) : Int) := by
    simp only [map, Nat.cast_zero, sub_zero, add_zero, Nat.cast_ofNat]
    rw [Int.ofNat_tdiv]
    push_cast
    rfl
  rw [h, u8_of_lt _ (by have := scale_le c B hc; omega)]

theorem u8_shift (c k : Nat) : u8 ((c >>> k : Nat) : Int) = (c >>> k) % 256 := by
  unfold u8
  omega

theorem inverted_index (lc n : Nat) (hlc : lc < 65536) (hn : n < lc) :
    u16 (((lc : Int) - 1) - (n : Int)) = lc - 1 - n := by
  unfold u16
  omega

/-- C9. Brightness scaling on write, with `BRIGHTNESS_MIN = 0`,
`BRIGHTNESS_MAX = 255` and current brightness `B <= 255`: for channel values up
to 255, `WS2812_setPixelColor` hands the driver `floor(c * B / 255)` for each
channel `c` (and `WS2812_setPixelColor32` does so for the three bytes of the
packed colour); that value is at most `B`, is monotone non-decreasing in `c`,
equals `c` when `B = 255` and equals 0 when `B = 0`. -/
theorem setPixelColor_scales (cfg : Config) (hmin : cfg.BRIGHTNESS_MIN = 0)
    (hmax : cfg.BRIGHTNESS_MAX = 255) (s : FX) (hB : s.brightness ≤ 255) :
    (∀ n r g b : Nat, r ≤ 255 → g ≤ 255 → b ≤ 255 →
      WS2812_setPixelColor cfg s n r g b =
        (strip_set_pixel s.strip
          (if s.inverted then u16 (((s.led_count : Int) - 1) - (n : Int)) else n)
          (r * s.brightness / 255) (g * s.brightness / 255) (b * s.brightness / 255)).map
          (fun px => { s with strip := px })) ∧
    (∀ n c : Nat,
      WS2812_setPixelColor32 cfg s n c =
        (strip_set_pixel s.strip
          (if s.inverted then u16 (((s.led_count : Int) - 1) - (n : Int)) else n)
          ((c >>> 16) % 256 * s.brightness / 255) ((c >>> 8) % 256 * s.brightness / 255)
          (c % 256 * s.brightness / 255)).map
          (fun px => { s with strip := px })) ∧
    (∀ c : Nat, c ≤ 255 →
      u8 (map (c : Int) 0 (cfg.BRIGHTNESS_MAX : Int) (cfg.BRIGHTNESS_MIN : Int)
        (s.brightness : Int)) = c * s.brightness / 255 ∧
      u8 (map (c : Int) 0 (cfg.BRIGHTNESS_MAX : Int) (cfg.BRIGHTNESS_MIN : Int)
        (s.brightness : Int)) ≤ s.brightness) ∧
    (∀ c₁ c₂ : Nat, c₁ ≤ c₂ → c₂ ≤ 255 →
      u8 (map (c₁ : Int) 0 (cfg.BRIGHTNESS_MAX : Int) (cfg.BRIGHTNESS_MIN : Int)
        (s.brightness : Int)) ≤
      u8 (map (c₂ : Int) 0 (cfg.BRIGHTNESS_MAX : Int) (cfg.BRIGHTNESS_MIN : Int)
        (s.brightness : Int))) ∧
    (s.brightness = 255 → ∀ c : Nat, c ≤ 255 →
      u8 (map (c : Int) 0 (cfg.BRIGHTNESS_MAX : Int) (cfg.BRIGHTNESS_MIN : Int)
        (s.brightness : Int)) = c) ∧
    (s.brightness = 0 → ∀ c : Nat, c ≤ 255 →
      u8 (map (c : Int) 0 (cfg.BRIGHTNESS_MAX : Int) (cfg.BRIGHTNESS_MIN : Int)
        (s.brightness : Int)) = 0) := by
  have hch : ∀ c : Nat, c ≤ 255 →
      u8 (map (c : Int) 0 (cfg.BRIGHTNESS_MAX : Int) (cfg.BRIGHTNESS_MIN : Int)
        (s.brightness : Int)) = c * s.brightness / 255 := by
    intro c hc
    rw [hmin, hmax]
    exact channel_scale c s.brightness hc hB
  have hset : ∀ n r g b : Nat, r ≤ 255 → g ≤ 255 → b ≤ 255 →
      WS2812_setPixelColor cfg s n r g b =
        (strip_set_pixel s.strip
          (if s.inverted then u16 (((s.led_count : Int) - 1) - (n : Int)) else n)
          (r * s.brightness / 255) (g * s.brightness / 255) (b * s.brightness / 255)).map
          (fun px => { s with strip := px }) := by
    intro n r g b hr hg hb
    simp only [WS2812_setPixelColor, hch r hr, hch g hg, hch b hb]
  refine ⟨hset, ?_, ?_, ?_, ?_, ?_⟩
  · intro n c
    have h16 : (c >>> 16) % 256 ≤ 255 := by omega
    have h8 : (c >>> 8) % 256 ≤ 255 := by omega
    have h0 : c % 256 ≤ 255 := by omega
    have hu0 : u8 (c : Int) = c % 256 := by unfold u8; omega
    simp only [WS2812_setPixelColor32, u8_shift, hu0]
    exact hset n _ _ _ h16 h8 h0
  · intro c hc
    rw [hch c hc]
    exact ⟨rfl, scale_le c s.brightness hc⟩
  · intro c₁ c₂ h12 h2
    rw [hch c₁ (le_trans h12 h2), hch c₂ h2]
    exact Nat.div_le_div_right (Nat.mul_le_mul_right _ h12)
  · intro h255 c hc
    rw [hch c hc, h255]
    exact Nat.mul_div_cancel c (by norm_num)
  · intro h0 c hc
    rw [hch c hc, h0]
    simp

/-- Witness for C9: at brightness 128 the channels 255, 100 and 3 are stored as
128, 50 and 1. -/
theorem setPixelColor_scales_witness :
    refConfig.BRIGHTNESS_MIN = 0 ∧ refConfig.BRIGHTNESS_MAX = 255 ∧
    ({ sampleState 3 with brightness := 128 } : FX).brightness ≤ 255 ∧
    (WS2812_setPixelColor refConfig { sampleState 3 with brightness := 128 } 0 255 100 3).map
        (fun s' => s'.strip)
      = some [⟨128, 50, 1⟩, ⟨0, 0, 0⟩, ⟨0, 0, 0⟩] := by
  have h := (setPixelColor_scales refConfig rfl rfl { sampleState 3 with brightness := 128 }
    (by decide)).1 0 255 100 3 (by decide) (by decide) (by decide)
  refine ⟨rfl, rfl, by decide, ?_⟩
  rw [h]
  decide

/-- C10. Pixel-order inversion on write, for a 16-bit strip length covered by the
driver's buffer: for every logical index `n < _led_count`,
`WS2812_setPixelColor(n, ...)` succeeds and replaces exactly the pixel at
physical index `_led_count - 1 - n` when `_inverted` is set and at `n` when it is
clear; every other pixel and every other field of the state is unchanged.  The
index mapping stays inside `0 .. _led_count - 1` and is its own inverse. -/
theorem setPixelColor_physical_index (cfg : Config) (s : FX) (n r g b : Nat)
    (hlc : s.led_count < 65536) (hlen : s.led_count ≤ s.strip.length)
    (hn : n < s.led_count) :
    ∃ s' : FX, WS2812_setPixelColor cfg s n r g b = some s' ∧
      s' = { s with
        strip := s.strip.set (spec_physical_index s.inverted s.led_count n)
          (RGB.mk
            (u8 (map (r : Int) 0 (cfg.BRIGHTNESS_MAX : Int) (cfg.BRIGHTNESS_MIN : Int)
              (s.brightness : Int)))
            (u8 (map (g : Int) 0 (cfg.BRIGHTNESS_MAX : Int) (cfg.BRIGHTNESS_MIN : Int)
              (s.brightness : Int)))
            (u8 (map (b : Int) 0 (cfg.BRIGHTNESS_MAX : Int) (cfg.BRIGHTNESS_MIN : Int)
              (s.brightness : Int)))) } ∧
      s'.strip[spec_physical_index s.inverted s.led_count n]? =
        some ⟨u8 (map (r : Int) 0 (cfg.BRIGHTNESS_MAX : Int) (cfg.BRIGHTNESS_MIN : Int)
            (s.brightness : Int)),
         u8 (map (g : Int) 0 (cfg.BRIGHTNESS_MAX : Int) (cfg.BRIGHTNESS_MIN : Int)
            (s.brightness : Int)),
         u8 (map (b : Int) 0 (cfg.BRIGHTNESS_MAX : Int) (cfg.BRIGHTNESS_MIN : Int)
            (s.brightness : Int))⟩ ∧
      (∀ j : Nat, j ≠ spec_physical_index s.inverted s.led_count n →
        s'.strip[j]? = s.strip[j]?) ∧
      s'.strip.length = s.strip.length ∧
      spec_physical_index s.inverted s.led_count n < s.led_count ∧
      spec_physical_index s.inverted s.led_count
        (spec_physical_index s.inverted s.led_count n) = n := by
  have hidx : (if s.inverted then u16 (((s.led_count : Int) - 1) - (n : Int)) else n)
      = spec_physical_index s.inverted s.led_count n := by
    unfold spec_physical_index
    split_ifs
    · exact inverted_index s.led_count n hlc hn
    · rfl
  have hp : spec_physical_index s.inverted s.led_count n < s.led_count := by
    unfold spec_physical_index
    split_ifs <;> omega
  have hinv : spec_physical_index s.inverted s.led_count
      (spec_physical_index s.inverted s.led_count n) = n := by
    unfold spec_physical_index
    split_ifs <;> omega
  have hlt : spec_physical_index s.inverted s.led_count n < s.strip.length :=
    lt_of_lt_of_le hp hlen
  refine ⟨_, ?_, rfl, ?_, ?_, ?_, hp, hinv⟩
  · simp only [WS2812_setPixelColor, hidx, strip_set_pixel, if_pos hlt, Option.map_some']
  · exact List.getElem?_set_self hlt
  · intro j hj
    exact List.getElem?_set_ne (Ne.symm hj)
  · exact List.length_set _ _ _

/-- Witness for C10: logical pixel 0 of an inverted three-pixel strip is physical
pixel 2. -/
theorem setPixelColor_physical_index_witness :
    ({ sampleState 3 with brightness := 255, inverted := true } : FX).led_count < 65536 ∧
    (0 : Nat) < ({ sampleState 3 with brightness := 255, inverted := true } : FX).led_count ∧
    spec_physical_index true 3 0 = 2 ∧
    ∃ s' : FX, WS2812_setPixelColor refConfig
        { sampleState 3 with brightness := 255, inverted := true } 0 9 8 7 = some s' ∧
      s'.strip[2]? = some ⟨9, 8, 7⟩ := by
  obtain ⟨s', h1, _, h3, _⟩ := setPixelColor_physical_index refConfig
    { sampleState 3 with brightness := 255, inverted := true } 0 9 8 7
    (by decide) (by decide) (by decide)
  exact ⟨by decide, by decide, by decide, s', h1, h3⟩

/-! ## Reading pixels back -/

/-- C11, evaluation at the failing input. On a three-pixel strip at brightness
255, `WS2812_setPixelColor32(0, 0x090807)` followed by `WS2812_getPixelColor(0)`
returns 0 when `_inverted` is set, because the write goes to physical pixel 2 and
the read to physical pixel 0; with `_inverted` clear the same calls return
`0x090807`. -/
theorem getPixelColor_ignores_inversion :
    ((WS2812_setPixelColor32 refConfig
        { sampleState 3 with brightness := 255, inverted := true } 0 591879).bind
      (fun s' => WS2812_getPixelColor s' 0)) = some 0 ∧
    ((WS2812_setPixelColor32 refConfig
        { sampleState 3 with brightness := 255, inverted := true } 0 591879).bind
      (fun s' => WS2812_getPixelColor s' 2)) = some 591879 ∧
    ((WS2812_setPixelColor32 refConfig
        { sampleState 3 with brightness := 255, inverted := false } 0 591879).bind
      (fun s' => WS2812_getPixelColor s' 0)) = some 591879 := by
  decide

/-! ## Colour wheel -/

/-- C12. Colour wheel closed form: for every `pos` in 0..255, with `q = 255 - pos`,
`WS2812FX_color_wheel(pos)` packs the channels `(255-3q, 0, 3q)` if `q < 85`,
`(0, 3(q-85), 255-3(q-85))` if `85 <= q < 170`, and `(3(q-170), 255-3(q-170), 0)`
otherwise; unpacking gives these channels back, each channel is at most 255 (no
subtraction wraps), at least one channel is 0, and the three add up to 255. -/
theorem color_wheel_closed_form :
    ∀ pos : Nat, pos < 256 →
      WS2812FX_color_wheel pos =
        color32 (spec_color_wheel pos).1 (spec_color_wheel pos).2.1 (spec_color_wheel pos).2.2 ∧
      channels (WS2812FX_color_wheel pos) =
        [(spec_color_wheel pos).1, (spec_color_wheel pos).2.1, (spec_color_wheel pos).2.2] ∧
      (spec_color_wheel pos).1 ≤ 255 ∧ (spec_color_wheel pos).2.1 ≤ 255 ∧
      (spec_color_wheel pos).2.2 ≤ 255 ∧
      ((spec_color_wheel pos).1 = 0 ∨ (spec_color_wheel pos).2.1 = 0 ∨
        (spec_color_wheel pos).2.2 = 0) ∧
      (spec_color_wheel pos).1 + (spec_color_wheel pos).2.1 + (spec_color_wheel pos).2.2 = 255 := by
  decide!

/-- Witness for C12: position 100 lies in the middle segment and is the colour
`(0, 210, 45)`. -/
theorem color_wheel_closed_form_witness :
    (100 : Nat) < 256 ∧ channels (WS2812FX_color_wheel 100) = [0, 210, 45] :=
  ⟨by decide, (color_wheel_closed_form 100 (by decide)).2.1⟩

/-- C13, counterexample. At position 0 the wheel colour is pure red: two of its
three channels are 0, not exactly one. -/
theorem color_wheel_boundary_counterexample :
    channels (WS2812FX_color_wheel 0) = [255, 0, 0] ∧
    ¬ (zero_channels (WS2812FX_color_wheel 0) = 1) := by
  decide

/-- C13, amended. At each of the positions 0, 85 and 170 exactly two of the three
channels of `WS2812FX_color_wheel(pos)` are 0 and the third is 255 (red, green and
blue respectively); position 255 is red again, and every other position in
0..255 has exactly one channel equal to 0. -/
theorem color_wheel_boundaries :
    (zero_channels (WS2812FX_color_wheel 0) = 2 ∧
      channels (WS2812FX_color_wheel 0) = [255, 0, 0]) ∧
    (zero_channels (WS2812FX_color_wheel 85) = 2 ∧
      channels (WS2812FX_color_wheel 85) = [0, 255, 0]) ∧
    (zero_channels (WS2812FX_color_wheel 170) = 2 ∧
      channels (WS2812FX_color_wheel 170) = [0, 0, 255]) ∧
    (∀ pos : Nat, pos < 256 →
      (zero_channels (WS2812FX_color_wheel pos) = 1 ↔
        (pos ≠ 0 ∧ pos ≠ 85 ∧ pos ≠ 170 ∧ pos ≠ 255))) := by
  decide!

/-- C14, counterexample. Positions 255 and `(255 + 1) mod 256 = 0` have the same
colour, so their channels differ by 0 everywhere rather than by 3 in two of
them. -/
theorem color_wheel_wrap_counterexample :
    WS2812FX_color_wheel 255 = WS2812FX_color_wheel ((255 + 1) % 256) ∧
    channel_diffs (WS2812FX_color_wheel 255) (WS2812FX_color_wheel ((255 + 1) % 256))
      = [0, 0, 0] := by
  decide

/-- C14, amended. For every `pos` in 0..254, `WS2812FX_color_wheel(pos)` and
`WS2812FX_color_wheel(pos + 1)` differ by exactly 3 in each of exactly two
channels and by 0 in the remaining one, so they are distinct colours; at the wrap
from 255 back to 0 the two colours are equal. -/
theorem color_wheel_slope :
    (∀ pos : Nat, pos < 255 →
      (channel_diffs (WS2812FX_color_wheel pos) (WS2812FX_color_wheel (pos + 1))).count 3 = 2 ∧
      (channel_diffs (WS2812FX_color_wheel pos) (WS2812FX_color_wheel (pos + 1))).count 0 = 1 ∧
      WS2812FX_color_wheel pos ≠ WS2812FX_color_wheel (pos + 1)) ∧
    WS2812FX_color_wheel 255 = WS2812FX_color_wheel 0 := by
  decide!

/-- Witness for C14: positions 84 and 85, on either side of a segment boundary,
differ by 3 in red and green and by 0 in blue. -/
theorem color_wheel_slope_witness :
    (84 : Nat) < 255 ∧
    channel_diffs (WS2812FX_color_wheel 84) (WS2812FX_color_wheel 85) = [3, 3, 0] ∧
    (channel_diffs (WS2812FX_color_wheel 84) (WS2812FX_color_wheel (84 + 1))).count 3 = 2 :=
  ⟨by decide, by decide, (color_wheel_slope.1 84 (by decide)).1⟩

/-! ## Random hue -/

theorem wheel_draw_distance (pos v : Nat) (hpos : pos < 256)
    (hd : ¬ u8 ((min_u16 (u8 ((((pos : Int) - ((u8 (v : Int) : Nat) : Int)).natAbs : Nat) : Int))
      (u8 (255 - ((u8 ((((pos : Int) - ((u8 (v : Int) : Nat) : Int)).natAbs : Nat) : Int) : Nat)
        : Int))) : Nat) : Int) < 42) :
    u8 (v : Int) < 256 ∧ 42 ≤ spec_wheel_distance pos (u8 (v : Int)) := by
  have hr : u8 (v : Int) < 256 := by unfold u8; omega
  generalize u8 (v : Int) = r at hd hr ⊢
  refine ⟨hr, ?_⟩
  unfold spec_wheel_distance
  rcases Nat.le_total pos r with h | h
  · have ha : ((pos : Int) - (r : Int)).natAbs = r - pos := by omega
    rw [ha] at hd
    simp only [min_u16, u8, u16] at hd
    simp only [Nat.min_def]
    split_ifs at hd ⊢ <;> omega
  · have ha : ((pos : Int) - (r : Int)).natAbs = pos - r := by omega
    rw [ha] at hd
    simp only [min_u16, u8, u16] at hd
    simp only [Nat.min_def]
    split_ifs at hd ⊢ <;> omega

theorem random_wheel_index_sound (pos : Nat) (hpos : pos < 256) :
    ∀ (fuel : Nat) (s : FX) (r : Nat) (s' : FX),
      WS2812FX_get_random_wheel_index pos fuel s = some (r, s') →
      r < 256 ∧ 42 ≤ spec_wheel_distance pos r := by
  intro fuel
  induction fuel with
  | zero =>
    intro s r s' h
    simp [WS2812FX_get_random_wheel_index] at h
  | succ fuel ih =>
    intro s r s' h
    simp only [WS2812FX_get_random_wheel_index] at h
    split_ifs at h with hd
    · exact ih _ r s' h
    · simp only [Option.some.injEq, Prod.mk.injEq] at h
      rw [← h.1]
      exact wheel_draw_distance pos _ hpos hd

theorem random_wheel_index_fuel_succ (pos : Nat) :
    ∀ (fuel : Nat) (s : FX) (x : Nat × FX),
      WS2812FX_get_random_wheel_index pos fuel s = some x →
      WS2812FX_get_random_wheel_index pos (fuel + 1) s = some x := by
  intro fuel
  induction fuel with
  | zero =>
    intro s x h
    simp [WS2812FX_get_random_wheel_index] at h
  | succ fuel ih =>
    intro s x h
    rw [WS2812FX_get_random_wheel_index] at h ⊢
    split_ifs at h ⊢ with hd
    · exact ih _ x h
    · exact h

theorem random_wheel_index_fuel_mono (pos : Nat) (fuel fuel' : Nat) (s : FX) (x : Nat × FX)
    (hle : fuel ≤ fuel') (h : WS2812FX_get_random_wheel_index pos fuel s = some x) :
    WS2812FX_get_random_wheel_index pos fuel' s = some x := by
  induction hle with
  | refl => exact h
  | step _ ih => exact random_wheel_index_fuel_succ pos _ s x ih

/-- C15. Random hue minimum distance: for every `pos` in 0..255 and every
`rand()` sequence, whenever the loop of `WS2812FX_get_random_wheel_index(pos)`
ends (within any number of draws), the value `y` it returns is in 0..255 and
satisfies `min(|y - pos|, 255 - |y - pos|) >= 42`; the value returned does not
depend on how many further draws were allowed. -/
theorem random_wheel_index_distance (pos : Nat) (hpos : pos < 256) :
    (∀ (fuel : Nat) (s : FX) (y : Nat) (s' : FX),
      WS2812FX_get_random_wheel_index pos fuel s = some (y, s') →
      y < 256 ∧ 42 ≤ spec_wheel_distance pos y) ∧
    (∀ (fuel fuel' : Nat) (s : FX) (x : Nat × FX), fuel ≤ fuel' →
      WS2812FX_get_random_wheel_index pos fuel s = some x →
      WS2812FX_get_random_wheel_index pos fuel' s = some x) :=
  ⟨random_wheel_index_sound pos hpos,
   fun fuel fuel' s x hle h => random_wheel_index_fuel_mono pos fuel fuel' s x hle h⟩

/-- Witness for C15: from position 10 the draws 13, 252 and 235 are rejected and
the fourth draw, 218, is returned; its circular distance from 10 is 47. -/
theorem random_wheel_index_distance_witness :
    (10 : Nat) < 256 ∧
    WS2812FX_get_random_wheel_index 10 20 (sampleState 3)
      = some (218, { sampleState 3 with rand_pos := 4 }) ∧
    42 ≤ spec_wheel_distance 10 218 ∧ spec_wheel_distance 10 218 = 47 :=
  ⟨by decide, rfl,
   ((random_wheel_index_distance 10 (by decide)).1 20 (sampleState 3) 218
      { sampleState 3 with rand_pos := 4 } rfl).2,
   by decide⟩

/-! ## Mode selection by angle -/

theorem f2u16_natCast (a : Nat) (h : a < 65536) : f2u16 (a : ℚ) = a := by
  have h0 : (0 : ℚ) ≤ (a : ℚ) := Nat.cast_nonneg a
  simp only [f2u16, if_pos h0, Int.floor_natCast, u16]
  omega

theorem map_angle (a M : Nat) :
    map (a : Int) 0 360 0 (M : Int) = ((a * M / 360 : Nat) : Int) := by
  simp only [map, sub_zero, add_zero]
  rw [Int.ofNat_tdiv]
  push_cast
  rfl

theorem angle_scale_le (a M : Nat) (ha : a ≤ 360) : a * M / 360 ≤ M := by
  calc a * M / 360 ≤ 360 * M / 360 := Nat.div_le_div_right (Nat.mul_le_mul_right M ha)
    _ = M := Nat.mul_div_cancel_left M (by norm_num)

theorem angle_onto (M : Nat) (hM : M ≤ 360) :
    ∀ (a k : Nat), k ≤ a * M / 360 → ∃ a' : Nat, a' ≤ a ∧ a' * M / 360 = k := by
  intro a
  induction a with
  | zero =>
    intro k hk
    refine ⟨0, le_refl _, ?_⟩
    simp only [Nat.zero_mul, Nat.zero_div] at hk ⊢
    omega
  | succ a ih =>
    intro k hk
    by_cases hle : k ≤ a * M / 360
    · obtain ⟨a', ha', he⟩ := ih k hle
      exact ⟨a', Nat.le_succ_of_le ha', he⟩
    · refine ⟨a + 1, le_refl _, ?_⟩
      have hs : (a + 1) * M = a * M + M := Nat.succ_mul a M
      rw [hs] at hk ⊢
      generalize a * M = p at hk hle ⊢
      omega

theorem setMode360_index (cfg : Config) (h1 : 1 ≤ cfg.MODE_COUNT) (h2 : cfg.MODE_COUNT ≤ 256)
    (s : FX) (a : Nat) (ha : a ≤ 360) :
    WS2812FX_setMode360 cfg s (a : ℚ)
      = WS2812FX_setMode cfg s (a * (cfg.MODE_COUNT - 1) / 360) ∧
    (WS2812FX_setMode360 cfg s (a : ℚ)).mode_index = a * (cfg.MODE_COUNT - 1) / 360 := by
  have hM : ((cfg.MODE_COUNT : Int) - 1) = ((cfg.MODE_COUNT - 1 : Nat) : Int) := by omega
  have hle := angle_scale_le a (cfg.MODE_COUNT - 1) ha
  have he : WS2812FX_setMode360 cfg s (a : ℚ)
      = WS2812FX_setMode cfg s (a * (cfg.MODE_COUNT - 1) / 360) := by
    simp only [WS2812FX_setMode360]
    rw [f2u16_natCast a (by omega), hM, map_angle, u8_of_lt _ (by omega)]
  refine ⟨he, ?_⟩
  rw [he, setMode_index cfg h1 h2 s _ (by omega)]
  omega

/-- C16. Angle-to-effect mapping, for a registry of 1 to 256 effects: for every
integer angle `a` in 0..360, `WS2812FX_setMode360(a)` gives the same state as
`WS2812FX_setMode(floor(a * (MODE_COUNT - 1) / 360))` and selects exactly that id;
the selected id is monotone non-decreasing in `a`, angle 0 selects id 0, angle
360 selects id `MODE_COUNT - 1`, and every id below `MODE_COUNT` is selected by
some integer angle in 0..360. -/
theorem setMode360_linear (cfg : Config) (h1 : 1 ≤ cfg.MODE_COUNT) (h2 : cfg.MODE_COUNT ≤ 256)
    (s : FX) :
    (∀ a : Nat, a ≤ 360 →
      WS2812FX_setMode360 cfg s (a : ℚ)
        = WS2812FX_setMode cfg s (a * (cfg.MODE_COUNT - 1) / 360) ∧
      (WS2812FX_setMode360 cfg s (a : ℚ)).mode_index = a * (cfg.MODE_COUNT - 1) / 360) ∧
    (∀ a b : Nat, a ≤ b → b ≤ 360 →
      (WS2812FX_setMode360 cfg s (a : ℚ)).mode_index
        ≤ (WS2812FX_setMode360 cfg s (b : ℚ)).mode_index) ∧
    (WS2812FX_setMode360 cfg s ((0 : Nat) : ℚ)).mode_index = 0 ∧
    (WS2812FX_setMode360 cfg s ((360 : Nat) : ℚ)).mode_index = cfg.MODE_COUNT - 1 ∧
    (∀ k : Nat, k < cfg.MODE_COUNT →
      ∃ a : Nat, a ≤ 360 ∧ (WS2812FX_setMode360 cfg s (a : ℚ)).mode_index = k) := by
  refine ⟨fun a ha => setMode360_index cfg h1 h2 s a ha, ?_, ?_, ?_, ?_⟩
  · intro a b hab hb
    rw [(setMode360_index cfg h1 h2 s a (le_trans hab hb)).2,
      (setMode360_index cfg h1 h2 s b hb).2]
    exact Nat.div_le_div_right (Nat.mul_le_mul_right _ hab)
  · rw [(setMode360_index cfg h1 h2 s 0 (by norm_num)).2]
    simp
  · rw [(setMode360_index cfg h1 h2 s 360 (le_refl _)).2]
    exact Nat.mul_div_cancel_left _ (by norm_num)
  · intro k hk
    have hk' : k ≤ 360 * (cfg.MODE_COUNT - 1) / 360 := by
      rw [Nat.mul_div_cancel_left _ (by norm_num : 0 < 360)]
      omega
    obtain ⟨a, ha, he⟩ := angle_onto (cfg.MODE_COUNT - 1) (by omega) 360 k hk'
    exact ⟨a, ha, by rw [(setMode360_index cfg h1 h2 s a ha).2, he]⟩

/-- Witness for C16: with 54 registered effects, angle 180 selects id
`floor(180 * 53 / 360) = 26`. -/
theorem setMode360_linear_witness :
    1 ≤ refConfig.MODE_COUNT ∧ refConfig.MODE_COUNT ≤ 256 ∧ (180 : Nat) ≤ 360 ∧
    (WS2812FX_setMode360 refConfig (sampleState 4) ((180 : Nat) : ℚ)).mode_index
      = 180 * (54 - 1) / 360 ∧
    180 * (54 - 1) / 360 = 26 :=
  ⟨by decide, by decide, by decide,
   ((setMode360_linear refConfig (by decide) (by decide) (sampleState 4)).1 180
      (by decide)).2,
   by decide⟩

/-! ## Indices handed to the driver by the scan and theater chase effects -/

theorem setPixelColor32_none (cfg : Config) (s : FX) (n c : Nat)
    (h : ¬ (if s.inverted then u16 (((s.led_count : Int) - 1) - (n : Int)) else n)
      < s.strip.length) :
    WS2812_setPixelColor32 cfg s n c = none := by
  simp only [WS2812_setPixelColor32, WS2812_setPixelColor, strip_set_pixel, if_neg h,
    Option.map_none']

theorem scan_index_last (s : FX) (h1 : 1 ≤ s.led_count) (h2 : s.led_count < 32768)
    (hstep : s.counter_mode_step = 2 * s.led_count - 2) :
    scan_index s = s.led_count := by
  have hs : scan_step s = 2 * s.led_count - 1 := by
    simp only [scan_step, u32, hstep]
    split_ifs <;> omega
  simp only [scan_index, hs, i32]
  omega

theorem scan_last_frame_aborts (cfg : Config) (s : FX) (h1 : 1 ≤ s.led_count)
    (h2 : s.led_count < 32768) (hlen : s.strip.length = s.led_count)
    (hstep : s.counter_mode_step = 2 * s.led_count - 2) :
    WS2812FX_mode_scan cfg s = none ∧ WS2812FX_mode_dual_scan cfg s = none := by
  have hi := scan_index_last s h1 h2 hstep
  have hnone : WS2812_setPixelColor32 cfg
      (WS2812_clear { s with counter_mode_step := scan_step s })
      (u16 (scan_index s : Int))
      (WS2812_clear { s with counter_mode_step := scan_step s }).color = none := by
    apply setPixelColor32_none
    simp only [WS2812_clear, strip_clear, List.length_replicate, hlen, hi, u16]
    split_ifs <;> omega
  constructor
  · simp only [WS2812FX_mode_scan, hnone, Option.map_none']
  · simp only [WS2812FX_mode_dual_scan, hnone, Option.none_bind, Option.map_none']

/-- C17, evaluation at the failing input. On a two-pixel strip started at step
counter 0, the first two frames of `WS2812FX_mode_scan` and of
`WS2812FX_mode_dual_scan` succeed and leave the step counter at 2; in the third
frame `i` is 2, the strip length, so the driver is handed an index outside
0..1 and the frame aborts.  In general, for every strip length from 1 to 32767,
a frame entered with step counter `2 * _led_count - 2` computes
`i = _led_count` and aborts in both effects. -/
theorem scan_index_out_of_range :
    (frames (WS2812FX_mode_scan refConfig) 2 { sampleState 2 with brightness := 255 }).map
        (fun s => (s.counter_mode_step, scan_index s, s.led_count)) = some (2, 2, 2) ∧
    (frames (WS2812FX_mode_scan refConfig) 3
        { sampleState 2 with brightness := 255 }).isSome = false ∧
    (frames (WS2812FX_mode_dual_scan refConfig) 2 { sampleState 2 with brightness := 255 }).map
        (fun s => (s.counter_mode_step, scan_index s, s.led_count)) = some (2, 2, 2) ∧
    (frames (WS2812FX_mode_dual_scan refConfig) 3
        { sampleState 2 with brightness := 255 }).isSome = false ∧
    (∀ (cfg : Config) (s : FX), 1 ≤ s.led_count → s.led_count < 32768 →
      s.strip.length = s.led_count → s.counter_mode_step = 2 * s.led_count - 2 →
      scan_index s = s.led_count ∧
      WS2812FX_mode_scan cfg s = none ∧ WS2812FX_mode_dual_scan cfg s = none) := by
  refine ⟨by decide, by decide, by decide, by decide, ?_⟩
  intro cfg s h1 h2 hlen hstep
  exact ⟨scan_index_last s h1 h2 hstep, scan_last_frame_aborts cfg s h1 h2 hlen hstep⟩

theorem theater_chase_one_pixel (cfg : Config) (s : FX) (hlc : s.led_count = 1)
    (hlen : s.strip.length = 1) (hcall : s.counter_mode_call % 6 = 2) :
    WS2812FX_mode_theater_chase cfg s = none := by
  have hnone : WS2812_setPixelColor32 cfg s (u16 (((0 : Nat) : Int) + ((1 : Nat) : Int)))
      s.color = none := by
    apply setPixelColor32_none
    simp only [hlc, hlen, u16]
    split_ifs <;> omega
  have hj : u8 ((2 : Nat) : Int) = 2 := rfl
  simp only [WS2812FX_mode_theater_chase, hcall, hj, hlc]
  simp only [Nat.mod_self, if_true, Nat.reduceAdd, Nat.reduceDiv, theater_loop, hnone,
    Option.none_bind, Option.map_none']

/-- C18, evaluation at the failing input. With one pixel and call counter 2,
`WS2812FX_mode_theater_chase` writes index `0 + (2 mod 6) / 2 = 1`, outside
0..0, and the frame aborts; with the 32 pixels that `WS2812_init` sets up and
call counter 4 it writes index `30 + 2 = 32` and aborts as well, while call
counter 0 on the same strip succeeds.  The one-pixel case aborts from every
state whose call counter is 2 modulo 6, inverted or not. -/
theorem theater_chase_index_out_of_range :
    (WS2812FX_mode_theater_chase refConfig
      { sampleState 1 with brightness := 255, counter_mode_call := 2 }).isSome = false ∧
    (WS2812FX_mode_theater_chase refConfig
      { sampleState 32 with brightness := 255, counter_mode_call := 4 }).isSome = false ∧
    (WS2812FX_mode_theater_chase refConfig
      { sampleState 32 with brightness := 255, counter_mode_call := 0 }).isSome = true ∧
    (∀ (cfg : Config) (s : FX), s.led_count = 1 → s.strip.length = 1 →
      s.counter_mode_call % 6 = 2 → WS2812FX_mode_theater_chase cfg s = none) := by
  refine ⟨by decide, by decide, by decide, ?_⟩
  intro cfg s hlc hlen hcall
  exact theater_chase_one_pixel cfg s hlc hlen hcall

/-! ## The static effect -/

theorem physical_index_lt (inv : Bool) (lc n : Nat) (hn : n < lc) :
    spec_physical_index inv lc n < lc := by
  unfold spec_physical_index
  split_ifs <;> omega

theorem physical_index_involutive (inv : Bool) (lc n : Nat) (hn : n < lc) :
    spec_physical_index inv lc (spec_physical_index inv lc n) = n := by
  unfold spec_physical_index
  split_ifs <;> omega

theorem setPixelColor32_eq (cfg : Config) (s : FX) (n c : Nat)
    (hlc : s.led_count < 65536) (hlen : s.led_count ≤ s.strip.length)
    (hn : n < s.led_count) :
    WS2812_setPixelColor32 cfg s n c =
      some { s with
        strip := (s.strip.set (spec_physical_index s.inverted s.led_count n)
          (scaled_pixel cfg s c)) } := by
  have hidx : (if s.inverted then u16 (((s.led_count : Int) - 1) - (n : Int)) else n)
      = spec_physical_index s.inverted s.led_count n := by
    unfold spec_physical_index
    split_ifs
    · exact inverted_index s.led_count n hlc hn
    · rfl
  have hlt : spec_physical_index s.inverted s.led_count n < s.strip.length :=
    lt_of_lt_of_le (physical_index_lt _ _ _ hn) hlen
  simp only [WS2812_setPixelColor32, WS2812_setPixelColor, hidx, strip_set_pixel, if_pos hlt,
    Option.map_some', scaled_pixel]

theorem static_loop_spec (cfg : Config) :
    ∀ (k i : Nat) (s : FX), i + k ≤ s.led_count → s.led_count < 65536 →
      s.led_count ≤ s.strip.length →
      ∃ px : List RGB, static_loop cfg k i s = some { s with strip := px } ∧
        px.length = s.strip.length ∧
        (∀ m : Nat, i ≤ m → m < i + k →
          px[spec_physical_index s.inverted s.led_count m]? =
            some (scaled_pixel cfg s s.color)) ∧
        (∀ j : Nat, (∀ m : Nat, i ≤ m → m < i + k →
            spec_physical_index s.inverted s.led_count m ≠ j) →
          px[j]? = s.strip[j]?) := by
  intro k
  induction k with
  | zero =>
    intro i s _ _ _
    exact ⟨s.strip, rfl, rfl, fun m h1 h2 => absurd h2 (by omega), fun _ _ => rfl⟩
  | succ k ih =>
    intro i s hik hlc hlen
    have hw := setPixelColor32_eq cfg s i s.color hlc hlen (by omega)
    obtain ⟨px, hrun, hlen', hset, hkeep⟩ := ih (i + 1)
      { s with
        strip := (s.strip.set (spec_physical_index s.inverted s.led_count i)
          (scaled_pixel cfg s s.color)) }
      (by show i + 1 + k ≤ s.led_count; omega) hlc
      (by show s.led_count ≤ (s.strip.set _ _).length; rw [List.length_set]; exact hlen)
    refine ⟨px, ?_, ?_, ?_, ?_⟩
    · simp only [static_loop, hw, Option.some_bind]
      exact hrun
    · rw [hlen']
      exact List.length_set _ _ _
    · intro m h1 h2
      rcases Nat.eq_or_lt_of_le h1 with heq | hlt
      · subst heq
        by_cases hex : ∀ m' : Nat, i + 1 ≤ m' → m' < i + 1 + k →
            spec_physical_index s.inverted s.led_count m'
              ≠ spec_physical_index s.inverted s.led_count i
        · have := hkeep _ hex
          rw [this]
          exact List.getElem?_set_self
            (lt_of_lt_of_le (physical_index_lt _ _ _ (by omega)) hlen)
        · push_neg at hex
          obtain ⟨m', hm1, hm2, hm3⟩ := hex
          rw [← hm3]
          exact hset m' hm1 hm2
      · exact hset m hlt (by omega)
    · intro j hj
      have h1 := hkeep j (fun m hm1 hm2 => hj m (by omega) (by omega))
      rw [h1]
      exact List.getElem?_set_ne (hj i (le_refl _) (by omega))

theorem mode_static_spec (cfg : Config) (s : FX) (hlc : s.led_count < 65536)
    (hlen : s.led_count ≤ s.strip.length) :
    ∃ px : List RGB,
      WS2812FX_mode_static cfg s = some { s with strip := px, mode_delay := 50 } ∧
      px.length = s.strip.length ∧
      (∀ j : Nat, j < s.led_count → px[j]? = some (scaled_pixel cfg s s.color)) ∧
      (∀ j : Nat, s.led_count ≤ j → px[j]? = s.strip[j]?) := by
  obtain ⟨px, hrun, hlen', hset, hkeep⟩ :=
    static_loop_spec cfg s.led_count 0 s (by omega) hlc hlen
  refine ⟨px, ?_, hlen', ?_, ?_⟩
  · simp only [WS2812FX_mode_static, hrun, Option.map_some']
  · intro j hj
    have := hset (spec_physical_index s.inverted s.led_count j) (Nat.zero_le _)
      (by have := physical_index_lt s.inverted s.led_count j hj; omega)
    rwa [physical_index_involutive _ _ _ hj] at this
  · intro j hj
    apply hkeep
    intro m _ hm hne
    have := physical_index_lt s.inverted s.led_count m (by omega)
    omega

theorem scaled_pixel_val (cfg : Config) (hmin : cfg.BRIGHTNESS_MIN = 0)
    (hmax : cfg.BRIGHTNESS_MAX = 255) (s : FX) (hB : s.brightness ≤ 255) (c : Nat) :
    scaled_pixel cfg s c =
      RGB.mk ((c >>> 16) % 256 * s.brightness / 255) ((c >>> 8) % 256 * s.brightness / 255)
        (c % 256 * s.brightness / 255) := by
  have h16 : (c >>> 16) % 256 ≤ 255 := by omega
  have h8 : (c >>> 8) % 256 ≤ 255 := by omega
  have h0 : c % 256 ≤ 255 := by omega
  have hu0 : u8 (c : Int) = c % 256 := by unfold u8; omega
  simp only [scaled_pixel, u8_shift, hu0, hmin, hmax]
  rw [channel_scale _ _ h16 hB, channel_scale _ _ h8 hB, channel_scale _ _ h0 hB]

/-- C20. Static effect frame, for `BRIGHTNESS_MIN = 0`, `BRIGHTNESS_MAX = 255`
and a state whose brightness is at most 255 and whose 16-bit strip length is
covered by the driver's buffer: one invocation of `WS2812FX_mode_static`
succeeds; it sets each of the `_led_count` pixels to the three bytes of the base
colour, each scaled by the current brightness (`floor(c * B / 255)`, which is
the byte itself at brightness 255); it sets `_mode_delay` to 50; and it leaves
the step counter, the call counter, the scratch colour, both brightness values,
and every other field but the pixels and the delay unchanged. -/
theorem mode_static_frame (cfg : Config) (hmin : cfg.BRIGHTNESS_MIN = 0)
    (hmax : cfg.BRIGHTNESS_MAX = 255) (s : FX) (hB : s.brightness ≤ 255)
    (hlc : s.led_count < 65536) (hlen : s.led_count ≤ s.strip.length) :
    ∃ s' : FX, WS2812FX_mode_static cfg s = some s' ∧
      (∀ j : Nat, j < s.led_count →
        s'.strip[j]? = some (RGB.mk ((s.color >>> 16) % 256 * s.brightness / 255)
          ((s.color >>> 8) % 256 * s.brightness / 255)
          (s.color % 256 * s.brightness / 255))) ∧
      (s.brightness = 255 → ∀ j : Nat, j < s.led_count →
        s'.strip[j]? = some (RGB.mk ((s.color >>> 16) % 256) ((s.color >>> 8) % 256)
          (s.color % 256))) ∧
      s'.mode_delay = 50 ∧
      s'.counter_mode_step = s.counter_mode_step ∧
      s'.counter_mode_call = s.counter_mode_call ∧
      s'.mode_color = s.mode_color ∧
      s'.brightness = s.brightness ∧
      s'.target_brightness = s.target_brightness ∧
      s' = { s with strip := s'.strip, mode_delay := 50 } ∧
      s'.strip.length = s.strip.length := by
  obtain ⟨px, hrun, hlen', hset, _⟩ := mode_static_spec cfg s hlc hlen
  have hval := scaled_pixel_val cfg hmin hmax s hB s.color
  refine ⟨_, hrun, ?_, ?_, rfl, rfl, rfl, rfl, rfl, rfl, rfl, hlen'⟩
  · intro j hj
    rw [← hval]
    exact hset j hj
  · intro h255 j hj
    have h := hset j hj
    rw [hval, h255] at h
    simpa [Nat.mul_div_cancel] using h

/-- Witness for C20: at brightness 128 the static effect fills a three-pixel red
strip with `(128, 0, 0)` and asks for a delay of 50. -/
theorem mode_static_frame_witness :
    refConfig.BRIGHTNESS_MIN = 0 ∧ refConfig.BRIGHTNESS_MAX = 255 ∧
    ({ sampleState 3 with brightness := 128 } : FX).brightness ≤ 255 ∧
    ∃ s' : FX, WS2812FX_mode_static refConfig { sampleState 3 with brightness := 128 }
        = some s' ∧
      s'.strip[2]? = some (RGB.mk (255 * 128 / 255) (0 * 128 / 255) (0 * 128 / 255)) ∧
      s'.mode_delay = 50 := by
  obtain ⟨s', h1, h2, _, h4, _⟩ := mode_static_frame refConfig rfl rfl
    { sampleState 3 with brightness := 128 } (by decide) (by decide) (by decide)
  exact ⟨rfl, rfl, by decide, s', h1, h2 2 (by decide), h4⟩

/-! ## The static scenario -/

theorem static_scenario_setup_fields (cfg : Config) (STATIC dMode dSpeed dColor : Nat)
    (rand_seq : Nat → Nat) (hmin : cfg.BRIGHTNESS_MIN = 0) (hmax : cfg.BRIGHTNESS_MAX = 255)
    (hS : STATIC < cfg.MODE_COUNT) (hMC : cfg.MODE_COUNT ≤ 256) :
    (static_scenario_setup cfg STATIC dMode dSpeed dColor rand_seq).running = true ∧
    (static_scenario_setup cfg STATIC dMode dSpeed dColor rand_seq).slow_start = false ∧
    (static_scenario_setup cfg STATIC dMode dSpeed dColor rand_seq).led_count = 32 ∧
    (static_scenario_setup cfg STATIC dMode dSpeed dColor rand_seq).strip
      = List.replicate 32 (RGB.mk 0 0 0) ∧
    (static_scenario_setup cfg STATIC dMode dSpeed dColor rand_seq).color = 16711680 ∧
    (static_scenario_setup cfg STATIC dMode dSpeed dColor rand_seq).target_brightness = 255 ∧
    (static_scenario_setup cfg STATIC dMode dSpeed dColor rand_seq).mode_index = STATIC ∧
    (static_scenario_setup cfg STATIC dMode dSpeed dColor rand_seq).mode_delay = 100 ∧
    (static_scenario_setup cfg STATIC dMode dSpeed dColor rand_seq).mode_last_call_time = 0 ∧
    (static_scenario_setup cfg STATIC dMode dSpeed dColor rand_seq).counter_mode_call = 0 := by
  refine ⟨rfl, rfl, rfl, rfl, rfl, ?_, ?_, rfl, rfl, rfl⟩
  · show u8 ((constrain 255 cfg.BRIGHTNESS_MIN cfg.BRIGHTNESS_MAX : Nat) : Int) = 255
    rw [hmin, hmax]
    rfl
  · show (WS2812FX_setMode cfg
      (WS2812FX_init (initial_state dMode dSpeed dColor rand_seq) 30) STATIC).mode_index = STATIC
    rw [setMode_index cfg (by omega) hMC _ STATIC (by omega)]
    omega

theorem update_brightness_no_ramp (cfg : Config) (s : FX) (hss : s.slow_start = false) :
    update_brightness cfg s = { s with brightness := s.target_brightness } := by
  simp [update_brightness, hss]

/-- C19, counterexample. In the static scenario the tick at `t = 0` renders no
frame, because `0 - 0 > 100` is false for the initial `_mode_delay = 100` and
`_mode_last_call_time = 0`: afterwards `_mode_delay` is still 100, not 50, the
call counter is still 0, and pixel 0 is still off. -/
theorem static_scenario_tick_zero_counterexample :
    (static_scenario refConfig (fun _ => WS2812FX_mode_static refConfig) 0 0 150 16711680
        (fun i => i) 0).map (fun s => (s.mode_delay, s.counter_mode_call, s.strip[0]?))
      = some (100, 0, some (RGB.mk 0 0 0)) ∧
    (static_scenario refConfig (fun _ => WS2812FX_mode_static refConfig) 0 0 150 16711680
        (fun i => i) 0).map (fun s => s.mode_delay) ≠ some 50 := by
  decide

/-- C19, amended. In the static scenario (`init`, `setMode(STATIC)`,
`setColor(255, 0, 0)`, `setBrightness(255)`, `start()`), with the brightness range
0..255 and `STATIC` a registered id of the static effect: one tick at a time
`t <= 100`, in particular `t = 0`, renders no frame, so every pixel stays off and
`_mode_delay` stays 100; one tick at a time `t` with `100 < t < 2^32` renders the
static frame, after which every pixel of the strip is `(255, 0, 0)`, read back as
packed `0xFF0000`, and `_mode_delay` is 50. -/
theorem static_scenario_renders (cfg : Config) (modes : Nat → Mode)
    (STATIC dMode dSpeed dColor : Nat) (rand_seq : Nat → Nat)
    (hmin : cfg.BRIGHTNESS_MIN = 0) (hmax : cfg.BRIGHTNESS_MAX = 255)
    (hS : STATIC < cfg.MODE_COUNT) (hMC : cfg.MODE_COUNT ≤ 256)
    (hreg : modes STATIC = WS2812FX_mode_static cfg) :
    (∀ t : Nat, t ≤ 100 →
      ∃ s' : FX, static_scenario cfg modes STATIC dMode dSpeed dColor rand_seq t = some s' ∧
        s'.mode_delay = 100 ∧ s'.counter_mode_call = 0 ∧
        s'.strip.length = s'.led_count ∧
        ∀ j : Nat, j < s'.led_count → s'.strip[j]? = some (RGB.mk 0 0 0)) ∧
    (∀ t : Nat, 100 < t → t < 4294967296 →
      ∃ s' : FX, static_scenario cfg modes STATIC dMode dSpeed dColor rand_seq t = some s' ∧
        s'.mode_delay = 50 ∧ s'.counter_mode_call = 1 ∧
        s'.strip.length = s'.led_count ∧
        ∀ j : Nat, j < s'.led_count →
          s'.strip[j]? = some (RGB.mk 255 0 0) ∧
          WS2812_getPixelColor s' j = some 16711680) := by
  obtain ⟨hrun, hss, hlc, hstrip, hcol, htb, hmi, hmd, hlast, hcall⟩ :=
    static_scenario_setup_fields cfg STATIC dMode dSpeed dColor rand_seq hmin hmax hS hMC
  have hpass := service_pass_running_eq cfg modes
  constructor
  · intro t ht
    have hnd : frame_due t (static_scenario_setup cfg STATIC dMode dSpeed dColor rand_seq)
        = false := by
      cases hfd : frame_due t (static_scenario_setup cfg STATIC dMode dSpeed dColor rand_seq)
      · rfl
      · have := (frame_due_iff t _).1 hfd
        rw [hlast, hmd] at this
        omega
    refine ⟨update_brightness cfg
      (static_scenario_setup cfg STATIC dMode dSpeed dColor rand_seq), ?_, ?_, ?_, ?_, ?_⟩
    · simp only [static_scenario, hpass _ _ hrun, hnd, Bool.false_eq_true, if_false]
    · rw [update_brightness_no_ramp cfg _ hss]; exact hmd
    · rw [update_brightness_no_ramp cfg _ hss]; exact hcall
    · rw [update_brightness_no_ramp cfg _ hss]
      show (static_scenario_setup cfg STATIC dMode dSpeed dColor rand_seq).strip.length
        = (static_scenario_setup cfg STATIC dMode dSpeed dColor rand_seq).led_count
      rw [hstrip, hlc]; rfl
    · intro j hj
      rw [update_brightness_no_ramp cfg _ hss] at hj ⊢
      have hj' : j < 32 := by rw [← hlc]; exact hj
      show (static_scenario_setup cfg STATIC dMode dSpeed dColor rand_seq).strip[j]? = _
      rw [hstrip, List.getElem?_replicate, if_pos hj']
  · intro t ht1 ht2
    have hd : frame_due t (static_scenario_setup cfg STATIC dMode dSpeed dColor rand_seq)
        = true := by
      rw [frame_due_iff, hlast, hmd]
      omega
    have hlc' : (frame_entry t (update_brightness cfg
        (static_scenario_setup cfg STATIC dMode dSpeed dColor rand_seq))).led_count = 32 := by
      rw [update_brightness_no_ramp cfg _ hss]; exact hlc
    have hst' : (frame_entry t (update_brightness cfg
        (static_scenario_setup cfg STATIC dMode dSpeed dColor rand_seq))).strip
          = List.replicate 32 (RGB.mk 0 0 0) := by
      rw [update_brightness_no_ramp cfg _ hss]; exact hstrip
    have hco' : (frame_entry t (update_brightness cfg
        (static_scenario_setup cfg STATIC dMode dSpeed dColor rand_seq))).color = 16711680 := by
      rw [update_brightness_no_ramp cfg _ hss]; exact hcol
    have hbr' : (frame_entry t (update_brightness cfg
        (static_scenario_setup cfg STATIC dMode dSpeed dColor rand_seq))).brightness = 255 := by
      rw [update_brightness_no_ramp cfg _ hss]; exact htb
    have hcc' : (frame_entry t (update_brightness cfg
        (static_scenario_setup cfg STATIC dMode dSpeed dColor rand_seq))).counter_mode_call
          = 1 := by
      rw [update_brightness_no_ramp cfg _ hss]
      show ((static_scenario_setup cfg STATIC dMode dSpeed dColor rand_seq).counter_mode_call
        + 1) % 4294967296 = 1
      rw [hcall]
    obtain ⟨px, hms, hpl, hset, _⟩ := mode_static_spec cfg
      (frame_entry t (update_brightness cfg
        (static_scenario_setup cfg STATIC dMode dSpeed dColor rand_seq)))
      (by rw [hlc']; norm_num) (by rw [hlc', hst']; simp)
    have hpix : scaled_pixel cfg (frame_entry t (update_brightness cfg
        (static_scenario_setup cfg STATIC dMode dSpeed dColor rand_seq)))
        (frame_entry t (update_brightness cfg
          (static_scenario_setup cfg STATIC dMode dSpeed dColor rand_seq))).color
          = RGB.mk 255 0 0 := by
      rw [scaled_pixel_val cfg hmin hmax _ (by rw [hbr']) _, hco', hbr']
      decide
    refine ⟨{ frame_entry t (update_brightness cfg
        (static_scenario_setup cfg STATIC dMode dSpeed dColor rand_seq)) with
      strip := px, mode_delay := 50 }, ?_, rfl, hcc', ?_, ?_⟩
    · simp only [static_scenario, hpass _ _ hrun, hd, if_true, hmi, hreg]
      exact hms
    · show px.length = _
      rw [hpl, hst', hlc']; rfl
    · intro j hj
      have hj' : j < (frame_entry t (update_brightness cfg
          (static_scenario_setup cfg STATIC dMode dSpeed dColor rand_seq))).led_count := hj
      have hpj : px[j]? = some (RGB.mk 255 0 0) := by
        rw [← hpix]; exact hset j hj'
      refine ⟨hpj, ?_⟩
      show (strip_get_pixel px j).map (fun p => color32 p.r p.g p.b) = some 16711680
      simp only [strip_get_pixel, hpj, Option.map_some']
      rfl

/-- Witness for C19: the reference constants, the static effect registered under
id 0, and a tick at time 101, after which pixel 29 reads back as `0xFF0000`. -/
theorem static_scenario_renders_witness :
    refConfig.BRIGHTNESS_MIN = 0 ∧ refConfig.BRIGHTNESS_MAX = 255 ∧
    0 < refConfig.MODE_COUNT ∧ refConfig.MODE_COUNT ≤ 256 ∧ (100 : Nat) < 101 ∧
    ∃ s' : FX, static_scenario refConfig (fun _ => WS2812FX_mode_static refConfig) 0 0 150
        16711680 (fun i => i) 101 = some s' ∧
      s'.mode_delay = 50 ∧
      WS2812_getPixelColor s' 29 = some 16711680 := by
  obtain ⟨s', h1, h2, _, _, h5⟩ := (static_scenario_renders refConfig
    (fun _ => WS2812FX_mode_static refConfig) 0 0 150 16711680 (fun i => i)
    rfl rfl (by decide) (by decide) rfl).2 101 (by decide) (by decide)
  have hlc : s'.led_count = 32 := by
    have h := congrArg (Option.map (fun s => s.led_count)) h1
    have he : (static_scenario refConfig (fun _ => WS2812FX_mode_static refConfig) 0 0 150
        16711680 (fun i => i) 101).map (fun s => s.led_count) = some 32 := by decide
    rw [he] at h
    simpa using h.symm
  exact ⟨rfl, rfl, by decide, by decide, by decide, s', h1, h2,
    (h5 29 (by rw [hlc]; decide)).2⟩

/-! ## Strip length -/

/-- C23, evaluation at the failing input. After `WS2812FX_init(30)` on the initial
globals `WS2812FX_getLength` returns 32, the constant `WS2812_LED_NUMBER`, not
30; for every prior state and every argument the length after `WS2812FX_init`
is that constant and the driver buffer has as many pixels. -/
theorem init_ignores_pixel_count :
    WS2812FX_getLength (WS2812FX_init (initial_state 0 150 16711680 (fun i => i)) 30) = 32 ∧
    WS2812FX_getLength (WS2812FX_init (initial_state 0 150 16711680 (fun i => i)) 30) ≠ 30 ∧
    (∀ (s : FX) (n : Nat),
      WS2812FX_getLength (WS2812FX_init s n) = WS2812_LED_NUMBER ∧
      (WS2812FX_init s n).strip.length = WS2812_LED_NUMBER) := by
  refine ⟨rfl, by decide, ?_⟩
  intro s n
  exact ⟨rfl, by simp [WS2812FX_init, WS2812FX_start, WS2812_init, WS2812_clear, strip_clear]⟩

/-! ## Brightness slew downward -/

theorem filter_floor_down (c t : Nat) (h : t ≤ c) :
    (t : Int) ≤ ⌊(3 / 5 : ℚ) * (c : ℚ) + (1 - 3 / 5) * (t : ℚ)⌋ ∧
    ⌊(3 / 5 : ℚ) * (c : ℚ) + (1 - 3 / 5) * (t : ℚ)⌋ ≤ (c : Int) ∧
    (t < c → ⌊(3 / 5 : ℚ) * (c : ℚ) + (1 - 3 / 5) * (t : ℚ)⌋ < (c : Int)) := by
  have hq : (t : ℚ) ≤ (c : ℚ) := by exact_mod_cast h
  refine ⟨?_, ?_, ?_⟩
  · rw [Int.le_floor]
    push_cast
    linarith
  · have h1 : ((⌊(3 / 5 : ℚ) * (c : ℚ) + (1 - 3 / 5) * (t : ℚ)⌋ : Int) : ℚ) ≤ (c : ℚ) :=
      le_trans (Int.floor_le _) (by linarith)
    exact_mod_cast h1
  · intro hlt
    have hq' : (t : ℚ) < (c : ℚ) := by exact_mod_cast hlt
    rw [Int.floor_lt]
    push_cast
    linarith

theorem update_brightness_down (cfg : Config) (hf : cfg.BRIGHTNESS_FILTER = 3 / 5)
    (s : FX) (hss : s.slow_start = true) (htc : s.target_brightness ≤ s.brightness)
    (hc : s.brightness ≤ 255) :
    ((update_brightness cfg s).brightness : Int)
      = ⌊(3 / 5 : ℚ) * (s.brightness : ℚ) + (1 - 3 / 5) * (s.target_brightness : ℚ)⌋ ∧
    s.target_brightness ≤ (update_brightness cfg s).brightness ∧
    (update_brightness cfg s).brightness ≤ s.brightness ∧
    (s.target_brightness < s.brightness →
      (update_brightness cfg s).brightness < s.brightness) := by
  obtain ⟨h1, h2, h3⟩ := filter_floor_down s.brightness s.target_brightness htc
  have hx0 : (0 : ℚ) ≤ (3 / 5 : ℚ) * (s.brightness : ℚ)
      + (1 - 3 / 5) * (s.target_brightness : ℚ) := by
    have a1 : (0 : ℚ) ≤ (s.brightness : ℚ) := Nat.cast_nonneg _
    have a2 : (0 : ℚ) ≤ (s.target_brightness : ℚ) := Nat.cast_nonneg _
    linarith
  have hfl0 : (0 : Int)
      ≤ ⌊(3 / 5 : ℚ) * (s.brightness : ℚ) + (1 - 3 / 5) * (s.target_brightness : ℚ)⌋ := by
    omega
  obtain ⟨n, hn⟩ : ∃ n : Nat,
      ⌊(3 / 5 : ℚ) * (s.brightness : ℚ) + (1 - 3 / 5) * (s.target_brightness : ℚ)⌋ = (n : Int) :=
    ⟨_, (Int.toNat_of_nonneg hfl0).symm⟩
  have hval : (update_brightness cfg s).brightness = n := by
    rw [update_brightness_val, if_pos hss, if_neg (by omega), hf]
    exact f2u8_of_floor _ n hx0 hn (by omega)
  rw [hval, hn]
  refine ⟨rfl, by omega, by omega, ?_⟩
  intro hlt
  have := h3 hlt
  omega

theorem slew_down_reaches (cfg : Config) (hf : cfg.BRIGHTNESS_FILTER = 3 / 5) :
    ∀ (d : Nat) (s : FX), s.slow_start = true → s.target_brightness ≤ s.brightness →
      s.brightness ≤ 255 → s.brightness - s.target_brightness ≤ d →
      ∃ N : Nat, N ≤ d ∧
        ((update_brightness cfg)^[N] s).brightness = s.target_brightness ∧
        ∀ k : Nat, k < N →
          ((update_brightness cfg)^[k + 1] s).brightness
            < ((update_brightness cfg)^[k] s).brightness ∧
          s.target_brightness ≤ ((update_brightness cfg)^[k + 1] s).brightness := by
  intro d
  induction d with
  | zero =>
    intro s _ hle _ hd
    exact ⟨0, le_refl _, by simp only [Function.iterate_zero, id_eq]; omega,
      fun k hk => absurd hk (Nat.not_lt_zero k)⟩
  | succ d ih =>
    intro s hss hle hc hd
    rcases Nat.eq_or_lt_of_le hle with heq | hlt
    · exact ⟨0, Nat.zero_le _, by simpa using heq.symm,
        fun k hk => absurd hk (Nat.not_lt_zero k)⟩
    · obtain ⟨_, hlo, hhi, hstrict⟩ := update_brightness_down cfg hf s hss hle hc
      have hdn := hstrict hlt
      obtain ⟨hkt, hks⟩ := update_brightness_keeps cfg s
      obtain ⟨N, hN, hreach, hmono⟩ := ih (update_brightness cfg s) (by rw [hks]; exact hss)
        (by rw [hkt]; exact hlo) (by omega) (by rw [hkt]; omega)
      refine ⟨N + 1, Nat.succ_le_succ hN, ?_, ?_⟩
      · rw [Function.iterate_succ_apply, hreach, hkt]
      · intro k hk
        cases k with
        | zero =>
          simpa using ⟨hdn, hlo⟩
        | succ j =>
          have hj := hmono j (by omega)
          rw [hkt] at hj
          simpa only [Function.iterate_succ_apply] using hj

theorem slew_rest (cfg : Config) (hf : cfg.BRIGHTNESS_FILTER = 3 / 5) :
    ∀ (m : Nat) (s : FX), s.slow_start = true → s.brightness = s.target_brightness →
      s.brightness ≤ 255 →
      ((update_brightness cfg)^[m] s).brightness = s.target_brightness := by
  intro m
  induction m with
  | zero =>
    intro s _ he _
    simpa using he
  | succ m ih =>
    intro s hss he hc
    obtain ⟨_, hlo, hhi, _⟩ := update_brightness_down cfg hf s hss (by omega) hc
    obtain ⟨hkt, hks⟩ := update_brightness_keeps cfg s
    rw [Function.iterate_succ_apply,
      ih (update_brightness cfg s) (by rw [hks]; exact hss) (by rw [hkt]; omega) (by omega), hkt]

/-- C30. Brightness slew downward and at rest, with slow start on and the filter
constant 0.6 in exact arithmetic: for every state with
`_target_brightness <= _brightness <= 255`, the brightness update of one pass
gives `floor(0.6 * current + 0.4 * target)`, which lies between the target and
the current value and is strictly below the current value when that is above
the target.  So some number `N` of successive updates reaches the target, each
update before that strictly decreases the brightness without going below the
target, and every later update leaves the brightness equal to the target. -/
theorem brightness_slew_down (cfg : Config) (hf : cfg.BRIGHTNESS_FILTER = 3 / 5) :
    (∀ s : FX, s.slow_start = true → s.target_brightness ≤ s.brightness →
      s.brightness ≤ 255 →
      ((update_brightness cfg s).brightness : Int)
        = ⌊(3 / 5 : ℚ) * (s.brightness : ℚ) + (2 / 5 : ℚ) * (s.target_brightness : ℚ)⌋ ∧
      s.target_brightness ≤ (update_brightness cfg s).brightness ∧
      (update_brightness cfg s).brightness ≤ s.brightness ∧
      (s.target_brightness < s.brightness →
        (update_brightness cfg s).brightness < s.brightness)) ∧
    (∀ s : FX, s.slow_start = true → s.target_brightness ≤ s.brightness →
      s.brightness ≤ 255 →
      ∃ N : Nat, ((update_brightness cfg)^[N] s).brightness = s.target_brightness ∧
        (∀ k : Nat, k < N →
          ((update_brightness cfg)^[k + 1] s).brightness
            < ((update_brightness cfg)^[k] s).brightness ∧
          s.target_brightness ≤ ((update_brightness cfg)^[k + 1] s).brightness) ∧
        (∀ m : Nat, ((update_brightness cfg)^[N + m] s).brightness = s.target_brightness)) := by
  constructor
  · intro s hss htc hc
    obtain ⟨h1, h2, h3, h4⟩ := update_brightness_down cfg hf s hss htc hc
    refine ⟨?_, h2, h3, h4⟩
    rw [h1]
    norm_num
  · intro s hss htc hc
    obtain ⟨N, _, hreach, hmono⟩ :=
      slew_down_reaches cfg hf (s.brightness - s.target_brightness) s hss htc hc (le_refl _)
    refine ⟨N, hreach, hmono, ?_⟩
    intro m
    have hks : ∀ n : Nat, ((update_brightness cfg)^[n] s).slow_start = s.slow_start ∧
        ((update_brightness cfg)^[n] s).target_brightness = s.target_brightness := by
      intro n
      induction n with
      | zero => exact ⟨rfl, rfl⟩
      | succ n ihn =>
        rw [Function.iterate_succ_apply']
        obtain ⟨a, b⟩ := update_brightness_keeps cfg ((update_brightness cfg)^[n] s)
        exact ⟨b.trans ihn.1, a.trans ihn.2⟩
    rw [Nat.add_comm, Function.iterate_add_apply]
    have := slew_rest cfg hf m ((update_brightness cfg)^[N] s)
      (by rw [(hks N).1]; exact hss) (by rw [hreach, (hks N).2])
      (by rw [hreach]; omega)
    rw [this, (hks N).2]

/-- Witness for C30: the reference constants and a strip at brightness 255 with
target 20 and slow start on, whose first update gives
`floor(0.6 * 255 + 0.4 * 20) = 161`. -/
theorem brightness_slew_down_witness :
    refConfig.BRIGHTNESS_FILTER = 3 / 5 ∧
    ((update_brightness refConfig { sampleState 4 with slow_start := true, brightness := 255, target_brightness := 20 }).brightness : Int)
      = ⌊(3 / 5 : ℚ) * ((255 : Nat) : ℚ) + (2 / 5 : ℚ) * ((20 : Nat) : ℚ)⌋ ∧
    ⌊(3 / 5 : ℚ) * ((255 : Nat) : ℚ) + (2 / 5 : ℚ) * ((20 : Nat) : ℚ)⌋ = 161 ∧
    (update_brightness refConfig { sampleState 4 with slow_start := true, brightness := 255, target_brightness := 20 }).brightness < 255 := by
  have h := (brightness_slew_down refConfig rfl).1
    { sampleState 4 with slow_start := true, brightness := 255, target_brightness := 20 }
    rfl (by decide) (by decide)
  refine ⟨rfl, h.1, ?_, h.2.2.2 (by decide)⟩
  rw [Int.floor_eq_iff]
  norm_num

/-! ## Effects that force the brightness -/

/-- C25, evaluation at the failing input. A two-pixel strip gets
`setBrightness(200)` and `start()`, then three ticks (at 101, 202 and 303 ms)
render three `WS2812FX_mode_breath` frames.  In the third frame the breathing
level is 253, so the claim gives `floor(253 * 200 / 255) = 198`, but the
brightness applied is 197, because each frame scales the brightness the previous
frame forced; and `WS2812FX_getBrightness` then returns 197, not 200. -/
theorem breath_overwrites_user_brightness :
    (service_run refConfig (fun _ => WS2812FX_mode_breath refConfig) [101, 202, 303]
        (WS2812FX_start (WS2812FX_setBrightness refConfig (sampleState 2) 200))).map
      (fun s => (s.mode_color, s.brightness, WS2812FX_getBrightness s)) = some (253, 197, 197) ∧
    253 * 200 / 255 = 198 ∧
    (service_run refConfig (fun _ => WS2812FX_mode_breath refConfig) [101, 202]
        (WS2812FX_start (WS2812FX_setBrightness refConfig (sampleState 2) 200))).map
      (fun s => (s.mode_color, s.brightness, WS2812FX_getBrightness s)) = some (254, 199, 199) ∧
    WS2812FX_getBrightness
      (WS2812FX_start (WS2812FX_setBrightness refConfig (sampleState 2) 200)) = 200 := by
  decide

/-- C26, evaluation at the failing input. On a one-pixel strip whose brightness
and target are 200 (the user's setting), the first `WS2812FX_mode_fade` frame
forces the brightness to 25, and it is still 25 after 128 frames, when step 127
has been rendered and the claim gives `25 + floor(255 * (200 - 25) / 255) = 200`;
after the full cycle of 256 frames it is 25 as well, and
`WS2812FX_getBrightness` returns 25. -/
theorem fade_sticks_at_minimum :
    (frames (WS2812FX_mode_fade refConfig) 1
        { sampleState 1 with brightness := 200, target_brightness := 200 }).map
      (fun s => (s.counter_mode_step, s.brightness, WS2812FX_getBrightness s))
      = some (1, 25, 25) ∧
    (frames (WS2812FX_mode_fade refConfig) 128
        { sampleState 1 with brightness := 200, target_brightness := 200 }).map
      (fun s => (s.counter_mode_step, s.brightness, WS2812FX_getBrightness s))
      = some (128, 25, 25) ∧
    25 + (255 - 2 * (127 - 127)) * (200 - 25) / 255 = 200 ∧
    (frames (WS2812FX_mode_fade refConfig) 256
        { sampleState 1 with brightness := 200, target_brightness := 200 }).map
      (fun s => (s.counter_mode_step, s.brightness, WS2812FX_getBrightness s))
      = some (0, 25, 25) := by
  decide!

/-! ## Delay and speed -/

theorem delay_by_speed_antitone (cfg : Config) (hsm : cfg.SPEED_MAX ≤ 255) (s : FX)
    (v₁ v₂ base range : Nat) (h12 : v₁ ≤ v₂) (h2 : v₂ ≤ cfg.SPEED_MAX)
    (hb : base ≤ 100) (hr : range ≤ 5000) :
    delay_by_speed cfg { s with speed := v₂ } base range
      ≤ delay_by_speed cfg { s with speed := v₁ } base range := by
  have e : ∀ v : Nat, v ≤ cfg.SPEED_MAX →
      delay_by_speed cfg { s with speed := v } base range
        = base + range * (cfg.SPEED_MAX - v) / cfg.SPEED_MAX := by
    intro v hv
    have h1 : u32 ((cfg.SPEED_MAX : Int) - (v : Int)) = cfg.SPEED_MAX - v := by
      unfold u32; omega
    have hle : range * (cfg.SPEED_MAX - v) ≤ 5000 * 255 :=
      Nat.mul_le_mul hr (by omega)
    have h2 : u32 ((range : Int) * ((cfg.SPEED_MAX - v : Nat) : Int))
        = range * (cfg.SPEED_MAX - v) := by
      have hc : (range : Int) * ((cfg.SPEED_MAX - v : Nat) : Int)
          = ((range * (cfg.SPEED_MAX - v) : Nat) : Int) := by push_cast; rfl
      rw [hc]
      unfold u32
      omega
    have hd : range * (cfg.SPEED_MAX - v) / cfg.SPEED_MAX ≤ 5000 * 255 :=
      le_trans (Nat.div_le_self _ _) hle
    simp only [delay_by_speed]
    rw [h1, h2]
    generalize range * (cfg.SPEED_MAX - v) / cfg.SPEED_MAX = q at hd ⊢
    omega
  rw [e v₁ (le_trans h12 h2), e v₂ h2]
  exact Nat.add_le_add_left
    (Nat.div_le_div_right (Nat.mul_le_mul_left _ (by omega))) _

theorem delay_by_length_antitone (cfg : Config) (hsm : cfg.SPEED_MAX ≤ 255) (s : FX)
    (v₁ v₂ base range : Nat) (h12 : v₁ ≤ v₂) (h2 : v₂ ≤ cfg.SPEED_MAX)
    (hb : base ≤ 100) (hr : range ≤ 5000) :
    delay_by_length cfg { s with speed := v₂ } base range
      ≤ delay_by_length cfg { s with speed := v₁ } base range := by
  have e : ∀ v : Nat, v ≤ cfg.SPEED_MAX →
      delay_by_length cfg { s with speed := v } base range
        = base + range * (cfg.SPEED_MAX - v) / s.led_count := by
    intro v hv
    have h1 : u32 ((cfg.SPEED_MAX : Int) - (v : Int)) = cfg.SPEED_MAX - v := by
      unfold u32; omega
    have hle : range * (cfg.SPEED_MAX - v) ≤ 5000 * 255 :=
      Nat.mul_le_mul hr (by omega)
    have h2 : u32 ((range : Int) * ((cfg.SPEED_MAX - v : Nat) : Int))
        = range * (cfg.SPEED_MAX - v) := by
      have hc : (range : Int) * ((cfg.SPEED_MAX - v : Nat) : Int)
          = ((range * (cfg.SPEED_MAX - v) : Nat) : Int) := by push_cast; rfl
      rw [hc]
      unfold u32
      omega
    have hd : range * (cfg.SPEED_MAX - v) / s.led_count ≤ 5000 * 255 :=
      le_trans (Nat.div_le_self _ _) hle
    simp only [delay_by_length]
    rw [h1, h2]
    generalize range * (cfg.SPEED_MAX - v) / s.led_count = q at hd ⊢
    omega
  rw [e v₁ (le_trans h12 h2), e v₂ h2]
  exact Nat.add_le_add_left
    (Nat.div_le_div_right (Nat.mul_le_mul_left _ (by omega))) _

theorem fill_loop_strip_only (cfg : Config) (c : Nat) :
    ∀ (k i : Nat) (s s' : FX), fill_loop cfg c k i s = some s' →
      ∃ px : List RGB, s' = { s with strip := px } := by
  intro k
  induction k with
  | zero =>
    intro i s s' h
    simp only [fill_loop, Option.some.injEq] at h
    exact ⟨s.strip, h.symm⟩
  | succ k ih =>
    intro i s s' h
    simp only [fill_loop] at h
    cases hw : WS2812_setPixelColor32 cfg s i c with
    | none => rw [hw] at h; simp at h
    | some s1 =>
      rw [hw] at h
      simp only [Option.some_bind] at h
      obtain ⟨px1, h1⟩ := setPixelColor32_strip_only cfg s s1 i c hw
      obtain ⟨px, h2⟩ := ih (i + 1) s1 s' h
      exact ⟨px, by rw [h2, h1]⟩

theorem mode_blink_delay (cfg : Config) (s a : FX) (h : WS2812FX_mode_blink cfg s = some a) :
    a.mode_delay = delay_by_speed cfg s 100 1986 := by
  simp only [WS2812FX_mode_blink, Option.map_eq_some'] at h
  obtain ⟨s1, hs1, ha⟩ := h
  subst ha
  split_ifs at hs1
  · obtain ⟨px, hpx⟩ := static_loop_strip_only cfg _ _ _ _ hs1
    subst hpx
    rfl
  · simp only [Option.some.injEq] at hs1
    subst hs1
    rfl

theorem mode_multi_strobe_delay (cfg : Config) (s a : FX)
    (h : WS2812FX_mode_multi_strobe cfg s = some a) :
    a.mode_delay =
      if s.counter_mode_step < u32 (2 * (((s.speed / 10 : Nat) : Int) + 1)) then
        (if s.counter_mode_step % 2 = 0 then 20 else 50)
      else u32 (100 + (9 - ((s.speed % 10 : Nat) : Int)) * 125) := by
  simp only [WS2812FX_mode_multi_strobe, Option.map_eq_some', Option.bind_eq_some] at h
  obtain ⟨s3, ⟨s1, hs1, hs3⟩, ha⟩ := h
  obtain ⟨px, hpx⟩ := fill_loop_strip_only cfg 0 _ _ _ _ hs1
  subst ha
  subst hpx
  simp only at hs3 ⊢
  split_ifs at hs3 ⊢
  · simp only [Option.map_eq_some'] at hs3
    obtain ⟨s2, _, h2⟩ := hs3
    subst h2
    rfl
  · simp only [Option.some.injEq] at hs3
    subst hs3
    rfl
  · simp only [Option.some.injEq] at hs3
    subst hs3
    rfl

/-- C24, counterexample. With step counter 4 (the pause frame at speed 10),
`WS2812FX_mode_multi_strobe` requests 100 ms at speed 9 and 1225 ms at speed 10:
the higher speed asks for the longer delay.  Run from step counter 0, the pause
frame is the third frame at speed 9 (100 ms) and the fifth at speed 10
(1225 ms). -/
theorem multi_strobe_speed_counterexample :
    (WS2812FX_mode_multi_strobe refConfig
      { sampleState 2 with brightness := 255, speed := 9, counter_mode_step := 4 }).map
      (fun s => s.mode_delay) = some 100 ∧
    (WS2812FX_mode_multi_strobe refConfig
      { sampleState 2 with brightness := 255, speed := 10, counter_mode_step := 4 }).map
      (fun s => s.mode_delay) = some 1225 ∧
    ¬ (1225 ≤ 100) ∧
    (frames (WS2812FX_mode_multi_strobe refConfig) 3
      { sampleState 2 with brightness := 255, speed := 9 }).map
      (fun s => s.mode_delay) = some 100 ∧
    (frames (WS2812FX_mode_multi_strobe refConfig) 5
      { sampleState 2 with brightness := 255, speed := 10 }).map
      (fun s => s.mode_delay) = some 1225 := by
  decide

/-- C24, amended. For `SPEED_MAX <= 255` and speeds `v1 <= v2 <= SPEED_MAX`: the two
delay formulas of the effects, `base + range * (SPEED_MAX - speed) / SPEED_MAX`
and `base + range * (SPEED_MAX - speed) / _led_count`, give at `v2` at most what
they give at `v1` (for the bases up to 100 and ranges up to 5000 that occur);
`WS2812FX_mode_blink` requests at `v2` at most the delay it requests at `v1` from
the same state; and `WS2812FX_mode_multi_strobe` does so whenever the step
counter is within the strobe cycle of the lower speed,
`step <= 2 * (v1 / 10 + 1)`, where its pause frame requests
`100 + (9 - speed mod 10) * 125`. -/
theorem delay_antitone_in_speed (cfg : Config) (hsm : cfg.SPEED_MAX ≤ 255)
    (v₁ v₂ : Nat) (h12 : v₁ ≤ v₂) (h2 : v₂ ≤ cfg.SPEED_MAX) :
    (∀ (s : FX) (base range : Nat), base ≤ 100 → range ≤ 5000 →
      delay_by_speed cfg { s with speed := v₂ } base range
        ≤ delay_by_speed cfg { s with speed := v₁ } base range ∧
      delay_by_length cfg { s with speed := v₂ } base range
        ≤ delay_by_length cfg { s with speed := v₁ } base range) ∧
    (∀ s a b : FX, WS2812FX_mode_blink cfg { s with speed := v₁ } = some a →
      WS2812FX_mode_blink cfg { s with speed := v₂ } = some b →
      b.mode_delay ≤ a.mode_delay) ∧
    (∀ s a b : FX, s.counter_mode_step ≤ 2 * (v₁ / 10 + 1) →
      WS2812FX_mode_multi_strobe cfg { s with speed := v₁ } = some a →
      WS2812FX_mode_multi_strobe cfg { s with speed := v₂ } = some b →
      b.mode_delay ≤ a.mode_delay) := by
  refine ⟨?_, ?_, ?_⟩
  · intro s base range hb hr
    exact ⟨delay_by_speed_antitone cfg hsm s v₁ v₂ base range h12 h2 hb hr,
      delay_by_length_antitone cfg hsm s v₁ v₂ base range h12 h2 hb hr⟩
  · intro s a b ha hb
    rw [mode_blink_delay cfg _ a ha, mode_blink_delay cfg _ b hb]
    exact delay_by_speed_antitone cfg hsm s v₁ v₂ 100 1986 h12 h2 (by norm_num) (by norm_num)
  · intro s a b hstep ha hb
    rw [mode_multi_strobe_delay cfg _ a ha, mode_multi_strobe_delay cfg _ b hb]
    have e1 : u32 (2 * (((v₁ / 10 : Nat) : Int) + 1)) = 2 * (v₁ / 10 + 1) := by
      unfold u32; omega
    have e2 : u32 (2 * (((v₂ / 10 : Nat) : Int) + 1)) = 2 * (v₂ / 10 + 1) := by
      unfold u32; omega
    have p1 : u32 (100 + (9 - ((v₁ % 10 : Nat) : Int)) * 125) = 100 + (9 - v₁ % 10) * 125 := by
      unfold u32; omega
    have p2 : u32 (100 + (9 - ((v₂ % 10 : Nat) : Int)) * 125) = 100 + (9 - v₂ % 10) * 125 := by
      unfold u32; omega
    simp only [e1, e2, p1, p2]
    split_ifs <;> omega

/-- Witness for C24: speeds 100 and 200 of the reference range, for which blink
on a started two-pixel strip requests 1307 ms and 528 ms. -/
theorem delay_antitone_in_speed_witness :
    refConfig.SPEED_MAX ≤ 255 ∧ (100 : Nat) ≤ 200 ∧ 200 ≤ refConfig.SPEED_MAX ∧
    (WS2812FX_mode_blink refConfig { sampleState 2 with speed := 100 }).map
      (fun s => s.mode_delay) = some 1307 ∧
    (WS2812FX_mode_blink refConfig { sampleState 2 with speed := 200 }).map
      (fun s => s.mode_delay) = some 528 ∧
    delay_by_speed refConfig { sampleState 2 with speed := 200 } 100 1986
      ≤ delay_by_speed refConfig { sampleState 2 with speed := 100 } 100 1986 :=
  ⟨by decide, by decide, by decide, by decide, by decide,
   ((delay_antitone_in_speed refConfig (by decide) 100 200 (by decide) (by decide)).1
      (sampleState 2) 100 1986 (by decide) (by decide)).1⟩

/-! ## Twinkle -/

theorem frames_invariant (f : Mode) (Inv : FX → Prop)
    (hstep : ∀ s : FX, Inv s → ∃ s' : FX, f s = some s' ∧ Inv s') :
    ∀ (n : Nat) (s : FX), Inv s → ∃ s' : FX, frames f n s = some s' ∧ Inv s' := by
  intro n
  induction n with
  | zero =>
    intro s hs
    exact ⟨s, rfl, hs⟩
  | succ n ih =>
    intro s hs
    obtain ⟨s1, h1, hi1⟩ := hstep s hs
    obtain ⟨s', h', hi'⟩ := ih s1 hi1
    exact ⟨s', by simp only [frames, h1, Option.some_bind, h'], hi'⟩

theorem randomInRange_fields (s : FX) (lo hi : Nat) :
    (randomInRange s lo hi).2.strip = s.strip ∧
    (randomInRange s lo hi).2.led_count = s.led_count ∧
    (randomInRange s lo hi).2.inverted = s.inverted ∧
    (randomInRange s lo hi).2.brightness = s.brightness ∧
    (randomInRange s lo hi).2.mode_color = s.mode_color ∧
    (randomInRange s lo hi).2.counter_mode_step = s.counter_mode_step := by
  unfold randomInRange rand
  split_ifs <;> exact ⟨rfl, rfl, rfl, rfl, rfl, rfl⟩

theorem randomInRange_bounds (s : FX) (lo hi : Nat) (hlt : lo < hi) (hhi : hi ≤ 4294967296) :
    lo ≤ (randomInRange s lo hi).1 ∧ (randomInRange s lo hi).1 < hi := by
  have hm : (rand s).1 % (hi - lo) < hi - lo := Nat.mod_lt _ (by omega)
  simp only [randomInRange, if_pos hlt, u32]
  generalize (rand s).1 % (hi - lo) = q at hm
  omega

theorem randomInRange_eq (s : FX) (lo : Nat) : (randomInRange s lo lo).1 = lo := by
  simp [randomInRange]

theorem max_u32_one (x : Nat) (hx : x < 4294967296) : max_u32 1 x = max 1 x := by
  simp only [max_u32, u32]
  split_ifs <;> omega

theorem twinkle_seed_bounds (s : FX) (lc : Nat) (hlc : lc < 65536) :
    max 1 (lc / 5) ≤ (randomInRange s (max_u32 1 (lc / 5)) (max_u32 1 (lc / 2))).1 ∧
    (randomInRange s (max_u32 1 (lc / 5)) (max_u32 1 (lc / 2))).1 ≤ max 1 (lc / 2) := by
  rw [max_u32_one _ (by omega), max_u32_one _ (by omega)]
  rcases Nat.lt_or_ge (max 1 (lc / 5)) (max 1 (lc / 2)) with hlt | hge
  · obtain ⟨h1, h2⟩ := randomInRange_bounds s _ _ hlt (by omega)
    exact ⟨h1, Nat.le_of_lt h2⟩
  · have he : max 1 (lc / 5) = max 1 (lc / 2) := by omega
    rw [he, randomInRange_eq]
    exact ⟨le_refl _, le_refl _⟩

theorem twinkle_write (cfg : Config) (s1 : FX) (h1 : 1 ≤ s1.led_count)
    (hlc : s1.led_count < 65536) (hlen : s1.led_count ≤ s1.strip.length) :
    ∃ (s2 : FX) (idx : Nat) (p : RGB),
      WS2812_setPixelColor32 cfg (randomInRange s1 0 s1.led_count).2
        (u16 ((randomInRange s1 0 s1.led_count).1 : Int)) s1.mode_color = some s2 ∧
      idx < s1.led_count ∧ s2.strip = s1.strip.set idx p ∧
      s2.counter_mode_step = s1.counter_mode_step ∧ s2.led_count = s1.led_count ∧
      s2.inverted = s1.inverted := by
  obtain ⟨f1, f2, f3, f4, f5, f6⟩ := randomInRange_fields s1 0 s1.led_count
  obtain ⟨_, hr⟩ := randomInRange_bounds s1 0 s1.led_count (by omega) (by omega)
  have hu : u16 ((randomInRange s1 0 s1.led_count).1 : Int) = (randomInRange s1 0 s1.led_count).1 := by
    unfold u16; omega
  have hw := setPixelColor32_eq cfg (randomInRange s1 0 s1.led_count).2
    (randomInRange s1 0 s1.led_count).1 s1.mode_color (by rw [f2]; exact hlc)
    (by rw [f2, f1]; exact hlen) (by rw [f2]; exact hr)
  rw [hu, hw]
  refine ⟨_, spec_physical_index s1.inverted s1.led_count (randomInRange s1 0 s1.led_count).1,
    scaled_pixel cfg (randomInRange s1 0 s1.led_count).2 s1.mode_color,
    rfl, physical_index_lt _ _ _ hr, ?_, f6, f2, f3⟩
  show ((randomInRange s1 0 s1.led_count).2.strip.set _ _) = _
  rw [f1, f2, f3]

theorem twinkle_frame (cfg : Config) (s : FX) (h1 : 1 ≤ s.led_count)
    (hlc : s.led_count < 65536) (hlen : s.led_count ≤ s.strip.length)
    (hstep : s.counter_mode_step < 4294967296) :
    ∃ (s' : FX) (k idx : Nat) (p : RGB),
      WS2812FX_mode_twinkle cfg s = some s' ∧ idx < s.led_count ∧
      (s.counter_mode_step = 0 →
        max 1 (s.led_count / 5) ≤ k ∧ k ≤ max 1 (s.led_count / 2) ∧
        s'.strip = (strip_clear s.strip).set idx p) ∧
      (s.counter_mode_step ≠ 0 → k = s.counter_mode_step ∧ s'.strip = s.strip.set idx p) ∧
      1 ≤ k ∧ s'.counter_mode_step + 1 = k ∧
      s'.led_count = s.led_count ∧ s'.strip.length = s.strip.length := by
  by_cases h0 : s.counter_mode_step = 0
  · obtain ⟨g1, g2, g3, _, _, _⟩ := randomInRange_fields (WS2812_clear s)
      (max_u32 1 (s.led_count / 5)) (max_u32 1 (s.led_count / 2))
    obtain ⟨b1, b2⟩ := twinkle_seed_bounds (WS2812_clear s) s.led_count hlc
    have hclen : (strip_clear s.strip).length = s.strip.length := by
      simp [strip_clear]
    obtain ⟨s2, idx, p, hw, hidx, hstrip, hcs, hl2, _⟩ := twinkle_write cfg
      { (randomInRange (WS2812_clear s) (max_u32 1 (s.led_count / 5))
          (max_u32 1 (s.led_count / 2))).2 with
        counter_mode_step := (randomInRange (WS2812_clear s) (max_u32 1 (s.led_count / 5))
          (max_u32 1 (s.led_count / 2))).1 }
      (by show 1 ≤ (randomInRange _ _ _).2.led_count; rw [g2]; exact h1)
      (by show (randomInRange _ _ _).2.led_count < 65536; rw [g2]; exact hlc)
      (by
        show (randomInRange _ _ _).2.led_count ≤ (randomInRange _ _ _).2.strip.length
        rw [g2, g1]
        show s.led_count ≤ (strip_clear s.strip).length
        rw [hclen]; exact hlen)
    have hk1 : 1 ≤ (randomInRange (WS2812_clear s) (max_u32 1 (s.led_count / 5))
        (max_u32 1 (s.led_count / 2))).1 := by omega
    refine ⟨{ s2 with counter_mode_step := u32 ((s2.counter_mode_step : Int) - 1),
                      mode_delay := delay_by_speed cfg s2 50 1986 },
      (randomInRange (WS2812_clear s) (max_u32 1 (s.led_count / 5))
        (max_u32 1 (s.led_count / 2))).1, idx, p, ?_, ?_, ?_, ?_, hk1, ?_, ?_, ?_⟩
    · simp only [WS2812FX_mode_twinkle, if_pos h0]
      rw [hw]
      rfl
    · have : ({ (randomInRange (WS2812_clear s) (max_u32 1 (s.led_count / 5))
          (max_u32 1 (s.led_count / 2))).2 with
        counter_mode_step := (randomInRange (WS2812_clear s) (max_u32 1 (s.led_count / 5))
          (max_u32 1 (s.led_count / 2))).1 } : FX).led_count = s.led_count := g2
      rw [← this]; exact hidx
    · intro _
      refine ⟨b1, b2, ?_⟩
      show s2.strip = _
      rw [hstrip]
      show (randomInRange _ _ _).2.strip.set idx p = _
      rw [g1]
      rfl
    · intro hne
      exact absurd h0 hne
    · show u32 ((s2.counter_mode_step : Int) - 1) + 1 = _
      rw [hcs]
      show u32 (((randomInRange (WS2812_clear s) (max_u32 1 (s.led_count / 5))
        (max_u32 1 (s.led_count / 2))).1 : Int) - 1) + 1 = _
      have hb : max 1 (s.led_count / 2) < 4294967296 := by omega
      unfold u32
      omega
    · show s2.led_count = _
      rw [hl2]
      exact g2
    · show s2.strip.length = _
      rw [hstrip, List.length_set]
      show (randomInRange _ _ _).2.strip.length = _
      rw [g1]
      exact hclen
  · obtain ⟨s2, idx, p, hw, hidx, hstrip, hcs, hl2, _⟩ := twinkle_write cfg s h1 hlc hlen
    refine ⟨{ s2 with counter_mode_step := u32 ((s2.counter_mode_step : Int) - 1),
                      mode_delay := delay_by_speed cfg s2 50 1986 },
      s.counter_mode_step, idx, p, ?_, hidx, ?_, ?_, by omega, ?_, ?_, ?_⟩
    · simp only [WS2812FX_mode_twinkle, if_neg h0]
      rw [hw]
      rfl
    · intro he
      exact absurd he h0
    · intro _
      exact ⟨rfl, hstrip⟩
    · show u32 ((s2.counter_mode_step : Int) - 1) + 1 = _
      rw [hcs]
      unfold u32
      omega
    · exact hl2
    · show s2.strip.length = _
      rw [hstrip, List.length_set]

/-- C28. Twinkle, for a 16-bit strip length of at least 1 covered by the driver's
buffer and every `rand()` sequence: a frame entered with step counter 0 clears
the strip and reseeds the counter to a value `k` with
`max(1, n / 5) <= k <= max(1, n / 2)`; every frame succeeds, writes exactly one
pixel, at an index below the strip length, and leaves the step counter at
`k - 1` where `k >= 1` is the reseeded or the entry value, so the decrement never
wraps; and along every run of frames from step counter 0 the frames all succeed
and the step counter stays below `max(1, n / 2)`. -/
theorem twinkle_no_underflow (cfg : Config) :
    (∀ s : FX, 1 ≤ s.led_count → s.led_count < 65536 → s.led_count ≤ s.strip.length →
      s.counter_mode_step < 4294967296 →
      ∃ (s' : FX) (k idx : Nat) (p : RGB),
        WS2812FX_mode_twinkle cfg s = some s' ∧ idx < s.led_count ∧
        (s.counter_mode_step = 0 →
          max 1 (s.led_count / 5) ≤ k ∧ k ≤ max 1 (s.led_count / 2) ∧
          s'.strip = (strip_clear s.strip).set idx p) ∧
        (s.counter_mode_step ≠ 0 → k = s.counter_mode_step ∧ s'.strip = s.strip.set idx p) ∧
        1 ≤ k ∧ s'.counter_mode_step + 1 = k) ∧
    (∀ s : FX, 1 ≤ s.led_count → s.led_count < 65536 → s.led_count ≤ s.strip.length →
      s.counter_mode_step = 0 →
      ∀ n : Nat, ∃ s' : FX, frames (WS2812FX_mode_twinkle cfg) n s = some s' ∧
        s'.counter_mode_step < max 1 (s.led_count / 2)) := by
  constructor
  · intro s h1 hlc hlen hstep
    obtain ⟨s', k, idx, p, a1, a2, a3, a4, a5, a6, _, _⟩ :=
      twinkle_frame cfg s h1 hlc hlen hstep
    exact ⟨s', k, idx, p, a1, a2, a3, a4, a5, a6⟩
  · intro s h1 hlc hlen h0 n
    have hrun := frames_invariant (WS2812FX_mode_twinkle cfg)
      (fun x => x.led_count = s.led_count ∧ x.led_count ≤ x.strip.length ∧
        x.counter_mode_step < max 1 (s.led_count / 2))
      (by
        intro x ⟨e1, e2, e3⟩
        obtain ⟨x', k, idx, p, a1, a2, a3, a4, a5, a6, a7, a8⟩ :=
          twinkle_frame cfg x (by omega) (by omega) e2 (by omega)
        refine ⟨x', a1, a7.trans e1, by rw [a7, a8]; exact e2, ?_⟩
        by_cases hx : x.counter_mode_step = 0
        · have := (a3 hx).2.1
          rw [e1] at this
          omega
        · have := (a4 hx).1
          omega)
      n s ⟨rfl, hlen, by omega⟩
    obtain ⟨s', hs', _, _, hb⟩ := hrun
    exact ⟨s', hs', hb⟩

/-- Witness for C28: the first twinkle frame on a ten-pixel strip reseeds the
counter to 3, lights pixel 2 and leaves the counter at 2. -/
theorem twinkle_no_underflow_witness :
    (1 : Nat) ≤ ({ sampleState 10 with brightness := 255 } : FX).led_count ∧
    (WS2812FX_mode_twinkle refConfig { sampleState 10 with brightness := 255 }).map
      (fun s => (s.counter_mode_step, s.strip.map (fun p => p.r)))
      = some (2, [0, 0, 255, 0, 0, 0, 0, 0, 0, 0]) ∧
    ∃ s' : FX, frames (WS2812FX_mode_twinkle refConfig) 5
        { sampleState 10 with brightness := 255 } = some s' ∧
      s'.counter_mode_step < max 1 (10 / 2) := by
  refine ⟨by decide, by decide, ?_⟩
  exact (twinkle_no_underflow refConfig).2 { sampleState 10 with brightness := 255 }
    (by decide) (by decide) (by decide) rfl 5

/-! ## Wipe effects: writes and invariants -/

theorem frames_indexed (f : Mode) (Inv : Nat → FX → Prop) (K : Nat)
    (hstep : ∀ (k : Nat) (s : FX), k < K → Inv k s → ∃ s' : FX, f s = some s' ∧ Inv (k + 1) s') :
    ∀ (n k : Nat) (s : FX), k + n ≤ K → Inv k s →
      ∃ s' : FX, frames f n s = some s' ∧ Inv (k + n) s' := by
  intro n
  induction n with
  | zero =>
    intro k s _ hs
    exact ⟨s, rfl, hs⟩
  | succ n ih =>
    intro k s hk hs
    obtain ⟨s1, h1, hi1⟩ := hstep k s (by omega) hs
    obtain ⟨s', h', hi'⟩ := ih (k + 1) s1 (by omega) hi1
    refine ⟨s', by simp only [frames, h1, Option.some_bind, h'], ?_⟩
    have e : k + (n + 1) = k + 1 + n := by omega
    rw [e]
    exact hi'

theorem frames_add (f : Mode) :
    ∀ (a b : Nat) (s : FX), frames f (a + b) s = (frames f a s).bind (frames f b) := by
  intro a
  induction a with
  | zero =>
    intro b s
    simp [frames]
  | succ a ih =>
    intro b s
    have e : a + 1 + b = (a + b) + 1 := by omega
    rw [e]
    simp only [frames]
    cases hf : f s with
    | none => simp
    | some s1 => simp only [Option.some_bind]; exact ih b s1

theorem frames_periodic (f : Mode) (Inv Q : FX → Prop) (T : Nat) (hT : 0 < T)
    (hcycle : ∀ x : FX, Inv x → ∃ x' : FX, frames f T x = some x' ∧ Inv x')
    (hpart : ∀ (x : FX) (m : Nat), Inv x → m ≤ T → ∃ x' : FX, frames f m x = some x' ∧ Q x') :
    ∀ (m : Nat) (x : FX), Inv x → ∃ x' : FX, frames f m x = some x' ∧ Q x' := by
  intro m
  induction m using Nat.strong_induction_on with
  | _ m ih =>
    intro x hx
    rcases Nat.lt_or_ge T m with hlt | hge
    · obtain ⟨x1, h1, hi1⟩ := hcycle x hx
      obtain ⟨x', h', hq⟩ := ih (m - T) (by omega) x1 hi1
      refine ⟨x', ?_, hq⟩
      have e : m = T + (m - T) := by omega
      rw [e, frames_add, h1, Option.some_bind]
      exact h'
    · exact hpart x m hx hge

theorem scaled_pixel_congr (cfg : Config) (x y : FX) (c : Nat) (h : x.brightness = y.brightness) :
    scaled_pixel cfg x c = scaled_pixel cfg y c := by
  simp only [scaled_pixel, h]

theorem scaled_pixel_zero (cfg : Config) (hmin : cfg.BRIGHTNESS_MIN = 0) (x : FX) :
    scaled_pixel cfg x 0 = RGB.mk 0 0 0 := by
  simp [scaled_pixel, map, hmin, u8]

theorem single_write (cfg : Config) (s0 x : FX) (L L' : Nat → Prop) (step : Nat)
    (hlc : s0.led_count < 65536) (hx : wipe_state cfg s0 L step x)
    (a : Int) (A : Nat) (ha : a = (A : Int)) (hA : A < s0.led_count)
    (c : Nat) (p : RGB) (hp : scaled_pixel cfg s0 c = p)
    (hlit : ∀ j : Nat, j < s0.led_count → L' j →
      (j = A ∧ p = scaled_pixel cfg s0 s0.color) ∨ (j ≠ A ∧ L j))
    (hoff : ∀ j : Nat, j < s0.led_count → ¬ L' j →
      (j = A ∧ p = RGB.mk 0 0 0) ∨ (j ≠ A ∧ ¬ L j)) :
    ∃ x1 : FX, WS2812_setPixelColor32 cfg x (u16 a) c = some x1 ∧
      wipe_state cfg s0 L' step x1 := by
  obtain ⟨e1, e2, e3, e4, e5, e6, e7, e8⟩ := hx
  have hu : u16 a = A := by rw [ha]; unfold u16; omega
  have hw := setPixelColor32_eq cfg x A c (by rw [e1]; exact hlc) (by rw [e1, e2])
    (by rw [e1]; exact hA)
  have hidx : spec_physical_index x.inverted x.led_count A = A := by
    rw [e3]; rfl
  rw [hidx, scaled_pixel_congr cfg x s0 c e5, hp] at hw
  refine ⟨{ x with strip := x.strip.set A p }, by rw [hu]; exact hw, e1, ?_, e3, e4, e5, e6, ?_, ?_⟩
  · show (x.strip.set A p).length = _
    rw [List.length_set]; exact e2
  · intro j hj hl
    show (x.strip.set A p)[j]? = _
    rcases hlit j hj hl with ⟨h1, h2⟩ | ⟨h1, h2⟩
    · rw [h1, ← h2]
      exact List.getElem?_set_self (by rw [e2]; exact hA)
    · rw [List.getElem?_set_ne (Ne.symm h1)]
      exact e7 j hj h2
  · intro j hj hl
    show (x.strip.set A p)[j]? = _
    rcases hoff j hj hl with ⟨h1, h2⟩ | ⟨h1, h2⟩
    · rw [h1, ← h2]
      exact List.getElem?_set_self (by rw [e2]; exact hA)
    · rw [List.getElem?_set_ne (Ne.symm h1)]
      exact e8 j hj h2

theorem single_on (cfg : Config) (s0 x : FX) (L L' : Nat → Prop) (step : Nat)
    (hlc : s0.led_count < 65536) (hx : wipe_state cfg s0 L step x)
    (a : Int) (A : Nat) (ha : a = (A : Int)) (hA : A < s0.led_count)
    (hnew : ∀ j : Nat, j < s0.led_count → (L' j ↔ (j = A ∨ L j))) :
    ∃ x1 : FX, WS2812_setPixelColor32 cfg x (u16 a) x.color = some x1 ∧
      wipe_state cfg s0 L' step x1 := by
  have hc : x.color = s0.color := hx.2.2.2.1
  rw [hc]
  apply single_write cfg s0 x L L' step hlc hx a A ha hA s0.color _ rfl
  · intro j hj hl
    by_cases hjA : j = A
    · exact Or.inl ⟨hjA, rfl⟩
    · exact Or.inr ⟨hjA, ((hnew j hj).1 hl).resolve_left hjA⟩
  · intro j hj hl
    have hn : ¬ (j = A ∨ L j) := fun h => hl ((hnew j hj).2 h)
    exact Or.inr ⟨fun h => hn (Or.inl h), fun h => hn (Or.inr h)⟩

theorem single_off (cfg : Config) (hmin : cfg.BRIGHTNESS_MIN = 0) (s0 x : FX)
    (L L' : Nat → Prop) (step : Nat)
    (hlc : s0.led_count < 65536) (hx : wipe_state cfg s0 L step x)
    (a : Int) (A : Nat) (ha : a = (A : Int)) (hA : A < s0.led_count)
    (hnew : ∀ j : Nat, j < s0.led_count → (L' j ↔ (j ≠ A ∧ L j))) :
    ∃ x1 : FX, WS2812_setPixelColor32 cfg x (u16 a) 0 = some x1 ∧
      wipe_state cfg s0 L' step x1 := by
  apply single_write cfg s0 x L L' step hlc hx a A ha hA 0 _ (scaled_pixel_zero cfg hmin s0)
  · intro j hj hl
    exact Or.inr ((hnew j hj).1 hl)
  · intro j hj hl
    by_cases hjA : j = A
    · exact Or.inl ⟨hjA, rfl⟩
    · exact Or.inr ⟨hjA, fun h => hl ((hnew j hj).2 ⟨hjA, h⟩)⟩

theorem pair_on (cfg : Config) (s0 x : FX) (L L' : Nat → Prop) (step : Nat)
    (hlc : s0.led_count < 65536) (hx : wipe_state cfg s0 L step x)
    (a b : Int) (A B : Nat) (ha : a = (A : Int)) (hb : b = (B : Int))
    (hA : A < s0.led_count) (hB : B < s0.led_count)
    (hnew : ∀ j : Nat, j < s0.led_count → (L' j ↔ (j = A ∨ j = B ∨ L j))) :
    ∃ x1 : FX, set_pair cfg x a b x.color = some x1 ∧ wipe_state cfg s0 L' step x1 := by
  obtain ⟨x1, h1, w1⟩ := single_on cfg s0 x L (fun j => j = A ∨ L j) step hlc hx a A ha hA
    (fun _ _ => Iff.rfl)
  have hc : x1.color = x.color := w1.2.2.2.1.trans hx.2.2.2.1.symm
  obtain ⟨x2, h2, w2⟩ := single_on cfg s0 x1 (fun j => j = A ∨ L j) L' step hlc w1 b B hb hB
    (fun j hj => by rw [hnew j hj]; tauto)
  exact ⟨x2, by simp only [set_pair, h1, Option.some_bind]; rw [← hc]; exact h2, w2⟩

theorem pair_off (cfg : Config) (hmin : cfg.BRIGHTNESS_MIN = 0) (s0 x : FX)
    (L L' : Nat → Prop) (step : Nat)
    (hlc : s0.led_count < 65536) (hx : wipe_state cfg s0 L step x)
    (a b : Int) (A B : Nat) (ha : a = (A : Int)) (hb : b = (B : Int))
    (hA : A < s0.led_count) (hB : B < s0.led_count)
    (hnew : ∀ j : Nat, j < s0.led_count → (L' j ↔ (j ≠ A ∧ j ≠ B ∧ L j))) :
    ∃ x1 : FX, set_pair cfg x a b 0 = some x1 ∧ wipe_state cfg s0 L' step x1 := by
  obtain ⟨x1, h1, w1⟩ := single_off cfg hmin s0 x L (fun j => j ≠ A ∧ L j) step hlc hx a A ha hA
    (fun _ _ => Iff.rfl)
  obtain ⟨x2, h2, w2⟩ := single_off cfg hmin s0 x1 (fun j => j ≠ A ∧ L j) L' step hlc w1 b B
    hb hB (fun j hj => by rw [hnew j hj]; tauto)
  exact ⟨x2, by simp only [set_pair, h1, Option.some_bind]; exact h2, w2⟩

theorem wipe_state_step (cfg : Config) (s0 x : FX) (L : Nat → Prop) (st st' d : Nat)
    (h : wipe_state cfg s0 L st x) :
    wipe_state cfg s0 L st' { x with counter_mode_step := st', mode_delay := d } := by
  obtain ⟨e1, e2, e3, e4, e5, _, e7, e8⟩ := h
  exact ⟨e1, e2, e3, e4, e5, rfl, e7, e8⟩

theorem wipe_state_start (cfg : Config) (s : FX) (L : Nat → Prop)
    (hlen : s.strip.length = s.led_count) (hinv : s.inverted = false)
    (hstep : s.counter_mode_step = 0)
    (hoff : ∀ j : Nat, j < s.led_count → s.strip[j]? = some (RGB.mk 0 0 0))
    (hL : ∀ j : Nat, j < s.led_count → ¬ L j) :
    wipe_state cfg s L 0 s :=
  ⟨rfl, hlen, hinv, rfl, rfl, hstep, fun j hj hl => absurd hl (hL j hj), fun j hj _ => hoff j hj⟩

theorem next_step_mod (k T : Nat) (hk : k < T) :
    (k + 1) % T = if k + 1 = T then 0 else k + 1 := by
  by_cases h : k + 1 = T
  · rw [if_pos h, h, Nat.mod_self]
  · rw [if_neg h, Nat.mod_eq_of_lt (by omega)]

/-! ## Colour wipe -/

theorem color_wipe_step (cfg : Config) (hmin : cfg.BRIGHTNESS_MIN = 0) (s0 : FX)
    (hlc : s0.led_count < 65536) (k : Nat) (x : FX) (hk : k < 2 * s0.led_count)
    (hx : wipe_state cfg s0 (wipe_lit s0.led_count k) (k % (2 * s0.led_count)) x) :
    ∃ x' : FX, WS2812FX_mode_color_wipe cfg x = some x' ∧
      wipe_state cfg s0 (wipe_lit s0.led_count (k + 1)) ((k + 1) % (2 * s0.led_count)) x' := by
  have hl : x.led_count = s0.led_count := hx.1
  have hs : x.counter_mode_step = k := by rw [hx.2.2.2.2.2.1]; exact Nat.mod_eq_of_lt hk
  have hu : u32 ((s0.led_count : Int) * 2) = 2 * s0.led_count := by unfold u32; omega
  have hk1 : (k + 1) % 4294967296 = k + 1 := by omega
  by_cases hlt : k < s0.led_count
  · obtain ⟨x1, h1, w1⟩ := single_on cfg s0 x (wipe_lit s0.led_count k)
      (wipe_lit s0.led_count (k + 1)) (k % (2 * s0.led_count)) hlc hx (k : Int) k rfl hlt
      (fun j _ => by
        simp only [wipe_lit, if_pos (show k + 1 ≤ s0.led_count by omega),
          if_pos (show k ≤ s0.led_count by omega)]
        omega)
    have hl1 : x1.led_count = s0.led_count := w1.1
    have hs1 : x1.counter_mode_step = k := by rw [w1.2.2.2.2.2.1]; exact Nat.mod_eq_of_lt hk
    refine ⟨_, by
      simp only [WS2812FX_mode_color_wipe, hs, hl, if_pos hlt]
      rw [h1]; rfl, ?_⟩
    have e : ((x1.counter_mode_step + 1) % 4294967296) % u32 ((x1.led_count : Int) * 2)
        = (k + 1) % (2 * s0.led_count) := by rw [hs1, hl1, hu, hk1]
    beta_reduce
    rw [e]
    exact wipe_state_step cfg s0 x1 _ _ _ _ w1
  · obtain ⟨x1, h1, w1⟩ := single_off cfg hmin s0 x (wipe_lit s0.led_count k)
      (wipe_lit s0.led_count (k + 1)) (k % (2 * s0.led_count)) hlc hx
      ((k : Int) - (s0.led_count : Int)) (k - s0.led_count) (by omega) (by omega)
      (fun j hj => by
        simp only [wipe_lit, if_neg (show ¬ k + 1 ≤ s0.led_count by omega)]
        split_ifs <;> omega)
    have hl1 : x1.led_count = s0.led_count := w1.1
    have hs1 : x1.counter_mode_step = k := by rw [w1.2.2.2.2.2.1]; exact Nat.mod_eq_of_lt hk
    refine ⟨_, by
      simp only [WS2812FX_mode_color_wipe, hs, hl, if_neg hlt]
      rw [h1]; rfl, ?_⟩
    have e : ((x1.counter_mode_step + 1) % 4294967296) % u32 ((x1.led_count : Int) * 2)
        = (k + 1) % (2 * s0.led_count) := by rw [hs1, hl1, hu, hk1]
    beta_reduce
    rw [e]
    exact wipe_state_step cfg s0 x1 _ _ _ _ w1

theorem color_wipe_run (cfg : Config) (hmin : cfg.BRIGHTNESS_MIN = 0) (s0 : FX)
    (hlc : s0.led_count < 65536) (m : Nat) (x : FX) (hm : m ≤ 2 * s0.led_count)
    (hx : wipe_state cfg s0 (wipe_lit s0.led_count 0) 0 x) :
    ∃ x' : FX, frames (WS2812FX_mode_color_wipe cfg) m x = some x' ∧
      wipe_state cfg s0 (wipe_lit s0.led_count m) (m % (2 * s0.led_count)) x' := by
  have h := frames_indexed (WS2812FX_mode_color_wipe cfg)
    (fun k y => wipe_state cfg s0 (wipe_lit s0.led_count k) (k % (2 * s0.led_count)) y)
    (2 * s0.led_count) (fun k y hk hy => color_wipe_step cfg hmin s0 hlc k y hk hy)
    m 0 x (by omega) (by simpa using hx)
  simpa using h

theorem color_wipe_delay (cfg : Config) (x a : FX) (hsp : x.speed = cfg.SPEED_MAX)
    (h : WS2812FX_mode_color_wipe cfg x = some a) : a.mode_delay = 5 := by
  simp only [WS2812FX_mode_color_wipe] at h
  have key : ∀ (i c : Nat) (y : FX), WS2812_setPixelColor32 cfg x i c = some y →
      delay_by_length cfg y 5 50 = 5 := by
    intro i c y hy
    obtain ⟨px, hy'⟩ := setPixelColor32_strip_only cfg x y i c hy
    have e : y.speed = cfg.SPEED_MAX := by rw [hy']; exact hsp
    simp [delay_by_length, e, u32]
  split_ifs at h with hc
  · cases hw : WS2812_setPixelColor32 cfg x (u16 (x.counter_mode_step : Int)) x.color with
    | none => rw [hw] at h; simp at h
    | some y =>
      rw [hw] at h
      simp only [Option.map_some', Option.some.injEq] at h
      rw [← h]
      exact key _ _ y hw
  · cases hw : WS2812_setPixelColor32 cfg x
        (u16 ((x.counter_mode_step : Int) - (x.led_count : Int))) 0 with
    | none => rw [hw] at h; simp at h
    | some y =>
      rw [hw] at h
      simp only [Option.map_some', Option.some.injEq] at h
      rw [← h]
      exact key _ _ y hw

/-- C21: on a strip of n pixels (1 ≤ n, with n a `uint16_t` value, brightness
range from 0) that starts with step counter 0, all pixels off and inversion off,
n colour wipe frames leave every pixel at the brightness-scaled base colour; 2n
frames leave every pixel 0 and the step counter 0; a run of any number of frames
completes (a write outside 0..n-1 would abort it) with the step counter below
2n; and at speed = SPEED_MAX a frame requests a delay of 5 ms. -/
theorem color_wipe_cycle (cfg : Config) (hmin : cfg.BRIGHTNESS_MIN = 0) (s : FX)
    (hn : 1 ≤ s.led_count) (hlc : s.led_count < 65536)
    (hlen : s.strip.length = s.led_count) (hinv : s.inverted = false)
    (hstep : s.counter_mode_step = 0)
    (hoff : ∀ j : Nat, j < s.led_count → s.strip[j]? = some (RGB.mk 0 0 0)) :
    (∃ s' : FX, frames (WS2812FX_mode_color_wipe cfg) s.led_count s = some s' ∧
      ∀ j : Nat, j < s.led_count → s'.strip[j]? = some (scaled_pixel cfg s s.color)) ∧
    (∃ s' : FX, frames (WS2812FX_mode_color_wipe cfg) (2 * s.led_count) s = some s' ∧
      (∀ j : Nat, j < s.led_count → s'.strip[j]? = some (RGB.mk 0 0 0)) ∧
      s'.counter_mode_step = 0) ∧
    (∀ m : Nat, ∃ s' : FX, frames (WS2812FX_mode_color_wipe cfg) m s = some s' ∧
      s'.counter_mode_step < 2 * s.led_count ∧ s'.strip.length = s.led_count) ∧
    (∀ x a : FX, x.speed = cfg.SPEED_MAX → WS2812FX_mode_color_wipe cfg x = some a →
      a.mode_delay = 5) := by
  have h0 : wipe_state cfg s (wipe_lit s.led_count 0) 0 s :=
    wipe_state_start cfg s _ hlen hinv hstep hoff (fun j _ => by simp [wipe_lit])
  refine ⟨?_, ?_, ?_, fun x a hx ha => color_wipe_delay cfg x a hx ha⟩
  · obtain ⟨s', h', w'⟩ := color_wipe_run cfg hmin s hlc s.led_count s (by omega) h0
    refine ⟨s', h', fun j hj => w'.2.2.2.2.2.2.1 j hj ?_⟩
    simp only [wipe_lit, if_pos (le_refl _)]
    exact hj
  · obtain ⟨s', h', w'⟩ := color_wipe_run cfg hmin s hlc (2 * s.led_count) s (le_refl _) h0
    refine ⟨s', h', fun j hj => w'.2.2.2.2.2.2.2 j hj ?_, ?_⟩
    · simp only [wipe_lit, if_neg (show ¬ 2 * s.led_count ≤ s.led_count by omega)]
      omega
    · rw [w'.2.2.2.2.2.1, Nat.mod_self]
  · refine fun m => frames_periodic (WS2812FX_mode_color_wipe cfg)
      (wipe_state cfg s (wipe_lit s.led_count 0) 0)
      (fun x' => x'.counter_mode_step < 2 * s.led_count ∧ x'.strip.length = s.led_count)
      (2 * s.led_count) (by omega) ?_ ?_ m s h0
    · intro x hx
      obtain ⟨x1, h1, w1⟩ := color_wipe_run cfg hmin s hlc (2 * s.led_count) x (le_refl _) hx
      refine ⟨x1, h1, ?_⟩
      obtain ⟨e1, e2, e3, e4, e5, e6, e7, e8⟩ := w1
      refine ⟨e1, e2, e3, e4, e5, by rw [e6, Nat.mod_self], ?_, ?_⟩
      · intro j hj hl
        simp [wipe_lit] at hl
      · intro j hj _
        apply e8 j hj
        simp only [wipe_lit, if_neg (show ¬ 2 * s.led_count ≤ s.led_count by omega)]
        omega
    · intro x m hx hge
      obtain ⟨x', h', w'⟩ := color_wipe_run cfg hmin s hlc m x hge hx
      refine ⟨x', h', ?_, w'.2.1⟩
      rw [w'.2.2.2.2.2.1]
      exact Nat.mod_lt _ (by omega)

theorem color_wipe_cycle_witness :
    (∃ s' : FX, frames (WS2812FX_mode_color_wipe refConfig) 3
        { sampleState 3 with brightness := 200 } = some s' ∧
      ∀ j : Nat, j < 3 → s'.strip[j]? = some (RGB.mk 200 0 0)) ∧
    (∃ s' : FX, frames (WS2812FX_mode_color_wipe refConfig) (2 * 3)
        { sampleState 3 with brightness := 200 } = some s' ∧
      (∀ j : Nat, j < 3 → s'.strip[j]? = some (RGB.mk 0 0 0)) ∧ s'.counter_mode_step = 0) :=
  ⟨(color_wipe_cycle refConfig rfl { sampleState 3 with brightness := 200 } (by decide)
      (by decide) rfl rfl rfl (by decide)).1,
   (color_wipe_cycle refConfig rfl { sampleState 3 with brightness := 200 } (by decide)
      (by decide) rfl rfl rfl (by decide)).2.1⟩

/-! ## Dual colour wipes -/

theorem lit_edges_start (n j : Nat) (hj : j < n) : ¬ lit_edges n 0 j := by
  unfold lit_edges; omega

theorem lit_middle_start (n j : Nat) : ¬ lit_middle n 0 j := by
  unfold lit_middle; omega

theorem lit_edges_full (n j : Nat) : lit_edges n ((n + 1) / 2) j := by
  unfold lit_edges; omega

theorem lit_middle_full (n j : Nat) (hj : j < n) : lit_middle n ((n + 1) / 2) j := by
  unfold lit_middle; omega

theorem dark_middle_end (n j : Nat) (hj : j < n) : ¬ dark_middle n (n + n % 2) j := by
  unfold dark_middle; omega

theorem dark_edges_end (n j : Nat) : ¬ dark_edges n (n + n % 2) j := by
  unfold dark_edges; omega

theorem lit_edges_next (D : Nat → Nat → Nat → Prop) (n k j : Nat) (hk : k < (n + 1) / 2) :
    phase_lit lit_edges D n (k + 1) j ↔ (j = k ∨ j = n - 1 - k ∨ phase_lit lit_edges D n k j) := by
  simp only [phase_lit, if_pos (show k + 1 ≤ (n + 1) / 2 by omega),
    if_pos (show k ≤ (n + 1) / 2 by omega), lit_edges]
  omega

theorem lit_middle_next_odd (D : Nat → Nat → Nat → Prop) (n k j : Nat) (hodd : n % 2 = 1)
    (hk : k < (n + 1) / 2) :
    phase_lit lit_middle D n (k + 1) j ↔
      (j = n / 2 + k ∨ j = n / 2 - k ∨ phase_lit lit_middle D n k j) := by
  simp only [phase_lit, if_pos (show k + 1 ≤ (n + 1) / 2 by omega),
    if_pos (show k ≤ (n + 1) / 2 by omega), lit_middle]
  omega

theorem lit_middle_next_even (D : Nat → Nat → Nat → Prop) (n k j : Nat) (hev : n % 2 = 0)
    (hk : k < (n + 1) / 2) :
    phase_lit lit_middle D n (k + 1) j ↔
      (j = n / 2 - k - 1 ∨ j = n / 2 + k ∨ phase_lit lit_middle D n k j) := by
  simp only [phase_lit, if_pos (show k + 1 ≤ (n + 1) / 2 by omega),
    if_pos (show k ≤ (n + 1) / 2 by omega), lit_middle]
  omega

theorem dark_middle_next_odd (P : Nat → Nat → Nat → Prop) (n k j : Nat) (hodd : n % 2 = 1)
    (hfull : P n ((n + 1) / 2) j) (hk1 : (n + 1) / 2 ≤ k) (hk2 : k < n + 1) :
    phase_lit P dark_middle n (k + 1) j ↔
      (j ≠ k - 1 ∧ j ≠ n - k ∧ phase_lit P dark_middle n k j) := by
  simp only [phase_lit, if_neg (show ¬ k + 1 ≤ (n + 1) / 2 by omega)]
  by_cases hkc : k ≤ (n + 1) / 2
  · have e : k = (n + 1) / 2 := by omega
    rw [if_pos hkc, e]
    simp only [hfull, and_true, dark_middle]
    omega
  · rw [if_neg hkc]
    simp only [dark_middle]
    omega

theorem dark_middle_next_even (P : Nat → Nat → Nat → Prop) (n k j : Nat) (hev : n % 2 = 0)
    (hfull : P n ((n + 1) / 2) j) (hk1 : (n + 1) / 2 ≤ k) (hk2 : k < n) :
    phase_lit P dark_middle n (k + 1) j ↔
      (j ≠ k ∧ j ≠ n - 1 - k ∧ phase_lit P dark_middle n k j) := by
  simp only [phase_lit, if_neg (show ¬ k + 1 ≤ (n + 1) / 2 by omega)]
  by_cases hkc : k ≤ (n + 1) / 2
  · have e : k = (n + 1) / 2 := by omega
    rw [if_pos hkc, e]
    simp only [hfull, and_true, dark_middle]
    omega
  · rw [if_neg hkc]
    simp only [dark_middle]
    omega

theorem dark_edges_next_odd (P : Nat → Nat → Nat → Prop) (n k j : Nat) (hodd : n % 2 = 1)
    (hfull : P n ((n + 1) / 2) j) (hk1 : (n + 1) / 2 ≤ k) (hk2 : k < n + 1) (hj : j < n) :
    phase_lit P dark_edges n (k + 1) j ↔
      (j ≠ k - n / 2 - 1 ∧ j ≠ n - (k - n / 2) ∧ phase_lit P dark_edges n k j) := by
  simp only [phase_lit, if_neg (show ¬ k + 1 ≤ (n + 1) / 2 by omega)]
  by_cases hkc : k ≤ (n + 1) / 2
  · have e : k = (n + 1) / 2 := by omega
    rw [if_pos hkc, e]
    simp only [hfull, and_true, dark_edges]
    omega
  · rw [if_neg hkc]
    simp only [dark_edges]
    omega

theorem dark_edges_next_even (P : Nat → Nat → Nat → Prop) (n k j : Nat) (hev : n % 2 = 0)
    (hfull : P n ((n + 1) / 2) j) (hk1 : (n + 1) / 2 ≤ k) (hk2 : k < n) (hj : j < n) :
    phase_lit P dark_edges n (k + 1) j ↔
      (j ≠ k - n / 2 ∧ j ≠ n - (k - n / 2) - 1 ∧ phase_lit P dark_edges n k j) := by
  simp only [phase_lit, if_neg (show ¬ k + 1 ≤ (n + 1) / 2 by omega)]
  by_cases hkc : k ≤ (n + 1) / 2
  · have e : k = (n + 1) / 2 := by omega
    rw [if_pos hkc, e]
    simp only [hfull, and_true, dark_edges]
    omega
  · rw [if_neg hkc]
    simp only [dark_edges]
    omega

theorem dual_finish_state (cfg : Config) (s0 : FX) (L : Nat → Prop) (k : Nat) (x : FX)
    (hlc : s0.led_count < 65536) (hk : k < s0.led_count + s0.led_count % 2)
    (hx : wipe_state cfg s0 L k x) :
    wipe_state cfg s0 L ((k + 1) % (s0.led_count + s0.led_count % 2))
      (dual_wipe_finish cfg x) := by
  obtain ⟨e1, e2, e3, e4, e5, e6, e7, e8⟩ := hx
  refine ⟨e1, e2, e3, e4, e5, ?_, e7, e8⟩
  simp only [dual_wipe_finish, e1, e6]
  rw [next_step_mod k _ hk]
  split_ifs <;> omega

theorem in_out_step (cfg : Config) (hmin : cfg.BRIGHTNESS_MIN = 0) (s0 : FX)
    (hlc : s0.led_count < 65536) (k : Nat) (x : FX)
    (hk : k < s0.led_count + s0.led_count % 2)
    (hx : wipe_state cfg s0 (phase_lit lit_edges dark_middle s0.led_count k)
      (k % (s0.led_count + s0.led_count % 2)) x) :
    ∃ x' : FX, WS2812FX_mode_dual_color_wipe_in_out cfg x = some x' ∧
      wipe_state cfg s0 (phase_lit lit_edges dark_middle s0.led_count (k + 1))
        ((k + 1) % (s0.led_count + s0.led_count % 2)) x' := by
  have hl : x.led_count = s0.led_count := hx.1
  have hs : x.counter_mode_step = k := by rw [hx.2.2.2.2.2.1]; exact Nat.mod_eq_of_lt hk
  rw [Nat.mod_eq_of_lt hk] at hx
  simp only [WS2812FX_mode_dual_color_wipe_in_out, hs, hl]
  by_cases hph : k < (s0.led_count + 1) / 2
  · obtain ⟨x1, h1, w1⟩ := pair_on cfg s0 x _
      (phase_lit lit_edges dark_middle s0.led_count (k + 1)) k hlc hx
      (k : Int) (i32 ((s0.led_count : Int) - (k : Int) - 1)) k (s0.led_count - 1 - k)
      rfl (by unfold i32; omega) (by omega) (by omega)
      (fun j _ => lit_edges_next dark_middle s0.led_count k j hph)
    refine ⟨dual_wipe_finish cfg x1, ?_, dual_finish_state cfg s0 _ k x1 hlc hk w1⟩
    have hc : k < u32 (if s0.led_count % 2 ≠ 0 then ((s0.led_count / 2 : Nat) : Int) + 1
        else ((s0.led_count / 2 : Nat) : Int)) := by
      split_ifs <;> (unfold u32; omega)
    rw [if_pos hc, h1]
    rfl
  · have hc : ¬ k < u32 (if s0.led_count % 2 ≠ 0 then ((s0.led_count / 2 : Nat) : Int) + 1
        else ((s0.led_count / 2 : Nat) : Int)) := by
      split_ifs <;> (unfold u32; omega)
    by_cases hodd : s0.led_count % 2 ≠ 0
    · obtain ⟨x1, h1, w1⟩ := pair_off cfg hmin s0 x _
        (phase_lit lit_edges dark_middle s0.led_count (k + 1)) k hlc hx
        ((k : Int) - 1) (i32 ((s0.led_count : Int) - (k : Int) - 1) + 1) (k - 1)
        (s0.led_count - k)
        (by omega) (by unfold i32; omega) (by omega) (by omega)
        (fun j _ => dark_middle_next_odd lit_edges s0.led_count k j (by omega)
          (lit_edges_full _ _) (by omega) (by omega))
      refine ⟨dual_wipe_finish cfg x1, ?_, dual_finish_state cfg s0 _ k x1 hlc hk w1⟩
      rw [if_neg hc, if_pos hodd, h1]
      rfl
    · obtain ⟨x1, h1, w1⟩ := pair_off cfg hmin s0 x _
        (phase_lit lit_edges dark_middle s0.led_count (k + 1)) k hlc hx
        (k : Int) (i32 ((s0.led_count : Int) - (k : Int) - 1)) k (s0.led_count - 1 - k)
        rfl (by unfold i32; omega) (by omega) (by omega)
        (fun j _ => dark_middle_next_even lit_edges s0.led_count k j (by omega)
          (lit_edges_full _ _) (by omega) (by omega))
      refine ⟨dual_wipe_finish cfg x1, ?_, dual_finish_state cfg s0 _ k x1 hlc hk w1⟩
      rw [if_neg hc, if_neg hodd, h1]
      rfl

theorem in_in_step (cfg : Config) (hmin : cfg.BRIGHTNESS_MIN = 0) (s0 : FX)
    (hlc : s0.led_count < 65536) (k : Nat) (x : FX)
    (hk : k < s0.led_count + s0.led_count % 2)
    (hx : wipe_state cfg s0 (phase_lit lit_edges dark_edges s0.led_count k)
      (k % (s0.led_count + s0.led_count % 2)) x) :
    ∃ x' : FX, WS2812FX_mode_dual_color_wipe_in_in cfg x = some x' ∧
      wipe_state cfg s0 (phase_lit lit_edges dark_edges s0.led_count (k + 1))
        ((k + 1) % (s0.led_count + s0.led_count % 2)) x' := by
  have hl : x.led_count = s0.led_count := hx.1
  have hs : x.counter_mode_step = k := by rw [hx.2.2.2.2.2.1]; exact Nat.mod_eq_of_lt hk
  rw [Nat.mod_eq_of_lt hk] at hx
  simp only [WS2812FX_mode_dual_color_wipe_in_in, hs, hl]
  by_cases hodd : s0.led_count % 2 ≠ 0
  · by_cases hph : k < (s0.led_count + 1) / 2
    · have hc1 : k ≤ u32 ((s0.led_count / 2 : Nat) : Int) := by unfold u32; omega
      obtain ⟨x1, h1, w1⟩ := pair_on cfg s0 x _
        (phase_lit lit_edges dark_edges s0.led_count (k + 1)) k hlc hx
        ((k : Int)) ((s0.led_count : Int) - (k : Int) - 1)
        (k) (s0.led_count - 1 - k)
        (by omega) (by omega)
        (by omega) (by omega)
        (fun j _ => lit_edges_next dark_edges s0.led_count k j hph)
      refine ⟨dual_wipe_finish cfg x1, ?_, dual_finish_state cfg s0 _ k x1 hlc hk w1⟩
      rw [if_pos hodd, if_pos hc1, h1]
      rfl
    · have hc1 : ¬ k ≤ u32 ((s0.led_count / 2 : Nat) : Int) := by unfold u32; omega
      obtain ⟨x1, h1, w1⟩ := pair_off cfg hmin s0 x _
        (phase_lit lit_edges dark_edges s0.led_count (k + 1)) k hlc hx
        (i32 ((k : Int) - ((s0.led_count / 2 : Nat) : Int)) - 1) ((s0.led_count : Int) - i32 ((k : Int) - ((s0.led_count / 2 : Nat) : Int)))
        (k - s0.led_count / 2 - 1) (s0.led_count - (k - s0.led_count / 2))
        (by unfold i32; omega) (by unfold i32; omega)
        (by omega) (by omega)
        (fun j hj => dark_edges_next_odd lit_edges s0.led_count k j (by omega) (lit_edges_full _ _) (by omega) (by omega) hj)
      refine ⟨dual_wipe_finish cfg x1, ?_, dual_finish_state cfg s0 _ k x1 hlc hk w1⟩
      rw [if_pos hodd, if_neg hc1, h1]
      rfl
  · by_cases hph : k < (s0.led_count + 1) / 2
    · have hc2 : k < u32 ((s0.led_count / 2 : Nat) : Int) := by unfold u32; omega
      obtain ⟨x1, h1, w1⟩ := pair_on cfg s0 x _
        (phase_lit lit_edges dark_edges s0.led_count (k + 1)) k hlc hx
        ((k : Int)) ((s0.led_count : Int) - (k : Int) - 1)
        (k) (s0.led_count - 1 - k)
        (by omega) (by omega)
        (by omega) (by omega)
        (fun j _ => lit_edges_next dark_edges s0.led_count k j hph)
      refine ⟨dual_wipe_finish cfg x1, ?_, dual_finish_state cfg s0 _ k x1 hlc hk w1⟩
      rw [if_neg hodd, if_pos hc2, h1]
      rfl
    · have hc2 : ¬ k < u32 ((s0.led_count / 2 : Nat) : Int) := by unfold u32; omega
      obtain ⟨x1, h1, w1⟩ := pair_off cfg hmin s0 x _
        (phase_lit lit_edges dark_edges s0.led_count (k + 1)) k hlc hx
        (i32 ((k : Int) - ((s0.led_count / 2 : Nat) : Int))) ((s0.led_count : Int) - i32 ((k : Int) - ((s0.led_count / 2 : Nat) : Int)) - 1)
        (k - s0.led_count / 2) (s0.led_count - (k - s0.led_count / 2) - 1)
        (by unfold i32; omega) (by unfold i32; omega)
        (by omega) (by omega)
        (fun j hj => dark_edges_next_even lit_edges s0.led_count k j (by omega) (lit_edges_full _ _) (by omega) (by omega) hj)
      refine ⟨dual_wipe_finish cfg x1, ?_, dual_finish_state cfg s0 _ k x1 hlc hk w1⟩
      rw [if_neg hodd, if_neg hc2, h1]
      rfl

theorem out_out_step (cfg : Config) (hmin : cfg.BRIGHTNESS_MIN = 0) (s0 : FX)
    (hlc : s0.led_count < 65536) (k : Nat) (x : FX)
    (hk : k < s0.led_count + s0.led_count % 2)
    (hx : wipe_state cfg s0 (phase_lit lit_middle dark_middle s0.led_count k)
      (k % (s0.led_count + s0.led_count % 2)) x) :
    ∃ x' : FX, WS2812FX_mode_dual_color_wipe_out_out cfg x = some x' ∧
      wipe_state cfg s0 (phase_lit lit_middle dark_middle s0.led_count (k + 1))
        ((k + 1) % (s0.led_count + s0.led_count % 2)) x' := by
  have hl : x.led_count = s0.led_count := hx.1
  have hs : x.counter_mode_step = k := by rw [hx.2.2.2.2.2.1]; exact Nat.mod_eq_of_lt hk
  rw [Nat.mod_eq_of_lt hk] at hx
  simp only [WS2812FX_mode_dual_color_wipe_out_out, hs, hl]
  by_cases hodd : s0.led_count % 2 ≠ 0
  · by_cases hph : k < (s0.led_count + 1) / 2
    · have hc1 : k ≤ u32 ((s0.led_count / 2 : Nat) : Int) := by unfold u32; omega
      obtain ⟨x1, h1, w1⟩ := pair_on cfg s0 x _
        (phase_lit lit_middle dark_middle s0.led_count (k + 1)) k hlc hx
        (((s0.led_count / 2 : Nat) : Int) + (k : Int)) (((s0.led_count / 2 : Nat) : Int) - (k : Int))
        (s0.led_count / 2 + k) (s0.led_count / 2 - k)
        (by omega) (by omega)
        (by omega) (by omega)
        (fun j _ => lit_middle_next_odd dark_middle s0.led_count k j (by omega) hph)
      refine ⟨dual_wipe_finish cfg x1, ?_, dual_finish_state cfg s0 _ k x1 hlc hk w1⟩
      rw [if_pos hodd, if_pos hc1, h1]
      rfl
    · have hc1 : ¬ k ≤ u32 ((s0.led_count / 2 : Nat) : Int) := by unfold u32; omega
      obtain ⟨x1, h1, w1⟩ := pair_off cfg hmin s0 x _
        (phase_lit lit_middle dark_middle s0.led_count (k + 1)) k hlc hx
        ((k : Int) - 1) (i32 ((s0.led_count : Int) - (k : Int) - 1) + 1)
        (k - 1) (s0.led_count - k)
        (by omega) (by unfold i32; omega)
        (by omega) (by omega)
        (fun j hj => dark_middle_next_odd lit_middle s0.led_count k j (by omega) (lit_middle_full _ _ hj) (by omega) (by omega))
      refine ⟨dual_wipe_finish cfg x1, ?_, dual_finish_state cfg s0 _ k x1 hlc hk w1⟩
      rw [if_pos hodd, if_neg hc1, h1]
      rfl
  · by_cases hph : k < (s0.led_count + 1) / 2
    · have hc2 : k < u32 ((s0.led_count / 2 : Nat) : Int) := by unfold u32; omega
      obtain ⟨x1, h1, w1⟩ := pair_on cfg s0 x _
        (phase_lit lit_middle dark_middle s0.led_count (k + 1)) k hlc hx
        (((s0.led_count / 2 : Nat) : Int) - (k : Int) - 1) (((s0.led_count / 2 : Nat) : Int) + (k : Int))
        (s0.led_count / 2 - k - 1) (s0.led_count / 2 + k)
        (by omega) (by omega)
        (by omega) (by omega)
        (fun j _ => lit_middle_next_even dark_middle s0.led_count k j (by omega) hph)
      refine ⟨dual_wipe_finish cfg x1, ?_, dual_finish_state cfg s0 _ k x1 hlc hk w1⟩
      rw [if_neg hodd, if_pos hc2, h1]
      rfl
    · have hc2 : ¬ k < u32 ((s0.led_count / 2 : Nat) : Int) := by unfold u32; omega
      obtain ⟨x1, h1, w1⟩ := pair_off cfg hmin s0 x _
        (phase_lit lit_middle dark_middle s0.led_count (k + 1)) k hlc hx
        ((k : Int)) (i32 ((s0.led_count : Int) - (k : Int) - 1))
        (k) (s0.led_count - 1 - k)
        (by omega) (by unfold i32; omega)
        (by omega) (by omega)
        (fun j hj => dark_middle_next_even lit_middle s0.led_count k j (by omega) (lit_middle_full _ _ hj) (by omega) (by omega))
      refine ⟨dual_wipe_finish cfg x1, ?_, dual_finish_state cfg s0 _ k x1 hlc hk w1⟩
      rw [if_neg hodd, if_neg hc2, h1]
      rfl

theorem out_in_step (cfg : Config) (hmin : cfg.BRIGHTNESS_MIN = 0) (s0 : FX)
    (hlc : s0.led_count < 65536) (k : Nat) (x : FX)
    (hk : k < s0.led_count + s0.led_count % 2)
    (hx : wipe_state cfg s0 (phase_lit lit_middle dark_edges s0.led_count k)
      (k % (s0.led_count + s0.led_count % 2)) x) :
    ∃ x' : FX, WS2812FX_mode_dual_color_wipe_out_in cfg x = some x' ∧
      wipe_state cfg s0 (phase_lit lit_middle dark_edges s0.led_count (k + 1))
        ((k + 1) % (s0.led_count + s0.led_count % 2)) x' := by
  have hl : x.led_count = s0.led_count := hx.1
  have hs : x.counter_mode_step = k := by rw [hx.2.2.2.2.2.1]; exact Nat.mod_eq_of_lt hk
  rw [Nat.mod_eq_of_lt hk] at hx
  simp only [WS2812FX_mode_dual_color_wipe_out_in, hs, hl]
  by_cases hodd : s0.led_count % 2 ≠ 0
  · by_cases hph : k < (s0.led_count + 1) / 2
    · have hc1 : k ≤ u32 ((s0.led_count / 2 : Nat) : Int) := by unfold u32; omega
      obtain ⟨x1, h1, w1⟩ := pair_on cfg s0 x _
        (phase_lit lit_middle dark_edges s0.led_count (k + 1)) k hlc hx
        (((s0.led_count / 2 : Nat) : Int) + (k : Int)) (((s0.led_count / 2 : Nat) : Int) - (k : Int))
        (s0.led_count / 2 + k) (s0.led_count / 2 - k)
        (by omega) (by omega)
        (by omega) (by omega)
        (fun j _ => lit_middle_next_odd dark_edges s0.led_count k j (by omega) hph)
      refine ⟨dual_wipe_finish cfg x1, ?_, dual_finish_state cfg s0 _ k x1 hlc hk w1⟩
      rw [if_pos hodd, if_pos hc1, h1]
      rfl
    · have hc1 : ¬ k ≤ u32 ((s0.led_count / 2 : Nat) : Int) := by unfold u32; omega
      obtain ⟨x1, h1, w1⟩ := pair_off cfg hmin s0 x _
        (phase_lit lit_middle dark_edges s0.led_count (k + 1)) k hlc hx
        (i32 ((k : Int) - ((s0.led_count / 2 : Nat) : Int)) - 1) ((s0.led_count : Int) - i32 ((k : Int) - ((s0.led_count / 2 : Nat) : Int)))
        (k - s0.led_count / 2 - 1) (s0.led_count - (k - s0.led_count / 2))
        (by unfold i32; omega) (by unfold i32; omega)
        (by omega) (by omega)
        (fun j hj => dark_edges_next_odd lit_middle s0.led_count k j (by omega) (lit_middle_full _ _ hj) (by omega) (by omega) hj)
      refine ⟨dual_wipe_finish cfg x1, ?_, dual_finish_state cfg s0 _ k x1 hlc hk w1⟩
      rw [if_pos hodd, if_neg hc1, h1]
      rfl
  · by_cases hph : k < (s0.led_count + 1) / 2
    · have hc2 : k < u32 ((s0.led_count / 2 : Nat) : Int) := by unfold u32; omega
      obtain ⟨x1, h1, w1⟩ := pair_on cfg s0 x _
        (phase_lit lit_middle dark_edges s0.led_count (k + 1)) k hlc hx
        (((s0.led_count / 2 : Nat) : Int) - (k : Int) - 1) (((s0.led_count / 2 : Nat) : Int) + (k : Int))
        (s0.led_count / 2 - k - 1) (s0.led_count / 2 + k)
        (by omega) (by omega)
        (by omega) (by omega)
        (fun j _ => lit_middle_next_even dark_edges s0.led_count k j (by omega) hph)
      refine ⟨dual_wipe_finish cfg x1, ?_, dual_finish_state cfg s0 _ k x1 hlc hk w1⟩
      rw [if_neg hodd, if_pos hc2, h1]
      rfl
    · have hc2 : ¬ k < u32 ((s0.led_count / 2 : Nat) : Int) := by unfold u32; omega
      obtain ⟨x1, h1, w1⟩ := pair_off cfg hmin s0 x _
        (phase_lit lit_middle dark_edges s0.led_count (k + 1)) k hlc hx
        (i32 ((k : Int) - ((s0.led_count / 2 : Nat) : Int))) ((s0.led_count : Int) - i32 ((k : Int) - ((s0.led_count / 2 : Nat) : Int)) - 1)
        (k - s0.led_count / 2) (s0.led_count - (k - s0.led_count / 2) - 1)
        (by unfold i32; omega) (by unfold i32; omega)
        (by omega) (by omega)
        (fun j hj => dark_edges_next_even lit_middle s0.led_count k j (by omega) (lit_middle_full _ _ hj) (by omega) (by omega) hj)
      refine ⟨dual_wipe_finish cfg x1, ?_, dual_finish_state cfg s0 _ k x1 hlc hk w1⟩
      rw [if_neg hodd, if_neg hc2, h1]
      rfl

theorem dual_wipe_cycle_of_step (cfg : Config) (f : Mode) (lit dark : Nat → Nat → Nat → Prop)
    (s : FX) (hn : 1 ≤ s.led_count)
    (hlen : s.strip.length = s.led_count) (hinv : s.inverted = false)
    (hstep : s.counter_mode_step = 0)
    (hoff : ∀ j : Nat, j < s.led_count → s.strip[j]? = some (RGB.mk 0 0 0))
    (h0 : ∀ j : Nat, j < s.led_count → ¬ lit s.led_count 0 j)
    (hfull : ∀ j : Nat, j < s.led_count → lit s.led_count ((s.led_count + 1) / 2) j)
    (hend : ∀ j : Nat, j < s.led_count → ¬ dark s.led_count (s.led_count + s.led_count % 2) j)
    (hf : ∀ (k : Nat) (x : FX), k < s.led_count + s.led_count % 2 →
      wipe_state cfg s (phase_lit lit dark s.led_count k)
        (k % (s.led_count + s.led_count % 2)) x →
      ∃ x' : FX, f x = some x' ∧
        wipe_state cfg s (phase_lit lit dark s.led_count (k + 1))
          ((k + 1) % (s.led_count + s.led_count % 2)) x') :
    (∀ m : Nat, ∃ s' : FX, frames f m s = some s' ∧ s'.strip.length = s.led_count) ∧
    (∃ s' : FX, frames f ((s.led_count + 1) / 2) s = some s' ∧
      ∀ j : Nat, j < s.led_count → s'.strip[j]? = some (scaled_pixel cfg s s.color)) ∧
    (∃ s' : FX, frames f (s.led_count + s.led_count % 2) s = some s' ∧
      (∀ j : Nat, j < s.led_count → s'.strip[j]? = some (RGB.mk 0 0 0)) ∧
      s'.counter_mode_step = 0) := by
  have hrun : ∀ (m : Nat) (x : FX), m ≤ s.led_count + s.led_count % 2 →
      wipe_state cfg s (phase_lit lit dark s.led_count 0) 0 x →
      ∃ x' : FX, frames f m x = some x' ∧
        wipe_state cfg s (phase_lit lit dark s.led_count m)
          (m % (s.led_count + s.led_count % 2)) x' := by
    intro m x hm hx
    have h := frames_indexed f
      (fun k y => wipe_state cfg s (phase_lit lit dark s.led_count k)
        (k % (s.led_count + s.led_count % 2)) y)
      (s.led_count + s.led_count % 2) hf m 0 x (by omega) (by simpa using hx)
    simpa using h
  have hlast : ¬ s.led_count + s.led_count % 2 ≤ (s.led_count + 1) / 2 := by omega
  have hs0 : wipe_state cfg s (phase_lit lit dark s.led_count 0) 0 s :=
    wipe_state_start cfg s _ hlen hinv hstep hoff
      (fun j hj => by simp only [phase_lit, Nat.zero_le, if_true]; exact h0 j hj)
  refine ⟨?_, ?_, ?_⟩
  · refine fun m => frames_periodic f
      (wipe_state cfg s (phase_lit lit dark s.led_count 0) 0)
      (fun x' => x'.strip.length = s.led_count)
      (s.led_count + s.led_count % 2) (by omega) ?_ ?_ m s hs0
    · intro x hx
      obtain ⟨x1, h1, w1⟩ := hrun _ x (le_refl _) hx
      refine ⟨x1, h1, ?_⟩
      obtain ⟨e1, e2, e3, e4, e5, e6, e7, e8⟩ := w1
      refine ⟨e1, e2, e3, e4, e5, by rw [e6, Nat.mod_self], ?_, ?_⟩
      · intro j hj hl
        simp only [phase_lit, Nat.zero_le, if_true] at hl
        exact absurd hl (h0 j hj)
      · intro j hj _
        apply e8 j hj
        simp only [phase_lit, if_neg hlast]
        exact hend j hj
    · intro x m hx hm
      obtain ⟨x', h', w'⟩ := hrun m x hm hx
      exact ⟨x', h', w'.2.1⟩
  · obtain ⟨s', h', w'⟩ := hrun ((s.led_count + 1) / 2) s (by omega) hs0
    refine ⟨s', h', fun j hj => w'.2.2.2.2.2.2.1 j hj ?_⟩
    simp only [phase_lit, if_pos (le_refl _)]
    exact hfull j hj
  · obtain ⟨s', h', w'⟩ := hrun _ s (le_refl _) hs0
    refine ⟨s', h', fun j hj => w'.2.2.2.2.2.2.2 j hj ?_, ?_⟩
    · simp only [phase_lit, if_neg hlast]
      exact hend j hj
    · rw [w'.2.2.2.2.2.1, Nat.mod_self]

/-- C29: for each of the four dual colour wipes, on a strip of n pixels (1 ≤ n,
odd or even, n a `uint16_t` value, brightness range from 0) that starts with step
counter 0, all pixels off and inversion off: a run of any number of frames
completes (a write outside 0..n-1 would abort it); ceil(n / 2) frames leave every
pixel at the brightness-scaled base colour; and one full cycle, n frames for even
n and n + 1 for odd n, leaves every pixel 0 and the step counter 0. -/
theorem dual_color_wipe_cycles (cfg : Config) (hmin : cfg.BRIGHTNESS_MIN = 0) (s : FX)
    (hn : 1 ≤ s.led_count) (hlc : s.led_count < 65536)
    (hlen : s.strip.length = s.led_count) (hinv : s.inverted = false)
    (hstep : s.counter_mode_step = 0)
    (hoff : ∀ j : Nat, j < s.led_count → s.strip[j]? = some (RGB.mk 0 0 0))
    (f : Mode)
    (hf : f ∈ [WS2812FX_mode_dual_color_wipe_in_out cfg, WS2812FX_mode_dual_color_wipe_in_in cfg,
      WS2812FX_mode_dual_color_wipe_out_out cfg, WS2812FX_mode_dual_color_wipe_out_in cfg]) :
    (∀ m : Nat, ∃ s' : FX, frames f m s = some s' ∧ s'.strip.length = s.led_count) ∧
    (∃ s' : FX, frames f ((s.led_count + 1) / 2) s = some s' ∧
      ∀ j : Nat, j < s.led_count → s'.strip[j]? = some (scaled_pixel cfg s s.color)) ∧
    (∃ s' : FX, frames f (s.led_count + s.led_count % 2) s = some s' ∧
      (∀ j : Nat, j < s.led_count → s'.strip[j]? = some (RGB.mk 0 0 0)) ∧
      s'.counter_mode_step = 0) := by
  simp only [List.mem_cons, List.mem_singleton, List.not_mem_nil, or_false] at hf
  rcases hf with rfl | rfl | rfl | rfl
  · exact dual_wipe_cycle_of_step cfg _ lit_edges dark_middle s hn hlen hinv hstep hoff
      (fun j hj => lit_edges_start _ j hj) (fun j _ => lit_edges_full _ j)
      (fun j hj => dark_middle_end _ j hj)
      (fun k x hk hx => in_out_step cfg hmin s hlc k x hk hx)
  · exact dual_wipe_cycle_of_step cfg _ lit_edges dark_edges s hn hlen hinv hstep hoff
      (fun j hj => lit_edges_start _ j hj) (fun j _ => lit_edges_full _ j)
      (fun j _ => dark_edges_end _ j)
      (fun k x hk hx => in_in_step cfg hmin s hlc k x hk hx)
  · exact dual_wipe_cycle_of_step cfg _ lit_middle dark_middle s hn hlen hinv hstep hoff
      (fun j _ => lit_middle_start _ j) (fun j hj => lit_middle_full _ j hj)
      (fun j hj => dark_middle_end _ j hj)
      (fun k x hk hx => out_out_step cfg hmin s hlc k x hk hx)
  · exact dual_wipe_cycle_of_step cfg _ lit_middle dark_edges s hn hlen hinv hstep hoff
      (fun j _ => lit_middle_start _ j) (fun j hj => lit_middle_full _ j hj)
      (fun j _ => dark_edges_end _ j)
      (fun k x hk hx => out_in_step cfg hmin s hlc k x hk hx)

theorem dual_color_wipe_cycles_witness :
    (∃ s' : FX, frames (WS2812FX_mode_dual_color_wipe_out_in refConfig) ((5 + 1) / 2)
        { sampleState 5 with brightness := 200 } = some s' ∧
      ∀ j : Nat, j < 5 → s'.strip[j]? = some (RGB.mk 200 0 0)) ∧
    (∃ s' : FX, frames (WS2812FX_mode_dual_color_wipe_out_in refConfig) (5 + 5 % 2)
        { sampleState 5 with brightness := 200 } = some s' ∧
      (∀ j : Nat, j < 5 → s'.strip[j]? = some (RGB.mk 0 0 0)) ∧ s'.counter_mode_step = 0) :=
  (dual_color_wipe_cycles refConfig rfl { sampleState 5 with brightness := 200 } (by decide)
    (by decide) rfl rfl rfl (by decide) (WS2812FX_mode_dual_color_wipe_out_in refConfig)
    (by simp)).2

/-! ## Comet -/

theorem shiftRight_and (a b : Nat) :
    ∀ n : Nat, (a &&& b) >>> n = (a >>> n) &&& (b >>> n) := by
  intro n
  induction n with
  | zero => rfl
  | succ n ih =>
    rw [Nat.shiftRight_succ, Nat.shiftRight_succ, Nat.shiftRight_succ, ih, Nat.and_div_two]

theorem color32_eq (r g b : Nat) (hg : g < 256) (hb : b < 256) :
    color32 r g b = r * 65536 + g * 256 + b := by
  unfold color32
  have h1 : (r <<< 16) ||| (g <<< 8) = 2 ^ 16 * r + g * 256 := by
    rw [Nat.shiftLeft_eq, Nat.shiftLeft_eq, Nat.mul_comm r (2 ^ 16)]
    exact (Nat.mul_add_lt_is_or (by omega) r).symm
  have h2 : (2 ^ 16 * r + g * 256) ||| b = 2 ^ 8 * (256 * r + g) + b := by
    have e : 2 ^ 16 * r + g * 256 = 2 ^ 8 * (256 * r + g) := by omega
    rw [e]
    exact (Nat.mul_add_lt_is_or (by omega) _).symm
  rw [h1, h2]
  omega

theorem channel_of_color32 (r g b : Nat) (hr : r < 256) (hg : g < 256) (hb : b < 256) :
    channel_of (color32 r g b) 16711680 16 = r ∧ channel_of (color32 r g b) 65280 8 = g ∧
    channel_of (color32 r g b) 255 0 = b := by
  have h16 : ∀ x : Nat, (x &&& 16711680) >>> 16 = (x / 65536) % 256 := by
    intro x
    rw [shiftRight_and, Nat.shiftRight_eq_div_pow]
    exact Nat.and_pow_two_sub_one_eq_mod (x / 2 ^ 16) 8
  have h8 : ∀ x : Nat, (x &&& 65280) >>> 8 = (x / 256) % 256 := by
    intro x
    rw [shiftRight_and, Nat.shiftRight_eq_div_pow]
    exact Nat.and_pow_two_sub_one_eq_mod (x / 2 ^ 8) 8
  have h0 : ∀ x : Nat, (x &&& 255) >>> 0 = x % 256 := by
    intro x
    rw [Nat.shiftRight_zero]
    exact Nat.and_pow_two_sub_one_eq_mod x 8
  simp only [channel_of, h16, h8, h0, color32_eq r g b hg hb, u8]
  omega

theorem getPixelColor_eq (s : FX) (i : Nat) (p : RGB) (h : s.strip[i]? = some p) :
    WS2812_getPixelColor s i = some (color32 p.r p.g p.b) := by
  simp only [WS2812_getPixelColor, strip_get_pixel, h, Option.map_some']

theorem setPixelColor_eq (cfg : Config) (s : FX) (n r g b : Nat) (hinv : s.inverted = false)
    (hn : n < s.strip.length) :
    WS2812_setPixelColor cfg s n r g b =
      some { s with strip := s.strip.set n (RGB.mk
        (u8 (map (r : Int) 0 (cfg.BRIGHTNESS_MAX : Int) (cfg.BRIGHTNESS_MIN : Int)
          (s.brightness : Int)))
        (u8 (map (g : Int) 0 (cfg.BRIGHTNESS_MAX : Int) (cfg.BRIGHTNESS_MIN : Int)
          (s.brightness : Int)))
        (u8 (map (b : Int) 0 (cfg.BRIGHTNESS_MAX : Int) (cfg.BRIGHTNESS_MIN : Int)
          (s.brightness : Int)))) } := by
  simp [WS2812_setPixelColor, hinv, strip_set_pixel, hn]

theorem u8_lt (x : Int) : u8 x < 256 := by
  unfold u8
  omega

theorem byte_pixels_set (px : List RGB) (i : Nat) (q : RGB) (h : byte_pixels px)
    (hq : q.r < 256 ∧ q.g < 256 ∧ q.b < 256) : byte_pixels (px.set i q) := by
  intro p hp
  rcases List.mem_or_eq_of_mem_set hp with h1 | h1
  · exact h p h1
  · rw [h1]; exact hq

theorem fade_loop_spec (cfg : Config) :
    ∀ (k i : Nat) (s : FX), s.inverted = false → i + k ≤ s.strip.length →
      byte_pixels s.strip →
      ∃ px : List RGB, fade_loop cfg k i s = some { s with strip := px } ∧
        px.length = s.strip.length ∧ byte_pixels px ∧
        ∀ (j : Nat) (p : RGB), s.strip[j]? = some p →
          px[j]? = some (if i ≤ j ∧ j < i + k then faded_pixel cfg s p else p) := by
  intro k
  induction k with
  | zero =>
    intro i s _ _ hb
    refine ⟨s.strip, rfl, rfl, hb, ?_⟩
    intro j p hp
    rw [if_neg (by omega)]
    exact hp
  | succ k ih =>
    intro i s hinv hlen hb
    have hi : i < s.strip.length := by omega
    have hget : s.strip[i]? = some (s.strip.get ⟨i, hi⟩) := List.getElem?_eq_getElem hi
    have hmem : s.strip.get ⟨i, hi⟩ ∈ s.strip := List.get_mem _ _ _
    obtain ⟨hr, hg, hbl⟩ := hb _ hmem
    obtain ⟨c1, c2, c3⟩ := channel_of_color32 _ _ _ hr hg hbl
    have hq : (faded_pixel cfg s (s.strip.get ⟨i, hi⟩)).r < 256 ∧
        (faded_pixel cfg s (s.strip.get ⟨i, hi⟩)).g < 256 ∧
        (faded_pixel cfg s (s.strip.get ⟨i, hi⟩)).b < 256 :=
      ⟨u8_lt _, u8_lt _, u8_lt _⟩
    obtain ⟨px, h1, h2, h3, h4⟩ := ih (i + 1)
      { s with strip := s.strip.set i (faded_pixel cfg s (s.strip.get ⟨i, hi⟩)) } hinv
      (by show i + 1 + k ≤ (s.strip.set i _).length; rw [List.length_set]; omega)
      (byte_pixels_set _ _ _ hb hq)
    refine ⟨px, ?_, ?_, h3, ?_⟩
    · simp only [fade_loop, getPixelColor_eq s i _ hget, Option.some_bind, c1, c2, c3,
        setPixelColor_eq cfg s i _ _ _ hinv hi]
      exact h1
    · rw [h2]
      show (s.strip.set i _).length = _
      rw [List.length_set]
    · intro j p hp
      by_cases hji : j = i
      · have hp' : p = s.strip.get ⟨i, hi⟩ := by
          rw [hji, hget] at hp
          exact (Option.some.inj hp).symm
        have h5 := h4 j (faded_pixel cfg s (s.strip.get ⟨i, hi⟩))
          (by
            show (s.strip.set i _)[j]? = _
            rw [hji]
            exact List.getElem?_set_self hi)
        rw [h5, if_neg (by omega), if_pos (by omega), hp']
      · have h5 := h4 j p
          (by
            show (s.strip.set i _)[j]? = _
            rw [List.getElem?_set_ne (Ne.symm hji)]
            exact hp)
        rw [h5]
        by_cases hc : i ≤ j ∧ j < i + (k + 1)
        · rw [if_pos hc, if_pos (by omega)]
          rfl
        · rw [if_neg hc, if_neg (by omega)]

theorem faded_pixel_val (cfg : Config) (hmin : cfg.BRIGHTNESS_MIN = 0)
    (hmax : cfg.BRIGHTNESS_MAX = 255) (s : FX) (hB : s.brightness ≤ 255) (p : RGB)
    (hp : p.r < 256 ∧ p.g < 256 ∧ p.b < 256) :
    faded_pixel cfg s p =
      RGB.mk (p.r / 2 * s.brightness / 255) (p.g / 2 * s.brightness / 255)
        (p.b / 2 * s.brightness / 255) := by
  have e : ∀ c : Nat, c >>> 1 = c / 2 := fun c => by
    rw [Nat.shiftRight_eq_div_pow, Nat.pow_one]
  simp only [faded_pixel, hmin, hmax, e]
  rw [channel_scale _ _ (by omega) hB, channel_scale _ _ (by omega) hB,
    channel_scale _ _ (by omega) hB]

/-- C27, as stated, fails below full brightness: at brightness 128 one comet frame
turns the trailing pixel (200, 100, 50) into (50, 25, 12), not into the halved
(100, 50, 25); at brightness 255 it does become (100, 50, 25). -/
theorem comet_fade_counterexample :
    (WS2812FX_mode_comet refConfig (fade_sample 128)).map (fun s' => s'.strip[1]?)
      = some (some (RGB.mk 50 25 12)) ∧
    RGB.mk 50 25 12 ≠ RGB.mk (200 / 2) (100 / 2) (50 / 2) ∧
    (WS2812FX_mode_comet refConfig (fade_sample 255)).map (fun s' => s'.strip[1]?)
      = some (some (RGB.mk (200 / 2) (100 / 2) (50 / 2))) := by
  decide

/-- C27, amended: with brightness range 0..255, current brightness B ≤ 255,
inversion off, a buffer of byte channels of the strip's length and the step
counter below the strip length, one comet frame leaves every pixel other than the
head pixel (index step counter) with each channel equal to
floor(floor(old / 2) * B / 255), which is floor(old / 2) when B = 255, and the head
pixel holds the brightness-scaled base colour. -/
theorem comet_frame (cfg : Config) (hmin : cfg.BRIGHTNESS_MIN = 0)
    (hmax : cfg.BRIGHTNESS_MAX = 255) (s : FX) (hB : s.brightness ≤ 255)
    (hinv : s.inverted = false) (hlen : s.strip.length = s.led_count)
    (hlc : s.led_count < 65536) (hstep : s.counter_mode_step < s.led_count)
    (hbytes : byte_pixels s.strip) :
    ∃ s' : FX, WS2812FX_mode_comet cfg s = some s' ∧
      (∀ (j : Nat) (p : RGB), j ≠ s.counter_mode_step → s.strip[j]? = some p →
        s'.strip[j]? = some (RGB.mk (p.r / 2 * s.brightness / 255)
          (p.g / 2 * s.brightness / 255) (p.b / 2 * s.brightness / 255))) ∧
      s'.strip[s.counter_mode_step]? = some (scaled_pixel cfg s s.color) ∧
      (s.brightness = 255 → ∀ (j : Nat) (p : RGB), j ≠ s.counter_mode_step →
        s.strip[j]? = some p → s'.strip[j]? = some (RGB.mk (p.r / 2) (p.g / 2) (p.b / 2))) := by
  obtain ⟨px, h1, h2, _, h4⟩ := fade_loop_spec cfg s.led_count 0 s hinv (by omega) hbytes
  have hu : u16 (s.counter_mode_step : Int) = s.counter_mode_step := by unfold u16; omega
  have hw := setPixelColor32_eq cfg { s with strip := px } s.counter_mode_step s.color hlc
    (by show s.led_count ≤ px.length; omega) hstep
  have hidx : spec_physical_index s.inverted s.led_count s.counter_mode_step
      = s.counter_mode_step := by rw [hinv]; rfl
  have hmain : ∀ (j : Nat) (p : RGB), j ≠ s.counter_mode_step → s.strip[j]? = some p →
      (px.set s.counter_mode_step (scaled_pixel cfg s s.color))[j]? =
        some (RGB.mk (p.r / 2 * s.brightness / 255)
          (p.g / 2 * s.brightness / 255) (p.b / 2 * s.brightness / 255)) := by
    intro j p hj hp
    have hjl : j < s.strip.length := by
      by_contra hcon
      rw [List.getElem?_eq_none (by omega)] at hp
      exact Option.noConfusion hp
    have hpm : p ∈ s.strip := List.getElem?_mem hp
    rw [List.getElem?_set_ne (Ne.symm hj), h4 j p hp, if_pos (by omega),
      faded_pixel_val cfg hmin hmax s hB p (hbytes p hpm)]
  refine ⟨{ s with
      strip := px.set s.counter_mode_step (scaled_pixel cfg s s.color),
      counter_mode_step := ((s.counter_mode_step + 1) % 4294967296) % s.led_count,
      mode_delay := delay_by_length cfg s 10 10 }, ?_, hmain, ?_, ?_⟩
  · simp only [WS2812FX_mode_comet, h1, Option.some_bind, hu]
    rw [hw]
    simp only [Option.map_some', hidx]
    rfl
  · show (px.set s.counter_mode_step (scaled_pixel cfg s s.color))[s.counter_mode_step]? = _
    exact List.getElem?_set_self (by omega)
  · intro hfull j p hj hp
    have h := hmain j p hj hp
    rw [hfull] at h
    simpa using h

theorem comet_frame_witness :
    ∃ s' : FX, WS2812FX_mode_comet refConfig (fade_sample 128) = some s' ∧
      s'.strip[1]? = some (RGB.mk (200 / 2 * 128 / 255) (100 / 2 * 128 / 255)
        (50 / 2 * 128 / 255)) ∧
      s'.strip[0]? = some (RGB.mk 128 0 0) := by
  obtain ⟨s', h1, h2, h3, _⟩ := comet_frame refConfig rfl rfl (fade_sample 128) (by decide) rfl
    rfl (by decide) (by decide) (by unfold byte_pixels; decide)
  exact ⟨s', h1, h2 1 (RGB.mk 200 100 50) (by decide) rfl, h3⟩

/-! ## Fireworks -/

theorem first_pixel_eval (cfg : Config) (hmin : cfg.BRIGHTNESS_MIN = 0)
    (hmax : cfg.BRIGHTNESS_MAX = 255) (s : FX) (hB : s.brightness = 255) :
    first_pixel cfg s (gray 127) (gray 0) = gray 63 ∧
    first_pixel cfg s (gray 0) (gray 0) = gray 0 := by
  simp only [first_pixel, hmin, hmax, hB]
  decide

theorem mid_pixel_eval (cfg : Config) (hmin : cfg.BRIGHTNESS_MIN = 0)
    (hmax : cfg.BRIGHTNESS_MAX = 255) (s : FX) (hB : s.brightness = 255) :
    mid_pixel cfg s (gray 0) (gray 0) (gray 0) = gray 0 ∧
    mid_pixel cfg s (gray 0) (gray 127) (gray 0) = gray 63 ∧
    mid_pixel cfg s (gray 63) (gray 0) (gray 127) = gray 142 ∧
    mid_pixel cfg s (gray 142) (gray 0) (gray 0) = gray 35 := by
  simp only [mid_pixel, hmin, hmax, hB]
  decide

theorem last_pixel_eval (cfg : Config) (hmin : cfg.BRIGHTNESS_MIN = 0)
    (hmax : cfg.BRIGHTNESS_MAX = 255) (s : FX) (hB : s.brightness = 255) :
    last_pixel cfg s (gray 142) (gray 0) = gray 35 := by
  simp only [last_pixel, hmin, hmax, hB]
  decide

theorem fireworks_pattern_set (k n i : Nat) (px : List RGB) (q : RGB) (hk1 : 1 ≤ k)
    (hp : fireworks_pattern k n i px) (hi : i < n)
    (hZ : i + 1 < k → q = gray 0) (hA : i + 1 = k → q = gray 63)
    (hB : i = k → q = gray 142) (hC : i = k + 1 → q = gray 35) :
    fireworks_pattern k n (i + 1) (px.set i q) := by
  obtain ⟨p1, p2, p3, p4, p5, p6⟩ := hp
  have hself : (px.set i q)[i]? = some q := List.getElem?_set_self (by omega)
  refine ⟨by rw [List.length_set]; exact p1, ?_, ?_, ?_, ?_, ?_⟩
  · intro j hj1 hj2
    rw [List.getElem?_set_ne (by omega)]
    exact p2 j (by omega) hj2
  · intro hik j hj
    by_cases hji : j = i
    · rw [hji, hself, hZ hik]
    · rw [List.getElem?_set_ne (Ne.symm hji)]
      exact p3 (by omega) j (by omega)
  · intro hik
    by_cases hki : i + 1 = k
    · have e : k - 1 = i := by omega
      rw [e, hself, hA hki]
    · rw [List.getElem?_set_ne (by omega)]
      exact p4 (by omega)
  · intro hik
    by_cases hki : i = k
    · rw [← hki, hself, hB hki]
    · rw [List.getElem?_set_ne (by omega)]
      exact p5 (by omega)
  · intro hik
    by_cases hki : i = k + 1
    · rw [← hki, hself, hC hki]
    · rw [List.getElem?_set_ne (by omega)]
      exact p6 (by omega)

theorem fireworks_pattern_step (cfg : Config) (hmin : cfg.BRIGHTNESS_MIN = 0)
    (hmax : cfg.BRIGHTNESS_MAX = 255) (s : FX) (hB : s.brightness = 255)
    (k n i : Nat) (px : List RGB) (hk1 : 1 ≤ k) (hk2 : k + 2 ≤ n)
    (hp : fireworks_pattern k n i px) (hi1 : 1 ≤ i) (hi2 : i + 2 ≤ n) :
    ∃ pl pr pc : RGB, px[i - 1]? = some pl ∧ px[i + 1]? = some pr ∧ px[i]? = some pc ∧
      fireworks_pattern k n (i + 1) (px.set i (mid_pixel cfg s pl pr pc)) := by
  obtain ⟨e0, e63, e142, e35⟩ := mid_pixel_eval cfg hmin hmax s hB
  have hp' := hp
  obtain ⟨p1, p2, p3, p4, p5, p6⟩ := hp
  have hr := p2 (i + 1) (by omega) (by omega)
  have hc := p2 i (le_refl _) (by omega)
  by_cases h1 : i + 1 < k
  · have hl := p3 (by omega) (i - 1) (by omega)
    rw [if_neg (by omega)] at hr hc
    exact ⟨_, _, _, hl, hr, hc, fireworks_pattern_set k n i px _ hk1 hp' (by omega)
      (fun _ => e0) (by omega) (by omega) (by omega)⟩
  · by_cases h2 : i + 1 = k
    · have hl := p3 (by omega) (i - 1) (by omega)
      rw [if_pos h2] at hr
      rw [if_neg (by omega)] at hc
      exact ⟨_, _, _, hl, hr, hc, fireworks_pattern_set k n i px _ hk1 hp' (by omega)
        (by omega) (fun _ => e63) (by omega) (by omega)⟩
    · by_cases h3 : i = k
      · have hl := p4 (by omega)
        rw [← h3] at hl
        rw [if_neg (by omega)] at hr
        rw [if_pos h3] at hc
        exact ⟨_, _, _, hl, hr, hc, fireworks_pattern_set k n i px _ hk1 hp' (by omega)
          (by omega) (by omega) (fun _ => e142) (by omega)⟩
      · by_cases h4 : i = k + 1
        · have hl := p5 (by omega)
          have e : k = i - 1 := by omega
          rw [e] at hl
          rw [if_neg (by omega)] at hr hc
          exact ⟨_, _, _, hl, hr, hc, fireworks_pattern_set k n i px _ hk1 hp' (by omega)
            (by omega) (by omega) (by omega) (fun _ => e35)⟩
        · have hl : px[i - 1]? = some (px.get ⟨i - 1, by omega⟩) :=
            List.getElem?_eq_getElem (by omega)
          exact ⟨_, _, _, hl, hr, hc, fireworks_pattern_set k n i px _ hk1 hp' (by omega)
            (by omega) (by omega) (by omega) (by omega)⟩

theorem fireworks_loop_succ (cfg : Config) (s : FX) (m i : Nat) (pl pr pc : RGB)
    (hinv : s.inverted = false) (hi1 : 1 ≤ i) (hi2 : i + 1 < 65536)
    (hl : s.strip[i - 1]? = some pl) (hr : s.strip[i + 1]? = some pr)
    (hc : s.strip[i]? = some pc) :
    fireworks_loop cfg (m + 1) i s =
      fireworks_loop cfg m (i + 1) { s with strip := s.strip.set i (mid_pixel cfg s pl pr pc) } := by
  have hu1 : u16 ((i : Int) - 1) = i - 1 := by unfold u16; omega
  have hu2 : u16 ((i : Int) + 1) = i + 1 := by unfold u16; omega
  have hlen : i < s.strip.length := by
    by_contra hcon
    rw [List.getElem?_eq_none (by omega)] at hc
    exact Option.noConfusion hc
  simp only [fireworks_loop, hu1, hu2, getPixelColor_eq s _ _ hl, getPixelColor_eq s _ _ hr,
    getPixelColor_eq s _ _ hc, Option.some_bind, setPixelColor_eq cfg s i _ _ _ hinv hlen]
  rfl

theorem fireworks_loop_pattern (cfg : Config) (hmin : cfg.BRIGHTNESS_MIN = 0)
    (hmax : cfg.BRIGHTNESS_MAX = 255) (k n : Nat) (hk1 : 1 ≤ k) (hk2 : k + 2 ≤ n)
    (hn : n < 65536) :
    ∀ (m i : Nat) (s : FX), s.inverted = false → s.brightness = 255 → 1 ≤ i →
      i + m + 1 = n → fireworks_pattern k n i s.strip →
      ∃ px : List RGB, fireworks_loop cfg m i s = some { s with strip := px } ∧
        fireworks_pattern k n (n - 1) px := by
  intro m
  induction m with
  | zero =>
    intro i s _ _ _ him hp
    have e : n - 1 = i := by omega
    rw [e]
    exact ⟨s.strip, rfl, hp⟩
  | succ m ih =>
    intro i s hinv hB hi him hp
    obtain ⟨pl, pr, pc, hl, hr, hc, hp1⟩ :=
      fireworks_pattern_step cfg hmin hmax s hB k n i s.strip hk1 hk2 hp hi (by omega)
    obtain ⟨px, h1, h2⟩ := ih (i + 1)
      { s with strip := s.strip.set i (mid_pixel cfg s pl pr pc) } hinv hB (by omega)
      (by omega) hp1
    refine ⟨px, ?_, h2⟩
    rw [fireworks_loop_succ cfg s m i pl pr pc hinv hi (by omega) hl hr hc]
    exact h1

theorem spark_loop_none (cfg : Config) :
    ∀ (m : Nat) (s : FX),
      (∀ t : Nat, t < m → s.rand_seq (s.rand_pos + t) % 2147483648 % 10 ≠ 0) →
      ∃ s' : FX, spark_loop cfg m s = some s' ∧ s'.strip = s.strip := by
  intro m
  induction m with
  | zero =>
    intro s _
    exact ⟨s, rfl, rfl⟩
  | succ m ih =>
    intro s h
    have h0 := h 0 (by omega)
    have hd : (randomInRange s 0 10).1 = s.rand_seq s.rand_pos % 2147483648 % 10 := by
      simp only [randomInRange, rand, u32]
      rw [if_pos (by omega)]
      show (Int.toNat _ + 0) % 4294967296 = _
      omega
    have hs2 : (randomInRange s 0 10).2 = { s with rand_pos := s.rand_pos + 1 } := by
      simp only [randomInRange, rand]
      rw [if_pos (by omega)]
    have hne : ¬ (randomInRange s 0 10).1 = 0 := by
      rw [hd]
      simpa using h0
    obtain ⟨s', h1, h2⟩ := ih { s with rand_pos := s.rand_pos + 1 }
      (fun t ht => by
        have := h (t + 1) (by omega)
        show s.rand_seq (s.rand_pos + 1 + t) % 2147483648 % 10 ≠ 0
        rw [Nat.add_assoc, Nat.add_comm 1 t]
        exact this)
    refine ⟨s', ?_, h2⟩
    simp only [spark_loop, if_neg hne, hs2]
    exact h1

theorem fireworks_first_led_eq (cfg : Config) (s : FX) (p1 p0 : RGB)
    (hinv : s.inverted = false) (h1 : s.strip[1]? = some p1) (h0 : s.strip[0]? = some p0) :
    fireworks_first_led cfg s =
      some { s with strip := s.strip.set 0 (first_pixel cfg s p1 p0) } := by
  have hlen : 0 < s.strip.length := by
    by_contra hcon
    rw [List.getElem?_eq_none (by omega)] at h0
    exact Option.noConfusion h0
  simp only [fireworks_first_led, getPixelColor_eq s _ _ h1, getPixelColor_eq s _ _ h0,
    Option.some_bind, setPixelColor_eq cfg s 0 _ _ _ hinv hlen]
  rfl

theorem fireworks_last_led_eq (cfg : Config) (s : FX) (p2 p1 : RGB)
    (hinv : s.inverted = false) (hlc : 2 ≤ s.led_count) (hlc2 : s.led_count < 65536)
    (h2 : s.strip[s.led_count - 2]? = some p2) (h1 : s.strip[s.led_count - 1]? = some p1) :
    fireworks_last_led cfg s =
      some { s with strip := s.strip.set (s.led_count - 1) (last_pixel cfg s p2 p1) } := by
  have hu2 : u16 ((s.led_count : Int) - 2) = s.led_count - 2 := by unfold u16; omega
  have hu1 : u16 ((s.led_count : Int) - 1) = s.led_count - 1 := by unfold u16; omega
  have hlen : s.led_count - 1 < s.strip.length := by
    by_contra hcon
    rw [List.getElem?_eq_none (by omega)] at h1
    exact Option.noConfusion h1
  simp only [fireworks_last_led, hu1, hu2, getPixelColor_eq s _ _ h2, getPixelColor_eq s _ _ h1,
    Option.some_bind, setPixelColor_eq cfg s _ _ _ _ hinv hlen]
  rfl

theorem faded_pixel_eval (cfg : Config) (hmin : cfg.BRIGHTNESS_MIN = 0)
    (hmax : cfg.BRIGHTNESS_MAX = 255) (s : FX) (hB : s.brightness = 255) :
    faded_pixel cfg s (gray 255) = gray 127 ∧ faded_pixel cfg s (gray 0) = gray 0 := by
  simp only [faded_pixel, hmin, hmax, hB]
  decide

/-- C22: with brightness range 0..255, on a strip of n ≥ 3 pixels (n a `uint16_t`
value) at brightness 255 with inversion off, where only the interior pixel k
(1 ≤ k ≤ n - 2) is lit, all channels 255, and no draw of the spark loop is 0, one
fireworks frame completes and leaves pixel k - 1 at (63, 63, 63) and pixel k + 1 at
(35, 35, 35): each channel of both is nonzero and strictly below 127 = 255 / 2, the
halved value of pixel k. -/
theorem fireworks_diffusion (cfg : Config) (hmin : cfg.BRIGHTNESS_MIN = 0)
    (hmax : cfg.BRIGHTNESS_MAX = 255) (s : FX) (k : Nat)
    (hlc : s.led_count < 65536) (hk1 : 1 ≤ k) (hk2 : k + 2 ≤ s.led_count)
    (hlen : s.strip.length = s.led_count) (hinv : s.inverted = false)
    (hB : s.brightness = 255)
    (hpx : ∀ j : Nat, j < s.led_count →
      s.strip[j]? = some (if j = k then gray 255 else gray 0))
    (hns : ∀ t : Nat, t < max_u32 1 (s.led_count / 20) →
      s.rand_seq (s.rand_pos + t) % 2147483648 % 10 ≠ 0) :
    ∃ (s' : FX) (p q : RGB), WS2812FX_mode_fireworks cfg s = some s' ∧
      s'.strip[k - 1]? = some p ∧ s'.strip[k + 1]? = some q ∧
      (∀ c ∈ [p.r, p.g, p.b, q.r, q.g, q.b], 0 < c ∧ c < 255 / 2) ∧
      p = gray 63 ∧ q = gray 35 := by
  obtain ⟨ef255, ef0⟩ := faded_pixel_eval cfg hmin hmax s hB
  obtain ⟨e63, e0⟩ := first_pixel_eval cfg hmin hmax s hB
  have e35 := last_pixel_eval cfg hmin hmax s hB
  have hbytes : byte_pixels s.strip := by
    intro p hp
    obtain ⟨j, hj⟩ := List.mem_iff_getElem?.1 hp
    have hjl : j < s.strip.length := by
      by_contra hcon
      rw [List.getElem?_eq_none (by omega)] at hj
      exact Option.noConfusion hj
    rw [hpx j (by omega)] at hj
    have e : p = if j = k then gray 255 else gray 0 := (Option.some.inj hj).symm
    rw [e]
    split_ifs <;> decide
  obtain ⟨px1, f1, f2, _, f4⟩ := fade_loop_spec cfg s.led_count 0 s hinv (by omega) hbytes
  have hpat0 : fireworks_pattern k s.led_count 0 px1 := by
    refine ⟨by omega, ?_, fun _ j hj => absurd hj (by omega), fun h => absurd h (by omega),
      fun h => absurd h (by omega), fun h => absurd h (by omega)⟩
    intro j _ hj
    rw [f4 j _ (hpx j hj), if_pos (by omega)]
    by_cases hjk : j = k
    · rw [if_pos hjk, if_pos hjk, ef255]
    · rw [if_neg hjk, if_neg hjk, ef0]
  have h1 := hpat0.2.1 1 (by omega) (by omega)
  have h0 := hpat0.2.1 0 (by omega) (by omega)
  rw [if_neg (by omega)] at h0
  have hpat1 : fireworks_pattern k s.led_count 1
      (px1.set 0 (first_pixel cfg s (if 1 = k then gray 127 else gray 0) (gray 0))) :=
    fireworks_pattern_set k s.led_count 0 px1 _ hk1 hpat0 (by omega)
      (fun h => by rw [if_neg (by omega)]; exact e0)
      (fun h => by rw [if_pos (by omega)]; exact e63)
      (fun h => absurd h (by omega)) (fun h => absurd h (by omega))
  have hfirst : fireworks_first_led cfg { s with strip := px1 } = some { s with
      strip := (px1.set 0 (first_pixel cfg s (if 1 = k then gray 127 else gray 0) (gray 0))) } :=
    fireworks_first_led_eq cfg { s with strip := px1 } _ _ hinv h1 h0
  obtain ⟨px3, hloop, hpat3⟩ := fireworks_loop_pattern cfg hmin hmax k s.led_count hk1 hk2 hlc
    (s.led_count - 2) 1
    { s with strip := px1.set 0 (first_pixel cfg s (if 1 = k then gray 127 else gray 0) (gray 0)) }
    hinv hB (le_refl _) (by omega) hpat1
  obtain ⟨q1, q2, _, q4, q5, q6⟩ := hpat3
  have hl1 := q2 (s.led_count - 1) (le_refl _) (by omega)
  rw [if_neg (by omega)] at hl1
  have hl2 : px3[s.led_count - 2]? = some (px3.get ⟨s.led_count - 2, by omega⟩) :=
    List.getElem?_eq_getElem (by omega)
  have hloop' : fireworks_loop cfg (s.led_count - 2) 1 { s with
      strip := (px1.set 0 (first_pixel cfg s (if 1 = k then gray 127 else gray 0) (gray 0))) }
      = some { s with strip := px3 } := hloop
  have hlast : fireworks_last_led cfg { s with strip := px3 } = some { s with
      strip := (px3.set (s.led_count - 1)
        (last_pixel cfg s (px3.get ⟨s.led_count - 2, by omega⟩) (gray 0))) } :=
    fireworks_last_led_eq cfg { s with strip := px3 } _ _ hinv
      (by show 2 ≤ s.led_count; omega) hlc hl2 hl1
  obtain ⟨s5, hspark, hs5⟩ := spark_loop_none cfg (max_u32 1 (s.led_count / 20))
    { s with strip := (px3.set (s.led_count - 1)
        (last_pixel cfg s (px3.get ⟨s.led_count - 2, by omega⟩) (gray 0))) } hns
  have hrun : WS2812FX_mode_fireworks cfg s =
      some { s5 with mode_delay := delay_by_length cfg s5 20 20 } := by
    unfold WS2812FX_mode_fireworks
    rw [f1]
    show (((fireworks_first_led cfg { s with strip := px1 }).bind _).bind _).bind _ = _
    rw [hfirst]
    show ((fireworks_loop cfg (s.led_count - 2) 1 { s with
      strip := (px1.set 0 (first_pixel cfg s (if 1 = k then gray 127 else gray 0) (gray 0))) }).bind
        _).bind _ = _
    rw [hloop']
    show (fireworks_last_led cfg { s with strip := px3 }).bind _ = _
    rw [hlast]
    show (spark_loop cfg (max_u32 1 (s.led_count / 20)) { s with
      strip := (px3.set (s.led_count - 1)
        (last_pixel cfg s (px3.get ⟨s.led_count - 2, by omega⟩) (gray 0))) }).map _ = _
    rw [hspark]
    rfl
  refine ⟨_, gray 63, gray 35, hrun, ?_, ?_, by decide, rfl, rfl⟩
  · show s5.strip[k - 1]? = _
    rw [hs5]
    show (px3.set (s.led_count - 1) _)[k - 1]? = _
    rw [List.getElem?_set_ne (by omega)]
    exact q4 (by omega)
  · show s5.strip[k + 1]? = _
    rw [hs5]
    show (px3.set (s.led_count - 1) _)[k + 1]? = _
    by_cases hk : k + 2 = s.led_count
    · have e : s.led_count - 1 = k + 1 := by omega
      have hk142 := q5 (by omega)
      have eg : px3.get ⟨s.led_count - 2, by omega⟩ = gray 142 := by
        have e2 : s.led_count - 2 = k := by omega
        have h' : px3[s.led_count - 2]? = some (gray 142) := by rw [e2]; exact hk142
        exact Option.some.inj (hl2.symm.trans h')
      rw [eg, e35, e]
      exact List.getElem?_set_self (by omega)
    · rw [List.getElem?_set_ne (by omega)]
      exact q6 (by omega)

theorem fireworks_diffusion_witness :
    ∃ (s' : FX) (p q : RGB), WS2812FX_mode_fireworks refConfig fireworks_sample = some s' ∧
      s'.strip[2 - 1]? = some p ∧ s'.strip[2 + 1]? = some q ∧
      (∀ c ∈ [p.r, p.g, p.b, q.r, q.g, q.b], 0 < c ∧ c < 255 / 2) ∧
      p = gray 63 ∧ q = gray 35 :=
  fireworks_diffusion refConfig rfl rfl fireworks_sample 2 (by decide) (by decide) (by decide)
    rfl rfl rfl (by decide) (by decide)

/-! ## Random hue: termination -/

theorem filter_length_card (p : Nat → Prop) [DecidablePred p] (n : Nat) :
    ((List.range n).filter (fun r => decide (p r))).length
      = ((Finset.range n).filter p).card := rfl

theorem wheel_good_mem (pos r : Nat) (hpos : pos < 256)
    (h : (pos + 42 ≤ r ∧ r ≤ 255 ∧ r ≤ pos + 213) ∨
      (42 ≤ pos ∧ pos ≤ r + 213 ∧ r + 42 ≤ pos)) :
    r ∈ (Finset.range 256).filter (fun r => 42 ≤ spec_wheel_distance pos r) := by
  rw [Finset.mem_filter, Finset.mem_range]
  unfold spec_wheel_distance
  simp only [Nat.min_def]
  split_ifs <;> omega

theorem wheel_good_count (pos : Nat) (hpos : pos < 256) :
    172 ≤ ((List.range 256).filter
      (fun r => decide (42 ≤ spec_wheel_distance pos r))).length := by
  rw [filter_length_card (fun r => 42 ≤ spec_wheel_distance pos r) 256]
  rcases Nat.lt_or_ge pos 42 with h | h
  · have hsub : Finset.Icc (pos + 42) (pos + 213)
        ⊆ (Finset.range 256).filter (fun r => 42 ≤ spec_wheel_distance pos r) := by
      intro r hr
      rw [Finset.mem_Icc] at hr
      exact wheel_good_mem pos r hpos (Or.inl (by omega))
    have hc := Finset.card_le_card hsub
    rw [Nat.card_Icc] at hc
    omega
  · have hsub : Finset.Icc (pos + 42) 255 ∪ Finset.Icc (pos - 213) (pos - 42)
        ⊆ (Finset.range 256).filter (fun r => 42 ≤ spec_wheel_distance pos r) := by
      intro r hr
      rw [Finset.mem_union, Finset.mem_Icc, Finset.mem_Icc] at hr
      exact wheel_good_mem pos r hpos (by omega)
    have hd : Disjoint (Finset.Icc (pos + 42) 255) (Finset.Icc (pos - 213) (pos - 42)) := by
      rw [Finset.disjoint_left]
      intro r h1 h2
      rw [Finset.mem_Icc] at h1 h2
      omega
    have hc := Finset.card_le_card hsub
    rw [Finset.card_union_of_disjoint hd, Nat.card_Icc, Nat.card_Icc] at hc
    omega

theorem wheel_draw_eq (s : FX) (t : Nat) :
    wheel_draw s t = s.rand_seq (s.rand_pos + t) % 2147483648 % 256 := by
  simp only [wheel_draw, randomInRange, rand, u8, u32]
  rw [if_pos (by omega)]
  show Int.toNat (((Int.toNat _ + 0) % 4294967296 : Nat) % 256) = _
  omega

theorem wheel_draw_zero (s : FX) :
    u8 ((randomInRange s 0 256).1 : Int) = wheel_draw s 0 := rfl

theorem draw_state (s : FX) :
    (randomInRange s 0 256).2 = { s with rand_pos := s.rand_pos + 1 } := by
  simp only [randomInRange, rand]
  rw [if_pos (by omega)]

theorem wheel_test_iff (pos r : Nat) (hpos : pos < 256) (hr : r < 256) :
    u8 ((min_u16 (u8 ((((pos : Int) - (r : Int)).natAbs : Nat) : Int))
      (u8 (255 - ((u8 ((((pos : Int) - (r : Int)).natAbs : Nat) : Int) : Nat) : Int))) : Nat)
        : Int) < 42 ↔ spec_wheel_distance pos r < 42 := by
  unfold spec_wheel_distance
  rcases Nat.le_total pos r with h | h
  · have ha : ((pos : Int) - (r : Int)).natAbs = r - pos := by omega
    rw [ha]
    simp only [min_u16, u8, u16, Nat.min_def]
    split_ifs <;> omega
  · have ha : ((pos : Int) - (r : Int)).natAbs = pos - r := by omega
    rw [ha]
    simp only [min_u16, u8, u16, Nat.min_def]
    split_ifs <;> omega

theorem wheel_draw_lt (s : FX) (t : Nat) : wheel_draw s t < 256 := by
  rw [wheel_draw_eq]
  omega

theorem random_wheel_index_first (pos : Nat) (hpos : pos < 256) :
    ∀ (t : Nat) (s : FX), 42 ≤ spec_wheel_distance pos (wheel_draw s t) →
      (∀ u : Nat, u < t → spec_wheel_distance pos (wheel_draw s u) < 42) →
      WS2812FX_get_random_wheel_index pos (t + 1) s
        = some (wheel_draw s t, { s with rand_pos := s.rand_pos + t + 1 }) := by
  intro t
  induction t with
  | zero =>
    intro s hg _
    have hn : ¬ spec_wheel_distance pos (wheel_draw s 0) < 42 := by omega
    rw [← wheel_test_iff pos _ hpos (wheel_draw_lt s 0)] at hn
    simp only [WS2812FX_get_random_wheel_index, wheel_draw_zero, if_neg hn, draw_state]
  | succ t ih =>
    intro s hg hb
    have h0 := hb 0 (by omega)
    rw [← wheel_test_iff pos _ hpos (wheel_draw_lt s 0)] at h0
    have hshift : ∀ u : Nat,
        wheel_draw { s with rand_pos := s.rand_pos + 1 } u = wheel_draw s (u + 1) := by
      intro u
      rw [wheel_draw_eq, wheel_draw_eq]
      show s.rand_seq (s.rand_pos + 1 + u) % 2147483648 % 256 = _
      rw [Nat.add_assoc, Nat.add_comm 1 u]
    have h1 := ih { s with rand_pos := s.rand_pos + 1 }
      (by rw [hshift]; exact hg)
      (fun u hu => by rw [hshift]; exact hb (u + 1) (by omega))
    rw [WS2812FX_get_random_wheel_index]
    simp only [wheel_draw_zero, if_pos h0, draw_state]
    rw [h1, hshift]
    have e : s.rand_pos + 1 + t + 1 = s.rand_pos + (t + 1) + 1 := by omega
    show some (wheel_draw s (t + 1), { s with rand_pos := s.rand_pos + 1 + t + 1 }) = _
    rw [e]

/-- C33: for every `pos` in 0..255 at least 172 of the 256 values `r` in 0..255
satisfy `min(|pos - r|, 255 - |pos - r|) >= 42`; and whenever the draws of
`WS2812FX_get_random_wheel_index(pos)` contain such a value, the loop ends: there
is a first draw `t` that satisfies it, every earlier draw does not, and with more
than `t` draws allowed the function returns the value of draw `t`, having consumed
`t + 1` values of the `rand()` sequence. -/
theorem random_wheel_index_terminates (pos : Nat) (hpos : pos < 256) :
    172 ≤ ((List.range 256).filter
      (fun r => decide (42 ≤ spec_wheel_distance pos r))).length ∧
    (∀ (s : FX) (t : Nat), 42 ≤ spec_wheel_distance pos (wheel_draw s t) →
      ∃ t₀ : Nat, t₀ ≤ t ∧ 42 ≤ spec_wheel_distance pos (wheel_draw s t₀) ∧
        (∀ u : Nat, u < t₀ → spec_wheel_distance pos (wheel_draw s u) < 42) ∧
        ∀ fuel : Nat, t₀ < fuel →
          WS2812FX_get_random_wheel_index pos fuel s
            = some (wheel_draw s t₀, { s with rand_pos := s.rand_pos + t₀ + 1 })) := by
  refine ⟨wheel_good_count pos hpos, ?_⟩
  intro s t hg
  have hex : ∃ u : Nat, 42 ≤ spec_wheel_distance pos (wheel_draw s u) := ⟨t, hg⟩
  refine ⟨Nat.find hex, Nat.find_min' hex hg, Nat.find_spec hex, ?_, ?_⟩
  · intro u hu
    have := Nat.find_min hex hu
    omega
  · intro fuel hf
    exact random_wheel_index_fuel_mono pos _ fuel s _ (by omega)
      (random_wheel_index_first pos hpos (Nat.find hex) s (Nat.find_spec hex)
        (fun u hu => by
          have := Nat.find_min hex hu
          omega))

theorem random_wheel_index_terminates_witness :
    (10 : Nat) < 256 ∧
    (List.map (wheel_draw (sampleState 3)) [0, 1, 2, 3] = [13, 252, 235, 218]) ∧
    ∃ t₀ : Nat, t₀ ≤ 3 ∧ 42 ≤ spec_wheel_distance 10 (wheel_draw (sampleState 3) t₀) ∧
      (∀ u : Nat, u < t₀ → spec_wheel_distance 10 (wheel_draw (sampleState 3) u) < 42) ∧
      ∀ fuel : Nat, t₀ < fuel →
        WS2812FX_get_random_wheel_index 10 fuel (sampleState 3)
          = some (wheel_draw (sampleState 3) t₀,
              { sampleState 3 with rand_pos := (sampleState 3).rand_pos + t₀ + 1 }) :=
  ⟨by decide, by decide,
   (random_wheel_index_terminates 10 (by decide)).2 (sampleState 3) 3 (by decide)⟩

/-! ## First frame after a reset -/

/-- C31, evaluation at the failing input. The service increments the call counter
before it invokes the effect, so after `WS2812FX_start` or `WS2812FX_setMode` the
effect of the first frame sees call counter 1 and its branch for call counter 0 is
not taken.  On a four-pixel strip, the first frame (tick at 101 ms) of
`WS2812FX_mode_breath` leaves the breathing level at 255 for base colour 0xFF0000
and at 254 for base colour 0x0000FF, not at 150, and the first frame of
`WS2812FX_mode_single_dynamic` leaves three of the four pixels off; invoked with
call counter 0, the two effects give level 150 and no pixel off. -/
theorem first_call_branch_skipped :
    (∀ (cfg : Config) (now : Nat) (s : FX) (m : Nat),
      (frame_entry now (update_brightness cfg (WS2812FX_start s))).counter_mode_call = 1 ∧
      (frame_entry now
        (update_brightness cfg (WS2812FX_setMode cfg s m))).counter_mode_call = 1) ∧
    (service_pass refConfig (fun _ => WS2812FX_mode_breath refConfig) 101
        (first_frame_sample 16711680)).map
      (fun s => (s.counter_mode_call, s.mode_color)) = some (1, 255) ∧
    (service_pass refConfig (fun _ => WS2812FX_mode_breath refConfig) 101
        (first_frame_sample 255)).map
      (fun s => (s.counter_mode_call, s.mode_color)) = some (1, 254) ∧
    (WS2812FX_mode_breath refConfig (first_frame_sample 16711680)).map
      (fun s => s.mode_color) = some 150 ∧
    (WS2812FX_mode_breath refConfig (first_frame_sample 255)).map
      (fun s => s.mode_color) = some 150 ∧
    (service_pass refConfig (fun _ => WS2812FX_mode_single_dynamic refConfig) 101
        (first_frame_sample 16711680)).map
      (fun s => (s.counter_mode_call, s.strip.count (RGB.mk 0 0 0))) = some (1, 3) ∧
    (WS2812FX_mode_single_dynamic refConfig (first_frame_sample 16711680)).map
      (fun s => s.strip.count (RGB.mk 0 0 0)) = some 0 := by
  refine ⟨?_, by decide, by decide, by decide, by decide, by decide, by decide⟩
  intro cfg now s m
  constructor
  · unfold frame_entry update_brightness WS2812FX_start
    split_ifs <;> rfl
  · unfold frame_entry update_brightness WS2812FX_setMode
    split_ifs <;> rfl

/-! ## Fireworks: no overflow -/

theorem mask_shift_color32 (r g b : Nat) (hr : r < 256) (hg : g < 256) (hb : b < 256) :
    (color32 r g b &&& 16711680) >>> 16 = r ∧ (color32 r g b &&& 65280) >>> 8 = g ∧
    (color32 r g b &&& 255) >>> 0 = b := by
  have h16 : ∀ x : Nat, (x &&& 16711680) >>> 16 = (x / 65536) % 256 := by
    intro x
    rw [shiftRight_and, Nat.shiftRight_eq_div_pow]
    exact Nat.and_pow_two_sub_one_eq_mod (x / 2 ^ 16) 8
  have h8 : ∀ x : Nat, (x &&& 65280) >>> 8 = (x / 256) % 256 := by
    intro x
    rw [shiftRight_and, Nat.shiftRight_eq_div_pow]
    exact Nat.and_pow_two_sub_one_eq_mod (x / 2 ^ 8) 8
  have h0 : ∀ x : Nat, (x &&& 255) >>> 0 = x % 256 := by
    intro x
    rw [Nat.shiftRight_zero]
    exact Nat.and_pow_two_sub_one_eq_mod x 8
  rw [h16, h8, h0, color32_eq r g b hg hb]
  omega

theorem scale_self_le (c B : Nat) (hB : B ≤ 255) : c * B / 255 ≤ c := by
  apply Nat.div_le_of_le_mul
  calc c * B ≤ c * 255 := Nat.mul_le_mul_left c hB
    _ = 255 * c := Nat.mul_comm c 255

theorem stored_channel_le (cfg : Config) (hmin : cfg.BRIGHTNESS_MIN = 0)
    (hmax : cfg.BRIGHTNESS_MAX = 255) (s : FX) (hB : s.brightness ≤ 255) (raw : Nat)
    (hv : raw ≤ 255) :
    u8 (map ((u8 ((raw : Nat) : Int) : Nat) : Int) 0 (cfg.BRIGHTNESS_MAX : Int)
      (cfg.BRIGHTNESS_MIN : Int) (s.brightness : Int)) ≤ raw := by
  rw [u8_of_lt raw (by omega), hmin, hmax, channel_scale raw s.brightness hv hB]
  exact scale_self_le raw s.brightness hB

theorem shift_div (x : Nat) : x >>> 1 = x / 2 ∧ x >>> 2 = x / 4 ∧ x >>> 0 = x := by
  refine ⟨?_, ?_, Nat.shiftRight_zero⟩
  · rw [Nat.shiftRight_eq_div_pow, Nat.pow_one]
  · rw [Nat.shiftRight_eq_div_pow]

theorem first_pixel_bound (cfg : Config) (hmin : cfg.BRIGHTNESS_MIN = 0)
    (hmax : cfg.BRIGHTNESS_MAX = 255) (s : FX) (hB : s.brightness ≤ 255) (p1 p0 : RGB)
    (h1 : channels_le 127 p1) (h0 : channels_le 127 p0) :
    first_raw_ok (color32 p1.r p1.g p1.b) (color32 p0.r p0.g p0.b) ∧
    channels_le 253 (first_pixel cfg s p1 p0) := by
  obtain ⟨a1, a2, a3⟩ := h1
  obtain ⟨b1, b2, b3⟩ := h0
  obtain ⟨m1, m2, m3⟩ := mask_shift_color32 p1.r p1.g p1.b (by omega) (by omega) (by omega)
  obtain ⟨n1, n2, n3⟩ := mask_shift_color32 p0.r p0.g p0.b (by omega) (by omega) (by omega)
  have r1 : fireworks_first_raw (color32 p1.r p1.g p1.b) (color32 p0.r p0.g p0.b) 16711680 16
      = p1.r / 2 + p0.r := by
    rw [fireworks_first_raw, m1, n1, (shift_div _).1]
  have r2 : fireworks_first_raw (color32 p1.r p1.g p1.b) (color32 p0.r p0.g p0.b) 65280 8
      = p1.g / 2 + p0.g := by
    rw [fireworks_first_raw, m2, n2, (shift_div _).1]
  have r3 : fireworks_first_raw (color32 p1.r p1.g p1.b) (color32 p0.r p0.g p0.b) 255 0
      = p1.b / 2 + p0.b := by
    rw [fireworks_first_raw, m3, n3, (shift_div _).1]
  have s1 := stored_channel_le cfg hmin hmax s hB _ (show
    fireworks_first_raw (color32 p1.r p1.g p1.b) (color32 p0.r p0.g p0.b) 16711680 16 ≤ 255 by
      rw [r1]; omega)
  have s2 := stored_channel_le cfg hmin hmax s hB _ (show
    fireworks_first_raw (color32 p1.r p1.g p1.b) (color32 p0.r p0.g p0.b) 65280 8 ≤ 255 by
      rw [r2]; omega)
  have s3 := stored_channel_le cfg hmin hmax s hB _ (show
    fireworks_first_raw (color32 p1.r p1.g p1.b) (color32 p0.r p0.g p0.b) 255 0 ≤ 255 by
      rw [r3]; omega)
  refine ⟨⟨by rw [r1]; omega, by rw [r2]; omega, by rw [r3]; omega⟩,
    le_trans s1 (by rw [r1]; omega), le_trans s2 (by rw [r2]; omega),
    le_trans s3 (by rw [r3]; omega)⟩

theorem mid_pixel_bound (cfg : Config) (hmin : cfg.BRIGHTNESS_MIN = 0)
    (hmax : cfg.BRIGHTNESS_MAX = 255) (s : FX) (hB : s.brightness ≤ 255) (pl pr pc : RGB)
    (hl : channels_le 253 pl) (hr : channels_le 127 pr) (hc : channels_le 127 pc) :
    mid_raw_ok (color32 pl.r pl.g pl.b) (color32 pr.r pr.g pr.b) (color32 pc.r pc.g pc.b) ∧
    channels_le 253 (mid_pixel cfg s pl pr pc) := by
  obtain ⟨a1, a2, a3⟩ := hl
  obtain ⟨b1, b2, b3⟩ := hr
  obtain ⟨c1, c2, c3⟩ := hc
  obtain ⟨m1, m2, m3⟩ := mask_shift_color32 pl.r pl.g pl.b (by omega) (by omega) (by omega)
  obtain ⟨n1, n2, n3⟩ := mask_shift_color32 pr.r pr.g pr.b (by omega) (by omega) (by omega)
  obtain ⟨o1, o2, o3⟩ := mask_shift_color32 pc.r pc.g pc.b (by omega) (by omega) (by omega)
  have r1 : fireworks_mid_raw (color32 pl.r pl.g pl.b) (color32 pr.r pr.g pr.b)
      (color32 pc.r pc.g pc.b) 16711680 16 = (pl.r / 2 + pr.r) / 2 + pc.r := by
    rw [fireworks_mid_raw, m1, n1, o1]
    simp only [(shift_div _).1, (shift_div _).2.2]
  have r2 : fireworks_mid_raw (color32 pl.r pl.g pl.b) (color32 pr.r pr.g pr.b)
      (color32 pc.r pc.g pc.b) 65280 8 = (pl.g / 2 + pr.g) / 2 + pc.g := by
    rw [fireworks_mid_raw, m2, n2, o2]
    simp only [(shift_div _).1, (shift_div _).2.2]
  have r3 : fireworks_mid_raw (color32 pl.r pl.g pl.b) (color32 pr.r pr.g pr.b)
      (color32 pc.r pc.g pc.b) 255 0 = (pl.b / 2 + pr.b) / 2 + pc.b := by
    rw [fireworks_mid_raw, m3, n3, o3]
    simp only [(shift_div _).1, (shift_div _).2.2]
  have s1 := stored_channel_le cfg hmin hmax s hB _ (show
    fireworks_mid_raw (color32 pl.r pl.g pl.b) (color32 pr.r pr.g pr.b)
      (color32 pc.r pc.g pc.b) 16711680 16 ≤ 255 by rw [r1]; omega)
  have s2 := stored_channel_le cfg hmin hmax s hB _ (show
    fireworks_mid_raw (color32 pl.r pl.g pl.b) (color32 pr.r pr.g pr.b)
      (color32 pc.r pc.g pc.b) 65280 8 ≤ 255 by rw [r2]; omega)
  have s3 := stored_channel_le cfg hmin hmax s hB _ (show
    fireworks_mid_raw (color32 pl.r pl.g pl.b) (color32 pr.r pr.g pr.b)
      (color32 pc.r pc.g pc.b) 255 0 ≤ 255 by rw [r3]; omega)
  refine ⟨⟨by rw [r1]; omega, by rw [r2]; omega, by rw [r3]; omega⟩,
    le_trans s1 (by rw [r1]; omega), le_trans s2 (by rw [r2]; omega),
    le_trans s3 (by rw [r3]; omega)⟩

theorem last_raw_bound (p2 p1 : RGB) (h2 : channels_le 253 p2) (h1 : channels_le 127 p1) :
    last_raw_ok (color32 p2.r p2.g p2.b) (color32 p1.r p1.g p1.b) := by
  obtain ⟨a1, a2, a3⟩ := h2
  obtain ⟨b1, b2, b3⟩ := h1
  obtain ⟨m1, m2, m3⟩ := mask_shift_color32 p2.r p2.g p2.b (by omega) (by omega) (by omega)
  obtain ⟨n1, n2, n3⟩ := mask_shift_color32 p1.r p1.g p1.b (by omega) (by omega) (by omega)
  refine ⟨?_, ?_, ?_⟩
  · rw [fireworks_last_raw, m1, n1, (shift_div _).2.1]
    omega
  · rw [fireworks_last_raw, m2, n2, (shift_div _).2.1]
    omega
  · rw [fireworks_last_raw, m3, n3, (shift_div _).2.1]
    omega

theorem fireworks_bounded_set (n i : Nat) (px : List RGB) (q : RGB)
    (hb : fireworks_bounded n i px) (hq : channels_le 253 q) :
    fireworks_bounded n (i + 1) (px.set i q) := by
  obtain ⟨b1, b2, b3⟩ := hb
  refine ⟨by rw [List.length_set]; exact b1, ?_, ?_⟩
  · intro p hp
    rcases List.mem_or_eq_of_mem_set hp with h | h
    · exact b2 p h
    · rw [h]; exact hq
  · intro j p hj hp
    rw [List.getElem?_set_ne (by omega)] at hp
    exact b3 j p (by omega) hp

theorem fireworks_bounded_step (cfg : Config) (hmin : cfg.BRIGHTNESS_MIN = 0)
    (hmax : cfg.BRIGHTNESS_MAX = 255) (s : FX) (hB : s.brightness ≤ 255)
    (n i : Nat) (px : List RGB) (hb : fireworks_bounded n i px) (hi1 : 1 ≤ i)
    (hi2 : i + 1 < n) :
    ∃ pl pr pc : RGB, px[i - 1]? = some pl ∧ px[i + 1]? = some pr ∧ px[i]? = some pc ∧
      mid_raw_ok (color32 pl.r pl.g pl.b) (color32 pr.r pr.g pr.b)
        (color32 pc.r pc.g pc.b) ∧
      fireworks_bounded n (i + 1) (px.set i (mid_pixel cfg s pl pr pc)) := by
  have hb' := hb
  obtain ⟨b1, b2, b3⟩ := hb
  have hl : px[i - 1]? = some (px.get ⟨i - 1, by omega⟩) := List.getElem?_eq_getElem (by omega)
  have hr : px[i + 1]? = some (px.get ⟨i + 1, by omega⟩) := List.getElem?_eq_getElem (by omega)
  have hc : px[i]? = some (px.get ⟨i, by omega⟩) := List.getElem?_eq_getElem (by omega)
  obtain ⟨g1, g2⟩ := mid_pixel_bound cfg hmin hmax s hB _ _ _
    (b2 _ (List.getElem?_mem hl)) (b3 _ _ (by omega) hr) (b3 _ _ (le_refl _) hc)
  exact ⟨_, _, _, hl, hr, hc, g1, fireworks_bounded_set n i px _ hb' g2⟩

theorem fireworks_loop_bounded (cfg : Config) (hmin : cfg.BRIGHTNESS_MIN = 0)
    (hmax : cfg.BRIGHTNESS_MAX = 255) (n : Nat) (hn : n < 65536) :
    ∀ (m i : Nat) (s : FX), s.inverted = false → s.brightness ≤ 255 → 1 ≤ i →
      i + m + 1 ≤ n → fireworks_bounded n i s.strip →
      ∃ px : List RGB, fireworks_loop cfg m i s = some { s with strip := px } ∧
        fireworks_bounded n (i + m) px := by
  intro m
  induction m with
  | zero =>
    intro i s _ _ _ _ hp
    exact ⟨s.strip, rfl, hp⟩
  | succ m ih =>
    intro i s hinv hB hi him hp
    obtain ⟨pl, pr, pc, hl, hr, hc, _, hp1⟩ :=
      fireworks_bounded_step cfg hmin hmax s hB n i s.strip hp hi (by omega)
    obtain ⟨px, h1, h2⟩ := ih (i + 1)
      { s with strip := s.strip.set i (mid_pixel cfg s pl pr pc) } hinv hB (by omega)
      (by omega) hp1
    refine ⟨px, ?_, ?_⟩
    · rw [fireworks_loop_succ cfg s m i pl pr pc hinv hi (by omega) hl hr hc]
      exact h1
    · have e : i + (m + 1) = i + 1 + m := by omega
      rw [e]
      exact h2

theorem fireworks_loop_add (cfg : Config) :
    ∀ (a b i : Nat) (s : FX),
      fireworks_loop cfg (a + b) i s
        = (fireworks_loop cfg a i s).bind (fireworks_loop cfg b (i + a)) := by
  intro a
  induction a with
  | zero =>
    intro b i s
    simp [fireworks_loop]
  | succ a ih =>
    intro b i s
    have e : a + 1 + b = (a + b) + 1 := by omega
    have e2 : i + (a + 1) = i + 1 + a := by omega
    rw [e, e2]
    simp only [fireworks_loop]
    cases WS2812_getPixelColor s (u16 ((i : Int) - 1)) with
    | none => rfl
    | some cl =>
      cases WS2812_getPixelColor s (u16 ((i : Int) + 1)) with
      | none => rfl
      | some cr =>
        cases WS2812_getPixelColor s i with
        | none => rfl
        | some c =>
          simp only [Option.some_bind]
          cases WS2812_setPixelColor cfg s i (fireworks_mid cl cr c 16711680 16)
              (fireworks_mid cl cr c 65280 8) (fireworks_mid cl cr c 255 0) with
          | none => rfl
          | some s1 =>
            simp only [Option.some_bind]
            exact ih b (i + 1) s1

theorem spark_loop_total (cfg : Config) :
    ∀ (m : Nat) (s : FX), s.inverted = false → 1 ≤ s.led_count → s.led_count < 65536 →
      s.led_count ≤ s.strip.length → ∃ s' : FX, spark_loop cfg m s = some s' := by
  intro m
  induction m with
  | zero =>
    intro s _ _ _ _
    exact ⟨s, rfl⟩
  | succ m ih =>
    intro s hinv h1 hlc hlen
    obtain ⟨f1, f2, f3, _, _, _⟩ := randomInRange_fields s 0 10
    by_cases hd : (randomInRange s 0 10).1 = 0
    · obtain ⟨g1, g2, g3, _, _, _⟩ :=
        randomInRange_fields (randomInRange s 0 10).2 0 s.led_count
      obtain ⟨_, hidx⟩ := randomInRange_bounds (randomInRange s 0 10).2 0 s.led_count
        (by omega) (by omega)
      have hu : u16 ((randomInRange (randomInRange s 0 10).2 0 s.led_count).1 : Int)
          = (randomInRange (randomInRange s 0 10).2 0 s.led_count).1 := by
        unfold u16; omega
      have hw := setPixelColor32_eq cfg
        (randomInRange (randomInRange s 0 10).2 0 s.led_count).2
        (randomInRange (randomInRange s 0 10).2 0 s.led_count).1 s.mode_color
        (by rw [g2, f2]; exact hlc) (by rw [g2, f2, g1, f1]; exact hlen)
        (by rw [g2, f2]; exact hidx)
      simp only [spark_loop, if_pos hd, hu]
      rw [hw, Option.some_bind]
      apply ih
      · show (randomInRange (randomInRange s 0 10).2 0 s.led_count).2.inverted = false
        rw [g3, f3]; exact hinv
      · show 1 ≤ (randomInRange (randomInRange s 0 10).2 0 s.led_count).2.led_count
        rw [g2, f2]; exact h1
      · show (randomInRange (randomInRange s 0 10).2 0 s.led_count).2.led_count < 65536
        rw [g2, f2]; exact hlc
      · show (randomInRange (randomInRange s 0 10).2 0 s.led_count).2.led_count
          ≤ (List.set _ _ _).length
        rw [List.length_set, g2, f2, g1, f1]; exact hlen
    · simp only [spark_loop, if_neg hd]
      exact ih _ (by rw [f3]; exact hinv) (by rw [f2]; exact h1) (by rw [f2]; exact hlc)
        (by rw [f2, f1]; exact hlen)

/-- C32: with brightness range 0..255, for every strip of n pixels, 2 ≤ n (n a
`uint16_t` value), whose driver buffer has exactly n pixels of byte channels, every
brightness up to 255 and inversion off, the fireworks frame completes, so every
index read or written is in 0..n-1 (any other aborts the run); and every channel
value of its diffusion pass is at most 254 before it is stored: for the first
pixel, for each interior pixel i in the state the in-place loop has reached at i,
and for the last pixel. -/
theorem fireworks_no_overflow (cfg : Config) (hmin : cfg.BRIGHTNESS_MIN = 0)
    (hmax : cfg.BRIGHTNESS_MAX = 255) (s : FX) (hn : 2 ≤ s.led_count)
    (hlc : s.led_count < 65536) (hlen : s.strip.length = s.led_count)
    (hinv : s.inverted = false) (hB : s.brightness ≤ 255) (hbytes : byte_pixels s.strip) :
    ∃ s1 s2 s3 s4 s5 : FX,
      fade_loop cfg s.led_count 0 s = some s1 ∧
      fireworks_first_led cfg s1 = some s2 ∧
      fireworks_loop cfg (s.led_count - 2) 1 s2 = some s3 ∧
      fireworks_last_led cfg s3 = some s4 ∧
      spark_loop cfg (max_u32 1 (s.led_count / 20)) s4 = some s5 ∧
      WS2812FX_mode_fireworks cfg s
        = some { s5 with mode_delay := delay_by_length cfg s5 20 20 } ∧
      (∃ c1 c0 : Nat, WS2812_getPixelColor s1 1 = some c1 ∧
        WS2812_getPixelColor s1 0 = some c0 ∧ first_raw_ok c1 c0) ∧
      (∀ i : Nat, 1 ≤ i → i + 1 < s.led_count →
        ∃ (si : FX) (cl cr c : Nat), fireworks_loop cfg (i - 1) 1 s2 = some si ∧
          fireworks_loop cfg (s.led_count - 1 - i) i si = some s3 ∧
          WS2812_getPixelColor si (i - 1) = some cl ∧
          WS2812_getPixelColor si (i + 1) = some cr ∧
          WS2812_getPixelColor si i = some c ∧ mid_raw_ok cl cr c) ∧
      (∃ c2 c1 : Nat, WS2812_getPixelColor s3 (s.led_count - 2) = some c2 ∧
        WS2812_getPixelColor s3 (s.led_count - 1) = some c1 ∧ last_raw_ok c2 c1) := by
  obtain ⟨px1, f1, f2, _, f4⟩ := fade_loop_spec cfg s.led_count 0 s hinv (by omega) hbytes
  have h127 : ∀ (j : Nat) (p : RGB), px1[j]? = some p → channels_le 127 p := by
    intro j p hp
    have hj : j < s.strip.length := by
      by_contra hcon
      rw [List.getElem?_eq_none (by omega)] at hp
      exact Option.noConfusion hp
    have hg : s.strip[j]? = some (s.strip.get ⟨j, hj⟩) := List.getElem?_eq_getElem hj
    have h := f4 j _ hg
    rw [hp, if_pos (by omega)] at h
    obtain ⟨a, b, c⟩ := hbytes _ (List.getElem?_mem hg)
    rw [Option.some.inj h, faded_pixel_val cfg hmin hmax s hB _ ⟨a, b, c⟩]
    have e1 := scale_self_le ((s.strip.get ⟨j, hj⟩).r / 2) s.brightness hB
    have e2 := scale_self_le ((s.strip.get ⟨j, hj⟩).g / 2) s.brightness hB
    have e3 := scale_self_le ((s.strip.get ⟨j, hj⟩).b / 2) s.brightness hB
    exact ⟨by show _ * _ / 255 ≤ 127; omega, by show _ * _ / 255 ≤ 127; omega,
      by show _ * _ / 255 ≤ 127; omega⟩
  have hb0 : fireworks_bounded s.led_count 0 px1 := by
    refine ⟨by omega, ?_, fun j p _ hp => h127 j p hp⟩
    intro p hp
    obtain ⟨j, hj⟩ := List.mem_iff_getElem?.1 hp
    obtain ⟨a, b, c⟩ := h127 j p hj
    exact ⟨by omega, by omega, by omega⟩
  have h1 : px1[1]? = some (px1.get ⟨1, by omega⟩) := List.getElem?_eq_getElem (by omega)
  have h0 : px1[0]? = some (px1.get ⟨0, by omega⟩) := List.getElem?_eq_getElem (by omega)
  obtain ⟨hraw0, hq0⟩ := first_pixel_bound cfg hmin hmax s hB _ _ (h127 1 _ h1) (h127 0 _ h0)
  have hfirst : fireworks_first_led cfg { s with strip := px1 } = some { s with
      strip := (px1.set 0 (first_pixel cfg s (px1.get ⟨1, by omega⟩) (px1.get ⟨0, by omega⟩))) } :=
    fireworks_first_led_eq cfg { s with strip := px1 } _ _ hinv h1 h0
  have hb1 : fireworks_bounded s.led_count 1
      (px1.set 0 (first_pixel cfg s (px1.get ⟨1, by omega⟩) (px1.get ⟨0, by omega⟩))) :=
    fireworks_bounded_set s.led_count 0 px1 _ hb0 hq0
  obtain ⟨px3, hloop, hb3⟩ := fireworks_loop_bounded cfg hmin hmax s.led_count hlc
    (s.led_count - 2) 1
    { s with strip :=
        (px1.set 0 (first_pixel cfg s (px1.get ⟨1, by omega⟩) (px1.get ⟨0, by omega⟩))) }
    hinv hB (le_refl _) (by omega) hb1
  have hloop' : fireworks_loop cfg (s.led_count - 2) 1 { s with
      strip := (px1.set 0 (first_pixel cfg s (px1.get ⟨1, by omega⟩) (px1.get ⟨0, by omega⟩))) }
      = some { s with strip := px3 } := hloop
  obtain ⟨q1, q2, q3⟩ := hb3
  have hl2 : px3[s.led_count - 2]? = some (px3.get ⟨s.led_count - 2, by omega⟩) :=
    List.getElem?_eq_getElem (by omega)
  have hl1 : px3[s.led_count - 1]? = some (px3.get ⟨s.led_count - 1, by omega⟩) :=
    List.getElem?_eq_getElem (by omega)
  have hrawl := last_raw_bound _ _ (q2 _ (List.getElem?_mem hl2)) (q3 _ _ (by omega) hl1)
  have hlast : fireworks_last_led cfg { s with strip := px3 } = some { s with
      strip := (px3.set (s.led_count - 1)
        (last_pixel cfg s (px3.get ⟨s.led_count - 2, by omega⟩)
          (px3.get ⟨s.led_count - 1, by omega⟩))) } :=
    fireworks_last_led_eq cfg { s with strip := px3 } _ _ hinv
      (by show 2 ≤ s.led_count; omega) hlc hl2 hl1
  obtain ⟨s5, hspark⟩ := spark_loop_total cfg (max_u32 1 (s.led_count / 20))
    { s with strip := (px3.set (s.led_count - 1)
        (last_pixel cfg s (px3.get ⟨s.led_count - 2, by omega⟩)
          (px3.get ⟨s.led_count - 1, by omega⟩))) }
    hinv (by show 1 ≤ s.led_count; omega) hlc
    (by show s.led_count ≤ (List.set _ _ _).length; rw [List.length_set]; omega)
  have hrun : WS2812FX_mode_fireworks cfg s =
      some { s5 with mode_delay := delay_by_length cfg s5 20 20 } := by
    unfold WS2812FX_mode_fireworks
    rw [f1]
    show (((fireworks_first_led cfg { s with strip := px1 }).bind _).bind _).bind _ = _
    rw [hfirst]
    show ((fireworks_loop cfg (s.led_count - 2) 1 { s with
      strip := (px1.set 0 (first_pixel cfg s (px1.get ⟨1, by omega⟩)
        (px1.get ⟨0, by omega⟩))) }).bind _).bind _ = _
    rw [hloop']
    show (fireworks_last_led cfg { s with strip := px3 }).bind _ = _
    rw [hlast]
    show (spark_loop cfg (max_u32 1 (s.led_count / 20)) { s with
      strip := (px3.set (s.led_count - 1)
        (last_pixel cfg s (px3.get ⟨s.led_count - 2, by omega⟩)
          (px3.get ⟨s.led_count - 1, by omega⟩))) }).map _ = _
    rw [hspark]
    rfl
  refine ⟨_, _, _, _, s5, f1, hfirst, hloop', hlast, hspark, hrun, ?_, ?_, ?_⟩
  · exact ⟨_, _, getPixelColor_eq { s with strip := px1 } 1 _ h1,
      getPixelColor_eq { s with strip := px1 } 0 _ h0, hraw0⟩
  · intro i hi1 hi2
    obtain ⟨pxi, hli, hbi⟩ := fireworks_loop_bounded cfg hmin hmax s.led_count hlc
      (i - 1) 1
      { s with strip :=
          (px1.set 0 (first_pixel cfg s (px1.get ⟨1, by omega⟩) (px1.get ⟨0, by omega⟩))) }
      hinv hB (le_refl _) (by omega) hb1
    have hli' : fireworks_loop cfg (i - 1) 1 { s with
        strip := (px1.set 0 (first_pixel cfg s (px1.get ⟨1, by omega⟩) (px1.get ⟨0, by omega⟩))) }
        = some { s with strip := pxi } := hli
    have e : 1 + (i - 1) = i := by omega
    rw [e] at hbi
    obtain ⟨pl, pr, pc, hl, hr, hc, hraw, _⟩ :=
      fireworks_bounded_step cfg hmin hmax s hB s.led_count i pxi hbi hi1 hi2
    have hadd := fireworks_loop_add cfg (i - 1) (s.led_count - 1 - i) 1 { s with
      strip := (px1.set 0 (first_pixel cfg s (px1.get ⟨1, by omega⟩) (px1.get ⟨0, by omega⟩))) }
    have e1 : i - 1 + (s.led_count - 1 - i) = s.led_count - 2 := by omega
    rw [e1, hloop', hli', e, Option.some_bind] at hadd
    exact ⟨{ s with strip := pxi }, _, _, _, hli', hadd.symm,
      getPixelColor_eq { s with strip := pxi } (i - 1) _ hl,
      getPixelColor_eq { s with strip := pxi } (i + 1) _ hr,
      getPixelColor_eq { s with strip := pxi } i _ hc, hraw⟩
  · exact ⟨_, _, getPixelColor_eq { s with strip := px3 } _ _ hl2,
      getPixelColor_eq { s with strip := px3 } _ _ hl1, hrawl⟩

theorem fireworks_no_overflow_witness :
    (WS2812FX_mode_fireworks refConfig fireworks_full_sample).map
      (fun s => s.strip.map (fun p => p.r)) = some [190, 238, 250, 253, 190] ∧
    ∃ s' : FX, WS2812FX_mode_fireworks refConfig fireworks_full_sample = some s' := by
  refine ⟨by decide, ?_⟩
  obtain ⟨_, _, _, _, s5, _, _, _, _, _, h, _⟩ :=
    fireworks_no_overflow refConfig rfl rfl fireworks_full_sample (by decide) (by decide) rfl
      rfl (by decide) (by unfold byte_pixels; decide)
  exact ⟨_, h⟩

end WS2812FX
